import Mathlib

/-!
# Cap: composite mesh assembly (`geometry.templates.h`)

A shallow embedding of the geometry code of Cap and theorems about it.

Conventions of the embedding:

* `double` values are exact rationals (`ℚ`): comparisons, sums and products are the
  mathematical ones, IEEE rounding is not part of the model. A quotient by zero, which is
  an infinity or a NaN for `double`, is `0` here; no theorem below depends on its value.
* `BOOST_ASSERT_MSG` is a checked assertion: a failed assertion ends the function with
  an error.
* The template parameter `dim` is written `d + 2`: the geometry is instantiated for
  `dim = 2` and `dim = 3`, so axis `0` and axis `dim - 1` are always different axes.
  `Fin.last (d + 1)` is the index `dim - 1`.
* `dealii::Point<dim>` and `dealii::Tensor<1, dim>` are coordinate functions
  `Fin dim → ℚ`.
-/

namespace cap

/-- A `dealii::Point<dim>` (also used for `dealii::Tensor<1, dim>`). -/
abbrev Point (dim : Nat) := Fin dim → ℚ

namespace internal

/-- The tolerance `double const eps = 1e-15` of both alignment transforms. -/
def transform_eps : ℚ := 1 / 10 ^ 15

/-- The function `transform_coll_a<dim>` with `dim = d + 2`. -/
def transform_coll_a {d : Nat} (p : Point (d + 2)) (scale_factor max_value : ℚ) :
    Point (d + 2) :=
  if p (Fin.last (d + 1)) < transform_eps ∨
      p (Fin.last (d + 1)) > max_value - transform_eps then
    p
  else
    Function.update p (Fin.last (d + 1)) (p (Fin.last (d + 1)) * scale_factor)

/-- The function `transform_coll_c<dim>` with `dim = d + 2`. -/
def transform_coll_c {d : Nat} (p : Point (d + 2)) (scale_factor max_value offset : ℚ) :
    Point (d + 2) :=
  if p (Fin.last (d + 1)) < transform_eps ∨
      p (Fin.last (d + 1)) > max_value - transform_eps then
    p
  else
    Function.update p (Fin.last (d + 1)) (p (Fin.last (d + 1)) * scale_factor + offset)


/-! ## Meshes

The distributed triangulation of deal.II is a library type. The assembly code only
builds structured grids, moves vertices and merges meshes, so a triangulation is the
list of its cells, each with its material id and its vertices. -/

/-- A cell of a triangulation: its material id and its vertices. -/
structure Cell (dim : Nat) where
  material_id : Nat
  vertices : List (Point dim)

/-- A coarse triangulation, as the list of its cells in iteration order. -/
abbrev Triangulation (dim : Nat) := List (Cell dim)

/-- The multi-indices `idx` with `idx i < reps i` on every axis, axis `0` running
fastest. -/
def grid_indices : (dim : Nat) → (Fin dim → Nat) → List (Fin dim → Nat)
  | 0, _ => [fun i => i.elim0]
  | n + 1, reps =>
    (grid_indices n (fun i => reps i.succ)).flatMap fun t =>
      (List.range (reps 0)).map fun i => (Fin.cons i t : Fin (n + 1) → Nat)

/-- Library primitive `dealii::GridGenerator::subdivided_hyper_rectangle`: the regular
grid of `repetitions[i]` cells per axis between the corners `p_1` and `p_2`. The corners
are first ordered on every axis (`p1` the lower, `p2` the upper one); the vertex with
multi-index `j` lies at `p1 + j * delta`, `delta = (p2 - p1) / repetitions`, and new cells
carry material id `0`. -/
def subdivided_hyper_rectangle {dim : Nat} (repetitions : List Nat) (p_1 p_2 : Point dim) :
    Triangulation dim :=
  let p1 : Point dim := fun i => min (p_1 i) (p_2 i)
  let p2 : Point dim := fun i => max (p_1 i) (p_2 i)
  (grid_indices dim (fun i => repetitions.getD i 0)).map fun idx =>
    { material_id := 0
      vertices := (grid_indices dim (fun _ => 2)).map fun b => fun i =>
        p1 i + ((idx i + b i : Nat) : ℚ) * ((p2 i - p1 i) / (repetitions.getD i 0 : ℚ)) }

/-- The loop `for (auto cell : tria.cell_iterators()) cell->set_material_id(id)`. -/
def set_material_id {dim : Nat} (id : Nat) (tria : Triangulation dim) : Triangulation dim :=
  tria.map fun cell => { cell with material_id := id }

/-- Library primitive `dealii::GridTools::transform`: applies the map to every vertex. -/
def GridTools_transform {dim : Nat} (f : Point dim → Point dim) (tria : Triangulation dim) :
    Triangulation dim :=
  tria.map fun cell => { cell with vertices := cell.vertices.map f }

/-- Library primitive `dealii::GridTools::shift`: adds the shift vector to every vertex. -/
def GridTools_shift {dim : Nat} (shift_vector : Point dim) (tria : Triangulation dim) :
    Triangulation dim :=
  tria.map fun cell => { cell with vertices := cell.vertices.map fun v => v + shift_vector }

/-- Library primitive `dealii::GridGenerator::merge_triangulations`: the cells of the first
mesh followed by the cells of the second one, each with the material id it had. -/
def merge_triangulations {dim : Nat} (t1 t2 : Triangulation dim) : Triangulation dim :=
  t1 ++ t2

/-- The struct `Component<dim>`. -/
structure Component (dim : Nat) where
  offset : ℚ
  box_dimensions : List (Point dim)
  repetitions : List Nat
  triangulation : Triangulation dim
  shift_vector : Point dim

/-- The constructor `Component(MPI_Comm)`. -/
def Component.new (dim : Nat) : Component dim :=
  { offset := 0, box_dimensions := [], repetitions := [], triangulation := [],
    shift_vector := 0 }

/-- The constructor `Component(box, repetitions, MPI_Comm)`. -/
def Component.of_box {dim : Nat} (box : List (Point dim)) (repetitions : List Nat) :
    Component dim :=
  { offset := 0, box_dimensions := box, repetitions := repetitions, triangulation := [],
    shift_vector := 0 }

/-- The two entries of a component's sub-database that `read_component_database` reads,
already split into numbers by `to_vector`. -/
structure ComponentDatabase where
  divisions : List Nat
  dimensions : List ℚ

/-- The function `read_component_database<dim>`: the far corner has the first `dim`
entries of `dimensions` as coordinates. -/
def read_component_database {dim : Nat} (database : ComponentDatabase)
    (component : Component dim) : Component dim :=
  { component with
    repetitions := database.divisions
    box_dimensions :=
      component.box_dimensions ++ [(0 : Point dim), fun i => database.dimensions.getD i 0] }

/-- The function `merge_components<dim>` with `dim = d + 2`: returns the updated component
and the updated global triangulation. -/
def merge_components {d : Nat} (component : Component (d + 2)) (offset : ℚ)
    (_triangulation : Triangulation (d + 2)) :
    Component (d + 2) × Triangulation (d + 2) :=
  let shift_vector := Function.update component.shift_vector 0 (offset - component.offset)
  let triangulation := GridTools_shift shift_vector component.triangulation
  let tmp_triangulation := merge_triangulations _triangulation triangulation
  ({ component with
      offset := offset
      triangulation := triangulation
      shift_vector :=
        if shift_vector (Fin.last (d + 1)) ≠ 0 then
          Function.update shift_vector (Fin.last (d + 1)) 0
        else shift_vector },
    tmp_triangulation)

end internal

open internal

/-! ## The stack of `mesh_generator` -/

/-- The five `Component` objects that `mesh_generator` builds. -/
inductive ComponentId where
  | anode
  | separator
  | cathode
  | collector_c
  | collector_a
  deriving DecidableEq, Repr

/-- The local variables `anode`, `separator`, `cathode`, `collector_c` and `collector_a`
of `mesh_generator`. -/
structure Components (dim : Nat) where
  anode : Component dim
  separator : Component dim
  cathode : Component dim
  collector_c : Component dim
  collector_a : Component dim

/-- Dereferences a pointer of the array `components`. -/
def Components.get {dim : Nat} (cs : Components dim) : ComponentId → Component dim
  | .anode => cs.anode
  | .separator => cs.separator
  | .cathode => cs.cathode
  | .collector_c => cs.collector_c
  | .collector_a => cs.collector_a

/-- Writes through a pointer of the array `components`. -/
def Components.set {dim : Nat} (cs : Components dim) (id : ComponentId)
    (c : Component dim) : Components dim :=
  match id with
  | .anode => { cs with anode := c }
  | .separator => { cs with separator := c }
  | .cathode => { cs with cathode := c }
  | .collector_c => { cs with collector_c := c }
  | .collector_a => { cs with collector_a := c }

/-- The array `components` of `mesh_generator`: the merge order. -/
def components : List ComponentId :=
  [.anode, .separator, .cathode, .collector_c, .cathode, .separator, .anode, .collector_a]

/-- The entry `components[pos]`; `pos` stays below `8`. -/
def components_at (pos : Nat) : ComponentId :=
  components.getD pos .collector_a

/-- The value `component.box_dimensions[1][0]`: the extent along axis `0`. -/
def internal.Component.extent {d : Nat} (c : Component (d + 2)) : ℚ :=
  (c.box_dimensions.getD 1 0) 0

/-- The state of the merge loop of `mesh_generator`. The field `calls` is a history
variable: the component and the offset passed to each call of `merge_components` so far,
oldest first. -/
structure MergeState (dim : Nat) where
  comps : Components dim
  triangulation : Triangulation dim
  offset : ℚ
  pos : Nat
  calls : List (ComponentId × ℚ)

/-- The state at the head of the merge loop: the global mesh is a copy of the mesh of
`collector_a`, `offset = collector_a.box_dimensions[1][0]` and `pos = 0`. -/
def merge_init {d : Nat} (cs : Components (d + 2)) : MergeState (d + 2) :=
  { comps := cs
    triangulation := cs.collector_a.triangulation
    offset := cs.collector_a.extent
    pos := 0
    calls := [] }

/-- The body of the inner loop: one call of `merge_components` on `*components[pos]`,
then `offset += components[pos]->box_dimensions[1][0]; ++pos; pos = pos % 8`. -/
def merge_body {d : Nat} (s : MergeState (d + 2)) : MergeState (d + 2) :=
  let id := components_at s.pos
  let r := merge_components (s.comps.get id) s.offset s.triangulation
  { comps := s.comps.set id r.1
    triangulation := r.2
    offset := s.offset + r.1.extent
    pos := (s.pos + 1) % 8
    calls := s.calls ++ [(id, s.offset)] }

/-- The inner loop `for (unsigned int j = 0; j < 4; ++j)`. -/
def inner_loop {d : Nat} (s : MergeState (d + 2)) : MergeState (d + 2) :=
  merge_body^[4] s

/-- The outer loop `for (unsigned int i = 0; i <= n_repetitions; ++i)` from the value `i`
of the 32-bit counter on; `fuel` bounds the number of tests of the loop condition, and
`none` is returned when it runs out. -/
def merge_loop {d : Nat} (n_repetitions : Nat) :
    Nat → Nat → MergeState (d + 2) → Option (MergeState (d + 2))
  | 0, _, _ => none
  | fuel + 1, i, s =>
    if i ≤ n_repetitions then
      merge_loop n_repetitions fuel ((i + 1) % 2 ^ 32) (inner_loop s)
    else some s

/-- The conversion of an `int` to `unsigned int`. -/
def to_unsigned (v : Int) : Nat :=
  (v % 2 ^ 32).toNat

/-- The part of the database that `mesh_generator` reads before and in the merge loop:
the four component sub-databases and the optional `int` entry `n_repetitions`. -/
structure Database where
  collector : ComponentDatabase
  anode : ComponentDatabase
  cathode : ComponentDatabase
  separator : ComponentDatabase
  n_repetitions : Option Int

/-- The material ids `*(*_materials)[name].begin()` that `mesh_generator` gives to the
cells of the five components. -/
structure MaterialIds where
  anode : Nat
  cathode : Nat
  separator : Nat
  collector_anode : Nat
  collector_cathode : Nat

/-- The first part of `mesh_generator` (up to the definition of the array `components`):
reads the four sub-databases, builds and tags the five meshes, and aligns the two
collectors with the electrodes. -/
def build_components {d : Nat} (ids : MaterialIds) (database : Database) :
    Components (d + 2) :=
  let collector_a : Component (d + 2) :=
    read_component_database database.collector (Component.new (d + 2))
  let collector_c : Component (d + 2) :=
    Component.of_box collector_a.box_dimensions collector_a.repetitions
  let anode := read_component_database database.anode (Component.new (d + 2))
  let cathode := read_component_database database.cathode (Component.new (d + 2))
  let separator := read_component_database database.separator (Component.new (d + 2))
  let anode := { anode with
    triangulation := set_material_id ids.anode
      (subdivided_hyper_rectangle anode.repetitions (anode.box_dimensions.getD 0 0)
        (anode.box_dimensions.getD 1 0)) }
  let cathode := { cathode with
    triangulation := set_material_id ids.cathode
      (subdivided_hyper_rectangle cathode.repetitions (cathode.box_dimensions.getD 0 0)
        (cathode.box_dimensions.getD 1 0)) }
  let separator := { separator with
    triangulation := set_material_id ids.separator
      (subdivided_hyper_rectangle separator.repetitions (separator.box_dimensions.getD 0 0)
        (separator.box_dimensions.getD 1 0)) }
  let anode_dim : ℚ := (anode.box_dimensions.getD 1 0) (Fin.last (d + 1))
  let collector_dim : ℚ := (collector_a.box_dimensions.getD 1 0) (Fin.last (d + 1))
  let delta_collector : ℚ := collector_dim / (collector_a.repetitions.getD (d + 1) 0 : ℚ)
  let scale_factor_a : ℚ := anode_dim / (collector_dim - delta_collector)
  let collector_a := { collector_a with
    triangulation := GridTools_transform
      (fun p => transform_coll_a p scale_factor_a
        ((collector_a.box_dimensions.getD 1 0) (Fin.last (d + 1))))
      (set_material_id ids.collector_anode
        (subdivided_hyper_rectangle collector_a.repetitions
          (collector_a.box_dimensions.getD 0 0) (collector_a.box_dimensions.getD 1 0))) }
  let scale_factor_c : ℚ := anode_dim / (collector_dim - delta_collector)
  let collector_c := { collector_c with
    triangulation := GridTools_transform
      (fun p => transform_coll_c p scale_factor_c
        ((collector_c.box_dimensions.getD 1 0) (Fin.last (d + 1)))
        (collector_dim - anode_dim - scale_factor_c * delta_collector))
      (set_material_id ids.collector_cathode
        (subdivided_hyper_rectangle collector_c.repetitions
          (collector_c.box_dimensions.getD 0 0) (collector_c.box_dimensions.getD 1 0)))
    shift_vector :=
      Function.update collector_c.shift_vector (Fin.last (d + 1))
        (-(collector_dim - anode_dim)) }
  { anode := anode, separator := separator, cathode := cathode,
    collector_c := collector_c, collector_a := collector_a }

/-- The merge loop of `mesh_generator` on the built components, with
`unsigned int const n_repetitions = database.get("n_repetitions", 1)`. -/
def stack_merge {d : Nat} (cs : Components (d + 2)) (database : Database) (fuel : Nat) :
    Option (MergeState (d + 2)) :=
  merge_loop (to_unsigned (database.n_repetitions.getD 1)) fuel 0 (merge_init cs)


/-- The state of the merge loop after `k` executions of its body, that is after `k`
merges. -/
def merge_run {d : Nat} (cs : Components (d + 2)) (k : Nat) : MergeState (d + 2) :=
  merge_body^[k] (merge_init cs)

/-! ## The Layer Catalog and the cell weights -/

/-- The maps `_materials` and `_boundaries`, of type
`std::unordered_map<std::string, std::set<id>>`: the entries, with distinct names. -/
abbrev TagMap := List (String × Finset Nat)

/-- The tag set stored under a name, empty when the map has no such name. -/
def TagMap.tags (m : TagMap) (name : String) : Finset Nat :=
  (m.lookup name).getD ∅

/-- The access `map[name]` of `std::unordered_map`: the set stored under `name`, and the
map afterwards, which has a new entry with the empty set when `name` was missing. -/
def TagMap.index (m : TagMap) (name : String) : Finset Nat × TagMap :=
  match m.lookup name with
  | some s => (s, m)
  | none => (∅, m ++ [(name, ∅)])

/-- The materials of `fill_material_and_boundary_maps()`, the default catalog. -/
def default_materials : TagMap :=
  [("anode", {0}), ("separator", {1}), ("cathode", {2}), ("collector_anode", {3}),
    ("collector_cathode", {4}), ("collector", {3, 4})]

/-- The boundaries of `fill_material_and_boundary_maps()`, the default catalog. -/
def default_boundaries : TagMap :=
  [("anode", {1}), ("cathode", {2})]

/-- The enum `internal::WEIGHT_TYPE`. -/
inductive internal.WEIGHT_TYPE where
  | anode
  | cathode
  | separator
  | collector
  deriving DecidableEq, Repr

/-- The library constant `dealii::numbers::invalid_unsigned_int`, which is
`static_cast<unsigned int>(-1)`. -/
def invalid_unsigned_int : Nat := 2 ^ 32 - 1

/-- The method `Geometry<dim>::compute_cell_weight` on a cell of material id `material`:
the weight and the materials map after the four accesses `(*_materials)[name]`. -/
def compute_cell_weight (_materials : TagMap) (material : Nat)
    (weights : WEIGHT_TYPE → Nat) : Nat × TagMap :=
  let anode := _materials.index "anode"
  let cathode := anode.2.index "cathode"
  let separator := cathode.2.index "separator"
  let collector := separator.2.index "collector"
  (if material ∈ anode.1 then weights WEIGHT_TYPE.anode
    else if material ∈ cathode.1 then weights WEIGHT_TYPE.cathode
    else if material ∈ separator.1 then weights WEIGHT_TYPE.separator
    else if material ∈ collector.1 then weights WEIGHT_TYPE.collector
    else invalid_unsigned_int,
    collector.2)

/-- A weight configuration in which the anode weight is `4294967295`, the value that the
entry `anode.weight = -1` gives after the conversion to `unsigned int`. -/
def sentinel_weights : WEIGHT_TYPE → Nat
  | .anode => 4294967295
  | .cathode => 2
  | .separator => 1
  | .collector => 1

/-- A weight configuration: anode `5`, cathode `4`, separator `2`, collector `1`. -/
def sample_weights : WEIGHT_TYPE → Nat
  | .anode => 5
  | .cathode => 4
  | .separator => 2
  | .collector => 1

/-! ## The boundary recovery pass -/

/-- What `set_boundary_ids` reads of a cell: its material id, the flags `is_locally_owned`
and `at_boundary`, its measure, and its faces `face(0), face(1), ...` as indices of the
faces of the triangulation. -/
structure CellView where
  material_id : Nat
  is_locally_owned : Bool
  at_boundary : Bool
  measure : ℚ
  faces : List Nat

/-- The triangulation as one rank sees it in `set_boundary_ids`: its cells in iteration
order, the centre of every face and the boundary id of every face. -/
structure TriaView (dim : Nat) where
  cells : List CellView
  face_center : Nat → Point dim
  boundary_id : Nat → Nat

/-- Library predicate `dealii::IteratorFilters::MaterialIdEqualTo(material_ids,
only_locally_owned)`. -/
def MaterialIdEqualTo (material_ids : Finset Nat) (only_locally_owned : Bool)
    (cell : CellView) : Bool :=
  if only_locally_owned then cell.is_locally_owned && decide (cell.material_id ∈ material_ids)
  else decide (cell.material_id ∈ material_ids)

/-- The tolerance `double const eps = 1e-6` of `set_boundary_ids`. -/
def boundary_eps : ℚ := 1 / 10 ^ 6

/-- The loop over the faces of one cell: a face whose centre lies at `expected` on the last
axis, within `eps * cell->measure()`, gets the boundary id and sets the flag. The state
is the boundary id of every face and the flag `boundary_id_set`. -/
def tag_faces {d : Nat} (face_center : Nat → Point (d + 2)) (expected : ℚ) (id : Nat)
    (cell : CellView) (st : (Nat → Nat) × Nat) : (Nat → Nat) × Nat :=
  cell.faces.foldl
    (fun st f =>
      if |face_center f (Fin.last (d + 1)) - expected| < boundary_eps * cell.measure then
        (Function.update st.1 f id, 1)
      else st)
    st

/-- The loop over the filtered cells of one terminal class on one rank, from
`boundary_id_set = 0`: the triangulation afterwards and the local flag. The source has this
loop twice, for the anode and for the cathode terminal. -/
def tag_terminal {d : Nat} (material_ids : Finset Nat) (only_locally_owned : Bool)
    (expected : ℚ) (id : Nat) (tria : TriaView (d + 2)) : TriaView (d + 2) × Nat :=
  let r := tria.cells.foldl
    (fun st cell =>
      if MaterialIdEqualTo material_ids only_locally_owned cell = true then
        if cell.at_boundary = true then tag_faces tria.face_center expected id cell st
        else st
      else st)
    (tria.boundary_id, 0)
  ({ tria with boundary_id := r.1 }, r.2)

/-- Library primitive `dealii::Utilities::MPI::max` on one value per rank. -/
def MPI_max (values : List Nat) : Nat :=
  values.foldr max 0

/-- The ways in which `set_boundary_ids` fails: the assertion of `get_boundary_id` on the
boundary name, and the two assertions on the reduced flag. -/
inductive BoundaryFailure where
  | boundary_id_size (name : String)
  | anode_not_set
  | cathode_not_set
  deriving DecidableEq, Repr

/-- The helper lambda `get_boundary_id` of `set_boundary_ids`: asserts that the set
`(*_boundaries)[b]` has size one and returns its first element, with the boundaries map
after the access. -/
def get_boundary_id (_boundaries : TagMap) (b : String) :
    Except BoundaryFailure (Nat × TagMap) :=
  if h : (_boundaries.index b).1.card = 1 then
    Except.ok ((_boundaries.index b).1.min' (Finset.card_pos.mp (by omega)),
      (_boundaries.index b).2)
  else Except.error (BoundaryFailure.boundary_id_size b)

/-- The method `Geometry<dim>::set_boundary_ids`, run on every rank of the communicator;
`BOOST_ASSERT_MSG` is a checked assertion. It returns the triangulation of every rank and
the two maps of the catalog afterwards. -/
def set_boundary_ids {d : Nat} (_materials _boundaries : TagMap)
    (ranks : List (TriaView (d + 2))) (collector_top collector_bottom : ℚ) :
    Except BoundaryFailure (List (TriaView (d + 2)) × TagMap × TagMap) :=
  let locally_owned := false
  let collector_anode := _materials.index "collector_anode"
  match get_boundary_id _boundaries "anode" with
  | Except.error e => Except.error e
  | Except.ok (anode_boundary_id, boundaries_a) =>
    let anode_pass :=
      ranks.map (tag_terminal collector_anode.1 locally_owned collector_top anode_boundary_id)
    if MPI_max (anode_pass.map Prod.snd) ≠ 1 then Except.error BoundaryFailure.anode_not_set
    else
      let collector_cathode := collector_anode.2.index "collector_cathode"
      match get_boundary_id boundaries_a "cathode" with
      | Except.error e => Except.error e
      | Except.ok (cathode_boundary_id, boundaries_c) =>
        let cathode_pass :=
          (anode_pass.map Prod.fst).map
            (tag_terminal collector_cathode.1 locally_owned collector_bottom
              cathode_boundary_id)
        if MPI_max (cathode_pass.map Prod.snd) ≠ 1 then
          Except.error BoundaryFailure.cathode_not_set
        else Except.ok (cathode_pass.map Prod.fst, collector_cathode.2, boundaries_c)

/-- On at least one rank, some at-boundary cell of the class `material_ids` has a face
whose centre's last-axis coordinate differs from `expected` by less than `1e-6` times the
measure of the cell. -/
def has_terminal_face {d : Nat} (material_ids : Finset Nat) (expected : ℚ)
    (ranks : List (TriaView (d + 2))) : Prop :=
  ∃ tria ∈ ranks, ∃ cell ∈ tria.cells, cell.material_id ∈ material_ids ∧
    cell.at_boundary = true ∧
    ∃ f ∈ cell.faces,
      |tria.face_center f (Fin.last (d + 1)) - expected| < boundary_eps * cell.measure

/-- Face `g` is a face of some at-boundary cell of the class `material_ids` on this rank
and its centre's last-axis coordinate differs from `expected` by less than `1e-6` times
the measure of that cell. -/
def is_terminal_face {d : Nat} (material_ids : Finset Nat) (expected : ℚ)
    (tria : TriaView (d + 2)) (g : Nat) : Prop :=
  ∃ cell ∈ tria.cells, cell.material_id ∈ material_ids ∧ cell.at_boundary = true ∧
    g ∈ cell.faces ∧
    |tria.face_center g (Fin.last (d + 1)) - expected| < boundary_eps * cell.measure

/-- One rank's view of the two terminal cells of the sample stack: the top cell of
`collector_a` (material id `3`, faces `0 .. 3`, top face `3` at height `3/2`) and the
bottom cell of `collector_c` (material id `4`, faces `4 .. 7`, bottom face `6` at height
`-1/2`); every other face centre lies at height `1/4`. -/
def sample_tria : TriaView (0 + 2) :=
  { cells :=
      [{ material_id := 3, is_locally_owned := true, at_boundary := true,
          measure := 1 / 100000, faces := [0, 1, 2, 3] },
        { material_id := 4, is_locally_owned := true, at_boundary := true,
          measure := 1 / 100000, faces := [4, 5, 6, 7] }]
    face_center := fun f =>
      if f = 3 then ![1 / 100000, 3 / 2] else if f = 6 then ![3 / 20000, -1 / 2]
      else ![0, 1 / 4]
    boundary_id := fun _ => 0 }

/-- A boundaries map whose `anode` entry has two tags. -/
def two_tag_boundaries : TagMap :=
  [("anode", {1, 5}), ("cathode", {2})]

/-- The total translation of a component that was built as `c0` and is now placed at
`offset`: `offset` along axis `0` and the vertical shift set at construction on the other
axes. -/
def placed {d : Nat} (c0 : Component (d + 2)) (offset : ℚ) : Point (d + 2) :=
  fun i => if i = 0 then offset else c0.shift_vector i

/-- The axis-0 position where the layer of merge `k` has to start: the extent of the seed
collector plus the extents of the components merged at steps `0 .. k - 1`. -/
def layer_start {d : Nat} (cs : Components (d + 2)) (k : Nat) : ℚ :=
  cs.collector_a.extent + ∑ j in Finset.range k, (cs.get (components_at (j % 8))).extent

/-- Material ids of a two-dimensional default catalog: anode `0`, separator `1`,
cathode `2`, collectors `3` and `4`. -/
def sample_ids : MaterialIds :=
  { anode := 0, cathode := 2, separator := 1, collector_anode := 3, collector_cathode := 4 }

/-- A two-dimensional stack with one cycle: collectors `1/50000 × 3/2` with two vertical
subdivisions, electrodes `1/20000 × 1`, separator `1/40000 × 1`. -/
def sample_database : Database :=
  { collector := { divisions := [1, 2], dimensions := [1 / 50000, 3 / 2] }
    anode := { divisions := [1, 1], dimensions := [1 / 20000, 1] }
    cathode := { divisions := [1, 1], dimensions := [1 / 20000, 1] }
    separator := { divisions := [1, 1], dimensions := [1 / 40000, 1] }
    n_repetitions := some 0 }

/-- The stack of `sample_database` with an anode whose extent along axis `0` is zero. -/
def flat_anode_database : Database :=
  { sample_database with anode := { divisions := [1, 1], dimensions := [0, 1] } }

/-- The components that `mesh_generator` builds from `sample_database`, in two
dimensions. -/
def sample_components : Components (0 + 2) :=
  build_components sample_ids sample_database

/-- The components that `mesh_generator` builds from `flat_anode_database`, in two
dimensions. -/
def flat_anode_components : Components (0 + 2) :=
  build_components sample_ids flat_anode_database

/-- The sample stack with two cycles, `n_repetitions = 1`. -/
def two_cycle_database : Database :=
  { sample_database with n_repetitions := some 1 }

/-- The components that `mesh_generator` builds from `two_cycle_database`, in two
dimensions. -/
def two_cycle_components : Components (0 + 2) :=
  build_components sample_ids two_cycle_database

/-- The value `scale_factor_a`, and equally `scale_factor_c`, of `mesh_generator`:
`anode_dim / (collector_dim - delta_collector)` with
`delta_collector = collector_dim / collector_a.repetitions[dim - 1]`. -/
def collector_scale_factor (anode_dim collector_dim : ℚ) (n : Nat) : ℚ :=
  anode_dim / (collector_dim - collector_dim / (n : ℚ))

/-- The offset that `mesh_generator` passes to `transform_coll_c`:
`collector_dim - anode_dim - scale_factor_c * delta_collector`. -/
def collector_c_offset (anode_dim collector_dim : ℚ) (n : Nat) : ℚ :=
  collector_dim - anode_dim -
    collector_scale_factor anode_dim collector_dim n * (collector_dim / (n : ℚ))

/-- The arguments `collector_top` and `collector_bottom` of the call of `set_boundary_ids`
at the end of `mesh_generator`: `collector_a.box_dimensions[1][dim - 1]` and
`-(collector_dim - anode_dim)`. -/
def boundary_arguments {d : Nat} (cs : Components (d + 2)) : ℚ × ℚ :=
  ((cs.collector_a.box_dimensions.getD 1 0) (Fin.last (d + 1)),
    -((cs.collector_a.box_dimensions.getD 1 0) (Fin.last (d + 1)) -
      (cs.anode.box_dimensions.getD 1 0) (Fin.last (d + 1))))

/-- The shift vector that merge `k` applies to the mesh of its component: the
`shift_vector` of the component with its axis-0 entry set to `offset - component.offset`,
as passed to `dealii::GridTools::shift` in `merge_components`. -/
def applied_shift {d : Nat} (cs : Components (d + 2)) (k : Nat) : Point (d + 2) :=
  Function.update ((merge_run cs k).comps.get (components_at (k % 8))).shift_vector 0
    ((merge_run cs k).offset - ((merge_run cs k).comps.get (components_at (k % 8))).offset)

/-! ## Exceptions, and the device factory of `energy_storage_device.cc` -/

/-- The exceptions that the embedded code throws: the `ptree_bad_path` or
`ptree_bad_data` of `get<T>(path)` on an entry that is missing or not a `T`, and
`std::runtime_error` with its message. -/
inductive Exception where
  | ptree_error (path : String)
  | runtime_error (what : String)
  deriving DecidableEq, Repr

/-- The class of the device that `buildEnergyStorageDevice` constructs; the constructors
themselves belong to other files. -/
inductive DeviceClass where
  | SeriesRC
  | ParallelRC
  | NoName (dim : Nat)
  deriving DecidableEq, Repr

/-- The entries of the database that `buildEnergyStorageDevice` reads: the optional string
`type` and the `int` entry `dim`, `none` when it is missing or not an `int`. -/
structure DeviceDatabase where
  type : Option String
  dim : Option Int

/-- The function `buildEnergyStorageDevice`. -/
def buildEnergyStorageDevice (database : DeviceDatabase) : Except Exception DeviceClass :=
  let type := database.type.getD "unknown_type"
  if type = "SeriesRC" then Except.ok DeviceClass.SeriesRC
  else if type = "ParallelRC" then Except.ok DeviceClass.ParallelRC
  else if type = "NoName" then
    match database.dim with
    | none => Except.error (Exception.ptree_error "dim")
    | some dim =>
      if dim = 2 then Except.ok (DeviceClass.NoName 2)
      else if dim = 3 then Except.ok (DeviceClass.NoName 3)
      else Except.error
        (Exception.runtime_error ("dim=" ++ toString dim ++ " must be 2 or 3"))
  else Except.error
    (Exception.runtime_error ("invalid energy storage type ``" ++ type ++ "''\n"))

/-! ## The configured catalog and the file mode of the constructor -/

/-- The insertion `map.emplace(name, set)` of `std::unordered_map`: a name that is already
in the map keeps its set. -/
def TagMap.emplace (m : TagMap) (name : String) (s : Finset Nat) : TagMap :=
  if (m.lookup name).isSome then m else m ++ [(name, s)]

/-- A child `material_<m>` or `boundary_<b>` of the database: its entry `material_id` or
`boundary_id`, split into numbers by `to_vector`, and its entry `name`; `none` stands for
an entry that is missing or malformed. -/
structure TagEntry where
  ids : Option (List Nat)
  name : Option String

/-- The entries of the database that `fill_material_and_boundary_maps(database)` reads:
the `int` entries `materials` and `boundaries` and the children `material_<m>` and
`boundary_<b>`. -/
structure CatalogDatabase where
  materials : Option Int
  material : Nat → Option TagEntry
  boundaries : Option Int
  boundary : Nat → Option TagEntry

/-- One of the two loops of `fill_material_and_boundary_maps(database)`, over the children
`<kind>_0, ..., <kind>_(n - 1)`: reads the ids, then the name, and emplaces the pair. -/
def fill_entries (kind id_key : String) (child : Nat → Option TagEntry) (n : Int) :
    Except Exception TagMap :=
  (List.range n.toNat).foldlM
    (fun (map : TagMap) (m : Nat) =>
      match child m with
      | none => Except.error (Exception.ptree_error (kind ++ "_" ++ toString m))
      | some entry =>
        match entry.ids with
        | none => Except.error (Exception.ptree_error id_key)
        | some ids =>
          match entry.name with
          | none => Except.error (Exception.ptree_error "name")
          | some name => Except.ok (map.emplace name ids.toFinset))
    []

/-- The method `Geometry<dim>::fill_material_and_boundary_maps(database)`: the maps
`_materials` and `_boundaries` of a configured catalog. -/
def fill_material_and_boundary_maps (database : CatalogDatabase) :
    Except Exception (TagMap × TagMap) :=
  match database.materials with
  | none => Except.error (Exception.ptree_error "materials")
  | some n_materials =>
    match fill_entries "material" "material_id" database.material n_materials with
    | Except.error e => Except.error e
    | Except.ok _materials =>
      match database.boundaries with
      | none => Except.error (Exception.ptree_error "boundaries")
      | some n_boundaries =>
        match fill_entries "boundary" "boundary_id" database.boundary n_boundaries with
        | Except.error e => Except.error e
        | Except.ok _boundaries => Except.ok (_materials, _boundaries)

/-- The library function `std::string::find_last_of` for one character: the index of its
last occurrence, `none` standing for `npos`. -/
def find_last_of : List Char → Char → Option Nat
  | [], _ => none
  | x :: xs, c =>
    match find_last_of xs c with
    | some i => some (i + 1)
    | none => if x = c then some 0 else none

/-- The library constant `std::string::npos`, the largest value of the 64-bit `size_t`. -/
def npos : Nat := 2 ^ 64 - 1

/-- The expression `mesh_file.substr(mesh_file.find_last_of(".") + 1)` of the constructor:
without a dot, `npos + 1` wraps to `0` and the extension is the whole name. -/
def file_extension (mesh_file : String) : String :=
  match find_last_of mesh_file.data '.' with
  | some i => String.mk (mesh_file.data.drop (i + 1))
  | none => String.mk (mesh_file.data.drop ((npos + 1) % 2 ^ 64))

/-- The reader of `dealii::GridIn` that the constructor calls on the mesh file. -/
inductive MeshReader where
  | read_ucd
  | read_abaqus
  deriving DecidableEq, Repr

/-- The entries of the database that the constructor reads in the mode `file` before it
reads the mesh: the string `mesh_file` and the entries of the catalog. -/
structure FileDatabase where
  mesh_file : Option String
  catalog : CatalogDatabase

/-- The branch `mesh_type == "file"` of the constructor `Geometry<dim>::Geometry`, up to the
call of the reader: the reader that is called and the two maps of the catalog. -/
def Geometry_file (database : FileDatabase) :
    Except Exception (MeshReader × TagMap × TagMap) :=
  match database.mesh_file with
  | none => Except.error (Exception.ptree_error "mesh_file")
  | some mesh_file =>
    let file_extension := file_extension mesh_file
    match fill_material_and_boundary_maps database.catalog with
    | Except.error e => Except.error e
    | Except.ok maps =>
      if file_extension = "ucd" then Except.ok (MeshReader.read_ucd, maps)
      else if file_extension = "inp" then Except.ok (MeshReader.read_abaqus, maps)
      else Except.error
        (Exception.runtime_error
          ("Bad mesh file extension ." ++ file_extension ++ " in mesh file " ++ mesh_file))

/-- A catalog database with no material and no boundary. -/
def empty_catalog_database : CatalogDatabase :=
  { materials := some 0, material := fun _ => none,
    boundaries := some 0, boundary := fun _ => none }

/-- A configured catalog with the single material name `anode`, of id `7`, and no
boundary. -/
def anode_only_database : CatalogDatabase :=
  { materials := some 1
    material := fun m => if m = 0 then some { ids := some [7], name := some "anode" } else none
    boundaries := some 0
    boundary := fun _ => none }

/-! ## The conversion of the geometry database -/

/-- Rounding to the nearest integer, ties to the even one, as `printf` rounds the last
printed digit. -/
def round_half_even (x : ℚ) : ℤ :=
  if x - (⌊x⌋ : ℚ) < 1 / 2 then ⌊x⌋
  else if 1 / 2 < x - (⌊x⌋ : ℚ) then ⌊x⌋ + 1
  else if ⌊x⌋ % 2 = 0 then ⌊x⌋
  else ⌊x⌋ + 1

/-- The number that the text `std::to_string(x)` of a `double` denotes: the library prints
with the format `%f`, six digits after the decimal point, so it is `x` rounded to a
multiple of `1e-6`. Reading the text back, as `to_vector<double>` does, yields this
number. -/
def to_string_value (x : ℚ) : ℚ :=
  (round_half_even (x * 10 ^ 6) : ℚ) / 10 ^ 6

/-- The seven `double` entries of the database that `convert_geometry_database` reads;
`none` stands for an entry that is missing or not a number. -/
structure GeometryDatabase where
  anode_collector_thickness : Option ℚ
  anode_electrode_thickness : Option ℚ
  separator_thickness : Option ℚ
  cathode_electrode_thickness : Option ℚ
  tab_height : Option ℚ
  geometric_area : Option ℚ
  cathode_collector_thickness : Option ℚ

/-- The four entries `collector.dimensions`, `anode.dimensions`, `separator.dimensions` and
`cathode.dimensions` that `convert_geometry_database` writes, each as the list of the
numbers that its comma-separated text denotes. -/
structure ComponentDimensions where
  collector : List ℚ
  anode : List ℚ
  separator : List ℚ
  cathode : List ℚ

/-- The call `database->get<double>(path)`. -/
def get_double (entry : Option ℚ) (path : String) : Except Exception ℚ :=
  match entry with
  | some v => Except.ok v
  | none => Except.error (Exception.ptree_error path)

/-- The method `Geometry<dim>::convert_geometry_database` with `dim = d + 2`; `sqrt` stands
for the library function `std::sqrt` on `double`. -/
def convert_geometry_database (d : Nat) (sqrt : ℚ → ℚ) (database : GeometryDatabase) :
    Except Exception ComponentDimensions := do
  let cm_to_m : ℚ := 1 / 100
  let cm2_to_m2 : ℚ := 1 / 10000
  let collector_thickness :=
    (← get_double database.anode_collector_thickness "anode_collector_thickness") * cm_to_m
  let anode_thickness :=
    (← get_double database.anode_electrode_thickness "anode_electrode_thickness") * cm_to_m
  let separator_thickness :=
    (← get_double database.separator_thickness "separator_thickness") * cm_to_m
  let cathode_thickness :=
    (← get_double database.cathode_electrode_thickness "cathode_electrode_thickness") *
      cm_to_m
  let tab_height := (← get_double database.tab_height "tab_height") * cm_to_m
  let geometric_area := (← get_double database.geometric_area "geometric_area") * cm2_to_m2
  let cathode_collector_thickness :=
    (← get_double database.cathode_collector_thickness "cathode_collector_thickness") *
      cm_to_m
  if collector_thickness ≠ cathode_collector_thickness then
    Except.error (Exception.runtime_error "Both collectors must have the same thickness.")
  else if d + 2 = 2 then
    let area := to_string_value geometric_area
    Except.ok
      { collector :=
          [to_string_value collector_thickness, to_string_value (geometric_area + tab_height)]
        anode := [to_string_value anode_thickness, area]
        separator := [to_string_value separator_thickness, area]
        cathode := [to_string_value cathode_thickness, area] }
  else
    let area_sqrt := to_string_value (sqrt geometric_area)
    Except.ok
      { collector :=
          [to_string_value collector_thickness, area_sqrt,
            to_string_value (sqrt geometric_area + tab_height)]
        anode := [to_string_value anode_thickness, area_sqrt, area_sqrt]
        separator := [to_string_value separator_thickness, area_sqrt, area_sqrt]
        cathode := [to_string_value cathode_thickness, area_sqrt, area_sqrt] }

/-- A geometry database with all seven entries: the two collector thicknesses, the two
electrode thicknesses, the separator thickness, the tab height and the area. -/
def geometry_database (anode_collector anode_electrode separator cathode_electrode tab
    area cathode_collector : ℚ) : GeometryDatabase :=
  { anode_collector_thickness := some anode_collector
    anode_electrode_thickness := some anode_electrode
    separator_thickness := some separator
    cathode_electrode_thickness := some cathode_electrode
    tab_height := some tab
    geometric_area := some area
    cathode_collector_thickness := some cathode_collector }

/-- The rank view `tria` with the flag `is_locally_owned` of every cell replaced by
`own cell`: the same cells as a rank with another share of the mesh sees them. -/
def with_ownership {dim : Nat} (own : CellView → Bool) (tria : TriaView dim) : TriaView dim :=
  { tria with
    cells := tria.cells.map fun cell => { cell with is_locally_owned := own cell } }

/-- The two terminal cells of the sample stack as a rank sees them that owns neither of
them. -/
def ghost_tria : TriaView (0 + 2) :=
  with_ownership (fun _ => false) sample_tria

/-! ## The default mesh of the constructor -/

/-- The four entries `collector.divisions`, `anode.divisions`, `separator.divisions` and
`cathode.divisions`, each as the list of the numbers that its comma-separated text
denotes. -/
structure ComponentDivisions where
  collector : List Nat
  anode : List Nat
  separator : List Nat
  cathode : List Nat

/-- The default mesh that the constructor `Geometry<dim>::Geometry` provides for the mesh
type `supercapacitor`, `dim = d + 2`: the texts `"1,6"`, `"10,5"`, `"5,5"`, `"10,5"` in two
dimensions and `"3,3,3"`, `"5,5,2"`, `"4,4,2"`, `"5,5,2"` otherwise. -/
def supercapacitor_divisions (d : Nat) : ComponentDivisions :=
  if d + 2 = 2 then
    { collector := [1, 6], anode := [10, 5], separator := [5, 5], cathode := [10, 5] }
  else
    { collector := [3, 3, 3], anode := [5, 5, 2], separator := [4, 4, 2],
      cathode := [5, 5, 2] }

/-- What `mesh_generator` reads of the database that the constructor has prepared for the
mesh type `supercapacitor`: the dimensions written by `convert_geometry_database`, the
default divisions and `n_repetitions = 0`. -/
def supercapacitor_database (d : Nat) (dimensions : ComponentDimensions) : Database :=
  { collector :=
      { divisions := (supercapacitor_divisions d).collector
        dimensions := dimensions.collector }
    anode :=
      { divisions := (supercapacitor_divisions d).anode, dimensions := dimensions.anode }
    cathode :=
      { divisions := (supercapacitor_divisions d).cathode
        dimensions := dimensions.cathode }
    separator :=
      { divisions := (supercapacitor_divisions d).separator
        dimensions := dimensions.separator }
    n_repetitions := some 0 }

/-- The branch of the constructor `Geometry<dim>::Geometry` for the mesh type
`supercapacitor`, up to the call of `mesh_generator`: the database that `mesh_generator`
reads, or the exception of `convert_geometry_database`. -/
def Geometry_supercapacitor (d : Nat) (sqrt : ℚ → ℚ) (database : GeometryDatabase) :
    Except Exception Database :=
  match convert_geometry_database d sqrt database with
  | Except.error e => Except.error e
  | Except.ok dimensions => Except.ok (supercapacitor_database d dimensions)

/-- The components that `mesh_generator` builds from the database of the mesh type
`supercapacitor`, with the material ids of the default catalog. -/
def supercapacitor_components (d : Nat) (dimensions : ComponentDimensions) :
    Components (d + 2) :=
  build_components sample_ids (supercapacitor_database d dimensions)

/-- The point `v` is a vertex of some cell of material id `material_id` of the mesh. -/
def is_node {dim : Nat} (tria : Triangulation dim) (material_id : Nat) (v : Point dim) :
    Prop :=
  ∃ cell ∈ tria, cell.material_id = material_id ∧ v ∈ cell.vertices

/-- A geometry database: collector thickness `5e-4 cm`, electrode thickness `50e-4 cm`,
separator thickness `25e-4 cm`, tab height `5e-4 cm` and geometric area `25e-2 cm^2`. -/
def supercapacitor_geometry : GeometryDatabase :=
  geometry_database (5 / 10000) (50 / 10000) (25 / 10000) (50 / 10000) (5 / 10000) (25 / 100)
    (5 / 10000)

/-- The dimensions in metres of the layers of `supercapacitor_geometry` in two
dimensions. -/
def supercapacitor_dimensions_two : ComponentDimensions :=
  { collector := [1 / 200000, 3 / 100000]
    anode := [1 / 20000, 1 / 40000]
    separator := [1 / 40000, 1 / 40000]
    cathode := [1 / 20000, 1 / 40000] }

/-- The dimensions in metres of the layers of `supercapacitor_geometry` in three
dimensions. -/
def supercapacitor_dimensions_three : ComponentDimensions :=
  { collector := [1 / 200000, 1 / 200, 1001 / 200000]
    anode := [1 / 20000, 1 / 200, 1 / 200]
    separator := [1 / 40000, 1 / 200, 1 / 200]
    cathode := [1 / 20000, 1 / 200, 1 / 200] }

/-! ## Theorems -/

/-! ### Auxiliary facts on the merge loop -/

theorem to_unsigned_natCast (N : Nat) (h : N < 2 ^ 31) : to_unsigned (N : ℤ) = N := by
  unfold to_unsigned
  have h2 : ((N : ℤ) % 2 ^ 32) = (N : ℤ) := by
    apply Int.emod_eq_of_lt
    · exact Int.natCast_nonneg N
    · have : (N : ℤ) < 2 ^ 31 := by exact_mod_cast h
      linarith
  rw [h2]
  exact Int.toNat_natCast N

theorem merge_loop_eq_iterate {d : Nat} (n : Nat) (hn : n < 2 ^ 32 - 1) :
    ∀ (fuel i : Nat) (s : MergeState (d + 2)), i ≤ n + 1 → n + 2 ≤ fuel + i →
      merge_loop n fuel i s = some (inner_loop^[n + 1 - i] s) := by
  intro fuel
  induction fuel with
  | zero =>
    intro i s hi hf
    omega
  | succ fuel ih =>
    intro i s hi hf
    by_cases hle : i ≤ n
    · have hmod : (i + 1) % 2 ^ 32 = i + 1 := Nat.mod_eq_of_lt (by omega)
      have hstep : n + 1 - i = (n + 1 - (i + 1)) + 1 := by omega
      rw [merge_loop, if_pos hle, hmod, ih (i + 1) (inner_loop s) (by omega) (by omega),
        hstep, Function.iterate_succ_apply]
    · have hz : n + 1 - i = 0 := by omega
      rw [merge_loop, if_neg hle, hz, Function.iterate_zero_apply]

theorem inner_loop_iterate {d : Nat} (m : Nat) (s : MergeState (d + 2)) :
    inner_loop^[m] s = merge_body^[4 * m] s := by
  have h : (inner_loop : MergeState (d + 2) → MergeState (d + 2)) = merge_body^[4] := by
    funext x
    rfl
  rw [h, ← Function.iterate_mul]

theorem stack_merge_eq {d : Nat} (cs : Components (d + 2)) (database : Database)
    (N fuel : Nat) (hN : database.n_repetitions = some (N : ℤ)) (hint : N < 2 ^ 31)
    (hfuel : N + 2 ≤ fuel) :
    stack_merge cs database fuel = some (merge_run cs (4 * (N + 1))) := by
  unfold stack_merge merge_run
  rw [hN, Option.getD_some, to_unsigned_natCast N hint,
    merge_loop_eq_iterate N (by omega) fuel 0 _ (by omega) (by omega), inner_loop_iterate]
  rfl

theorem merge_run_succ {d : Nat} (cs : Components (d + 2)) (k : Nat) :
    merge_run cs (k + 1) = merge_body (merge_run cs k) := by
  unfold merge_run
  rw [Function.iterate_succ_apply']

theorem merge_run_pos {d : Nat} (cs : Components (d + 2)) (k : Nat) :
    (merge_run cs k).pos = k % 8 := by
  induction k with
  | zero => rfl
  | succ k ih =>
    rw [merge_run_succ]
    show ((merge_run cs k).pos + 1) % 8 = (k + 1) % 8
    rw [ih]
    omega

theorem components_at_lt (k : Nat) : components[k % 8]? = some (components_at (k % 8)) := by
  have h : k % 8 < 8 := Nat.mod_lt k (by decide)
  generalize k % 8 = r at h
  interval_cases r <;> rfl

theorem Components.get_set {dim : Nat} (cs : Components dim) (id id2 : ComponentId)
    (c : Component dim) :
    (cs.set id c).get id2 = if id2 = id then c else cs.get id2 := by
  cases id <;> cases id2 <;> simp [Components.get, Components.set]

theorem merge_run_calls {d : Nat} (cs : Components (d + 2)) (k : Nat) :
    (merge_run cs (k + 1)).calls =
      (merge_run cs k).calls ++ [(components_at (k % 8), (merge_run cs k).offset)] := by
  rw [merge_run_succ]
  show (merge_run cs k).calls ++ [(components_at (merge_run cs k).pos, _)] = _
  rw [merge_run_pos]

theorem merge_run_calls_length {d : Nat} (cs : Components (d + 2)) (k : Nat) :
    (merge_run cs k).calls.length = k := by
  induction k with
  | zero => rfl
  | succ k ih => rw [merge_run_calls, List.length_append, ih]; rfl

theorem merge_run_calls_get {d : Nat} (cs : Components (d + 2)) (m k : Nat) (h : k < m) :
    (merge_run cs m).calls[k]? = some (components_at (k % 8), (merge_run cs k).offset) := by
  induction m with
  | zero => omega
  | succ m ih =>
    rw [merge_run_calls]
    by_cases hk : k < m
    · rw [List.getElem?_append_left (by rw [merge_run_calls_length]; exact hk)]
      exact ih hk
    · have hkm : k = m := by omega
      subst hkm
      rw [List.getElem?_append_right (by rw [merge_run_calls_length]),
        merge_run_calls_length]
      simp

theorem merge_run_box {d : Nat} (cs : Components (d + 2)) (k : Nat) (id : ComponentId) :
    ((merge_run cs k).comps.get id).box_dimensions = (cs.get id).box_dimensions := by
  induction k with
  | zero => rfl
  | succ k ih =>
    rw [merge_run_succ]
    show (((merge_run cs k).comps.set _ _).get id).box_dimensions = _
    rw [Components.get_set]
    split_ifs with h
    · rw [← ih, h]
      rfl
    · exact ih

theorem merge_run_offset {d : Nat} (cs : Components (d + 2)) (k : Nat) :
    (merge_run cs (k + 1)).offset =
      (merge_run cs k).offset + (cs.get (components_at (k % 8))).extent := by
  rw [merge_run_succ]
  show (merge_run cs k).offset +
    (((merge_run cs k).comps.get (components_at (merge_run cs k).pos)).box_dimensions.getD 1 0) 0
      = _
  rw [merge_run_box, merge_run_pos]
  rfl

theorem merge_run_offset_sum {d : Nat} (cs : Components (d + 2)) (k : Nat) :
    (merge_run cs k).offset =
      cs.collector_a.extent +
        ∑ j in Finset.range k, (cs.get (components_at (j % 8))).extent := by
  induction k with
  | zero => simp [merge_run, merge_init]
  | succ k ih => rw [merge_run_offset, ih, Finset.sum_range_succ, add_assoc]

/-! ### Auxiliary facts on the placement of components -/

theorem GridTools_shift_shift {dim : Nat} (u v : Point dim) (t : Triangulation dim) :
    GridTools_shift v (GridTools_shift u t) = GridTools_shift (u + v) t := by
  simp [GridTools_shift, List.map_map, Function.comp_def, add_assoc]

theorem GridTools_shift_zero {dim : Nat} (t : Triangulation dim) :
    GridTools_shift 0 t = t := by
  simp [GridTools_shift]

theorem GridTools_shift_material {dim : Nat} (v : Point dim) (t : Triangulation dim) :
    (GridTools_shift v t).map Cell.material_id = t.map Cell.material_id := by
  simp [GridTools_shift, List.map_map, Function.comp_def]

theorem merge_run_triangulation {d : Nat} (cs : Components (d + 2)) (k : Nat) :
    (merge_run cs (k + 1)).triangulation =
      (merge_run cs k).triangulation ++
        ((merge_run cs (k + 1)).comps.get (components_at (k % 8))).triangulation := by
  rw [merge_run_succ]
  unfold merge_body
  simp only [merge_run_pos, Components.get_set, if_pos]
  rfl

theorem merge_run_step {d : Nat} (cs : Components (d + 2)) (k : Nat) :
    ((merge_run cs (k + 1)).comps.get (components_at (k % 8)),
        (merge_run cs (k + 1)).triangulation) =
      merge_components ((merge_run cs k).comps.get (components_at (k % 8)))
        (merge_run cs k).offset (merge_run cs k).triangulation := by
  rw [merge_run_succ]
  unfold merge_body
  simp only [merge_run_pos, Components.get_set, if_pos]

theorem merge_run_other {d : Nat} (cs : Components (d + 2)) (k : Nat) (id : ComponentId)
    (h : id ≠ components_at (k % 8)) :
    (merge_run cs (k + 1)).comps.get id = (merge_run cs k).comps.get id := by
  rw [merge_run_succ]
  show ((merge_run cs k).comps.set _ _).get id = _
  rw [merge_run_pos, Components.get_set, if_neg h]

theorem merge_run_material {d : Nat} (cs : Components (d + 2)) (k : Nat)
    (id : ComponentId) :
    ((merge_run cs k).comps.get id).triangulation.map Cell.material_id =
      (cs.get id).triangulation.map Cell.material_id := by
  induction k with
  | zero => rfl
  | succ k ih =>
    by_cases h : id = components_at (k % 8)
    · subst h
      have hs := congrArg Prod.fst (merge_run_step cs k)
      simp only at hs
      rw [hs, ← ih]
      exact GridTools_shift_material _ _
    · rw [merge_run_other cs k id h]
      exact ih

theorem merge_run_material_all {d : Nat} (cs : Components (d + 2)) (k : Nat) :
    (merge_run cs k).triangulation.map Cell.material_id =
      cs.collector_a.triangulation.map Cell.material_id ++
        (List.range k).flatMap fun j =>
          (cs.get (components_at (j % 8))).triangulation.map Cell.material_id := by
  induction k with
  | zero => simp [merge_run, merge_init]
  | succ k ih =>
    rw [merge_run_triangulation, List.map_append, ih, merge_run_material, List.range_succ,
      List.flatMap_append, List.flatMap_singleton, List.append_assoc]

/-- The components that `mesh_generator` builds start at offset `0`. -/
theorem build_components_offset {d : Nat} (ids : MaterialIds) (database : Database)
    (id : ComponentId) :
    ((build_components ids database : Components (d + 2)).get id).offset = 0 := by
  cases id <;> rfl

/-- The first corner of the box of every component that `mesh_generator` builds is the
origin. -/
theorem build_components_origin {d : Nat} (ids : MaterialIds) (database : Database)
    (id : ComponentId) :
    ((build_components ids database : Components (d + 2)).get id).box_dimensions[0]? =
      some 0 := by
  cases id <;> rfl

/-- The components that `mesh_generator` builds have no shift on the axes other than the
last one. -/
theorem build_components_shift {d : Nat} (ids : MaterialIds) (database : Database)
    (id : ComponentId) (i : Fin (d + 2)) (hi : i ≠ Fin.last (d + 1)) :
    ((build_components ids database : Components (d + 2)).get id).shift_vector i = 0 := by
  cases id
  case collector_c =>
    show Function.update _ _ _ i = 0
    rw [Function.update_noteq hi]
    rfl
  all_goals rfl

/-- One call of `merge_components` on a component that is either as built or placed:
afterwards it is placed at the new offset, and its placed cells were appended. -/
theorem merge_components_placed {d : Nat} (c0 c : Component (d + 2)) (o : ℚ)
    (t : Triangulation (d + 2)) (h0 : c0.offset = 0)
    (hmid : ∀ i, i ≠ 0 → i ≠ Fin.last (d + 1) → c0.shift_vector i = 0)
    (hc : c = c0 ∨ (c.triangulation = GridTools_shift (placed c0 c.offset) c0.triangulation ∧
      ∀ i, i ≠ 0 → c.shift_vector i = 0)) :
    (merge_components c o t).1.offset = o ∧
    (merge_components c o t).1.triangulation = GridTools_shift (placed c0 o) c0.triangulation ∧
    (∀ i, i ≠ 0 → (merge_components c o t).1.shift_vector i = 0) ∧
    (merge_components c o t).2 = t ++ GridTools_shift (placed c0 o) c0.triangulation := by
  have ht : GridTools_shift (Function.update c.shift_vector 0 (o - c.offset)) c.triangulation =
      GridTools_shift (placed c0 o) c0.triangulation := by
    rcases hc with hc | ⟨hc, hz⟩
    · subst hc
      congr 1
      funext i
      by_cases hi : i = 0
      · subst hi
        simp [placed, h0]
      · simp [placed, hi]
    · rw [hc, GridTools_shift_shift]
      congr 1
      funext i
      by_cases hi : i = 0
      · subst hi
        simp [placed]
      · simp [placed, hi, hz i hi]
  have hz : ∀ i, i ≠ 0 → i ≠ Fin.last (d + 1) → c.shift_vector i = 0 := by
    intro i hi hl
    rcases hc with hc | ⟨_, hz⟩
    · rw [hc]
      exact hmid i hi hl
    · exact hz i hi
  refine ⟨rfl, ht, ?_, ?_⟩
  · intro i hi
    show (if Function.update c.shift_vector 0 (o - c.offset) (Fin.last (d + 1)) ≠ 0 then
        Function.update (Function.update c.shift_vector 0 (o - c.offset)) (Fin.last (d + 1)) 0
      else Function.update c.shift_vector 0 (o - c.offset)) i = 0
    by_cases hl : i = Fin.last (d + 1)
    · subst hl
      split_ifs with hne
      · exact Function.update_same _ _ _
      · exact not_not.mp hne
    · split_ifs with hne
      · rw [Function.update_noteq hl, Function.update_noteq hi]
        exact hz i hi hl
      · rw [Function.update_noteq hi]
        exact hz i hi hl
  · show merge_triangulations t _ = _
    rw [ht]
    rfl


theorem merge_components_last {d : Nat} (c : Component (d + 2)) (o : ℚ)
    (t : Triangulation (d + 2)) :
    (merge_components c o t).1.shift_vector (Fin.last (d + 1)) = 0 := by
  show (if Function.update c.shift_vector 0 (o - c.offset) (Fin.last (d + 1)) ≠ 0 then
      Function.update (Function.update c.shift_vector 0 (o - c.offset)) (Fin.last (d + 1)) 0
    else Function.update c.shift_vector 0 (o - c.offset)) (Fin.last (d + 1)) = 0
  split_ifs with hne
  · exact Function.update_same _ _ _
  · exact not_not.mp hne

theorem last_ne_zero (d : Nat) : Fin.last (d + 1) ≠ (0 : Fin (d + 2)) := by
  intro h
  have := congrArg Fin.val h
  simp at this

theorem merge_components_first {d : Nat} (c : Component (d + 2)) (o : ℚ)
    (t : Triangulation (d + 2)) :
    (merge_components c o t).1.shift_vector 0 = o - c.offset := by
  show (if Function.update c.shift_vector 0 (o - c.offset) (Fin.last (d + 1)) ≠ 0 then
      Function.update (Function.update c.shift_vector 0 (o - c.offset)) (Fin.last (d + 1)) 0
    else Function.update c.shift_vector 0 (o - c.offset)) 0 = o - c.offset
  split_ifs with hne
  · rw [Function.update_noteq (last_ne_zero d).symm, Function.update_same]
  · exact Function.update_same _ _ _

theorem merge_run_placed {d : Nat} (cs : Components (d + 2))
    (h0 : ∀ id, (cs.get id).offset = 0)
    (hmid : ∀ id i, i ≠ 0 → i ≠ Fin.last (d + 1) → (cs.get id).shift_vector i = 0)
    (k : Nat) (id : ComponentId) :
    (merge_run cs k).comps.get id = cs.get id ∨
      (((merge_run cs k).comps.get id).triangulation =
          GridTools_shift (placed (cs.get id) ((merge_run cs k).comps.get id).offset)
            (cs.get id).triangulation ∧
        ∀ i, i ≠ 0 → ((merge_run cs k).comps.get id).shift_vector i = 0) := by
  induction k with
  | zero => exact Or.inl rfl
  | succ k ih =>
    by_cases h : id = components_at (k % 8)
    · subst h
      have hs := congrArg Prod.fst (merge_run_step cs k)
      simp only at hs
      have hp := merge_components_placed (cs.get (components_at (k % 8)))
        ((merge_run cs k).comps.get (components_at (k % 8))) (merge_run cs k).offset
        (merge_run cs k).triangulation (h0 _) (hmid _) ih
      right
      rw [hs]
      refine ⟨?_, hp.2.2.1⟩
      rw [hp.1]
      exact hp.2.1
    · rw [merge_run_other cs k id h]
      exact ih

theorem merge_run_append_placed {d : Nat} (cs : Components (d + 2))
    (h0 : ∀ id, (cs.get id).offset = 0)
    (hmid : ∀ id i, i ≠ 0 → i ≠ Fin.last (d + 1) → (cs.get id).shift_vector i = 0)
    (k : Nat) :
    (merge_run cs (k + 1)).triangulation =
      (merge_run cs k).triangulation ++
        GridTools_shift (placed (cs.get (components_at (k % 8))) (layer_start cs k))
          (cs.get (components_at (k % 8))).triangulation := by
  have hs := congrArg Prod.snd (merge_run_step cs k)
  simp only at hs
  have hp := merge_components_placed (cs.get (components_at (k % 8)))
    ((merge_run cs k).comps.get (components_at (k % 8))) (merge_run cs k).offset
    (merge_run cs k).triangulation (h0 _) (hmid _) (merge_run_placed cs h0 hmid k _)
  rw [hs, hp.2.2.2, merge_run_offset_sum]
  rfl

theorem merge_run_translation {d : Nat} (cs : Components (d + 2))
    (h0 : ∀ id, (cs.get id).offset = 0)
    (hmid : ∀ id i, i ≠ 0 → i ≠ Fin.last (d + 1) → (cs.get id).shift_vector i = 0)
    (k : Nat) (id : ComponentId) :
    ∃ T : Point (d + 2),
      ((merge_run cs k).comps.get id).triangulation = GridTools_shift T (cs.get id).triangulation ∧
      T 0 = ((merge_run cs k).comps.get id).offset := by
  rcases merge_run_placed cs h0 hmid k id with h | ⟨h, _⟩
  · refine ⟨0, ?_, ?_⟩
    · rw [h, GridTools_shift_zero]
    · rw [h, h0]
      rfl
  · exact ⟨_, h, by simp [placed]⟩

theorem merge_run_merged_offset {d : Nat} (cs : Components (d + 2)) (k : Nat) :
    ((merge_run cs (k + 1)).comps.get (components_at (k % 8))).offset =
      (merge_run cs k).offset := by
  have hs := congrArg Prod.fst (merge_run_step cs k)
  simp only at hs
  rw [hs]
  rfl

theorem merge_run_merged_first {d : Nat} (cs : Components (d + 2)) (k : Nat) :
    ((merge_run cs (k + 1)).comps.get (components_at (k % 8))).shift_vector 0 =
      (merge_run cs k).offset - ((merge_run cs k).comps.get (components_at (k % 8))).offset := by
  have hs := congrArg Prod.fst (merge_run_step cs k)
  simp only at hs
  rw [hs]
  exact merge_components_first _ _ _

theorem merge_run_merged_last {d : Nat} (cs : Components (d + 2)) (k : Nat) :
    ((merge_run cs (k + 1)).comps.get (components_at (k % 8))).shift_vector
      (Fin.last (d + 1)) = 0 := by
  have hs := congrArg Prod.fst (merge_run_step cs k)
  simp only at hs
  rw [hs]
  exact merge_components_last _ _ _

/-! ### Auxiliary facts on the catalog -/

theorem TagMap.index_fst (m : TagMap) (name : String) : (m.index name).1 = m.tags name := by
  unfold TagMap.index TagMap.tags
  cases h : List.lookup name m <;> simp

theorem TagMap.index_tags (m : TagMap) (name other : String) :
    (m.index name).2.tags other = m.tags other := by
  unfold TagMap.index TagMap.tags
  cases h : List.lookup name m
  · simp only [List.lookup_append]
    cases h2 : List.lookup other m
    · by_cases hb : (other == name) = true
      · simp [List.lookup, hb]
      · simp [List.lookup, hb]
    · simp
  · simp

theorem compute_cell_weight_eq (materials : TagMap) (m : Nat) (weights : WEIGHT_TYPE → Nat) :
    (compute_cell_weight materials m weights).1 =
      if m ∈ materials.tags "anode" then weights WEIGHT_TYPE.anode
      else if m ∈ materials.tags "cathode" then weights WEIGHT_TYPE.cathode
      else if m ∈ materials.tags "separator" then weights WEIGHT_TYPE.separator
      else if m ∈ materials.tags "collector" then weights WEIGHT_TYPE.collector
      else invalid_unsigned_int := by
  simp only [compute_cell_weight, TagMap.index_fst, TagMap.index_tags]

theorem default_materials_tags :
    default_materials.tags "anode" = {0} ∧ default_materials.tags "cathode" = {2} ∧
    default_materials.tags "separator" = {1} ∧ default_materials.tags "collector" = {3, 4} ∧
    default_materials.tags "collector_anode" = {3} ∧
    default_materials.tags "collector_cathode" = {4} := by
  refine ⟨?_, ?_, ?_, ?_, ?_, ?_⟩ <;> rfl

/-! ### Auxiliary facts on the boundary recovery pass -/

theorem fold_tag_faces (P : Nat → Prop) [DecidablePred P] (id : Nat) :
    ∀ (faces : List Nat) (st : (Nat → Nat) × Nat),
      ((faces.foldl (fun st f => if P f then (Function.update st.1 f id, 1) else st) st).2 = 1 ↔
        (∃ f ∈ faces, P f) ∨ st.2 = 1) ∧
      ∀ g, ((g ∈ faces ∧ P g) →
          (faces.foldl (fun st f => if P f then (Function.update st.1 f id, 1) else st) st).1 g
            = id) ∧
        (¬ (g ∈ faces ∧ P g) →
          (faces.foldl (fun st f => if P f then (Function.update st.1 f id, 1) else st) st).1 g
            = st.1 g) := by
  intro faces
  induction faces with
  | nil =>
    intro st
    simp
  | cons f fs ih =>
    intro st
    rw [List.foldl_cons]
    obtain ⟨h1, h2⟩ := ih (if P f then (Function.update st.1 f id, 1) else st)
    refine ⟨?_, ?_⟩
    · rw [h1]
      by_cases hf : P f
      · simp [hf]
      · simp [hf]
    · intro g
      obtain ⟨h3, h4⟩ := h2 g
      by_cases hg : g ∈ fs ∧ P g
      · refine ⟨fun _ => h3 hg, fun hn => ?_⟩
        exact absurd ⟨List.mem_cons_of_mem _ hg.1, hg.2⟩ hn
      · rw [h4 hg]
        refine ⟨fun hy => ?_, fun hn => ?_⟩
        · have hgf : g = f := by
            rcases List.mem_cons.mp hy.1 with h | h
            · exact h
            · exact absurd ⟨h, hy.2⟩ hg
          subst hgf
          simp [hy.2]
        · by_cases hf : P f
          · have hgf : g ≠ f := by
              intro h
              subst h
              exact hn ⟨List.mem_cons_self _ _, hf⟩
            simp [hf, Function.update_noteq hgf]
          · simp [hf]


theorem tag_step {d : Nat} (fc : Nat → Point (d + 2)) (expected : ℚ) (id : Nat)
    (F : CellView → Bool) (c : CellView) (st : (Nat → Nat) × Nat) :
    ((if F c = true then if c.at_boundary = true then tag_faces fc expected id c st else st
        else st).2 = 1 ↔
      (F c = true ∧ c.at_boundary = true ∧
        ∃ f ∈ c.faces, |fc f (Fin.last (d + 1)) - expected| < boundary_eps * c.measure) ∨
      st.2 = 1) ∧
    ∀ g, ((F c = true ∧ c.at_boundary = true ∧ g ∈ c.faces ∧
          |fc g (Fin.last (d + 1)) - expected| < boundary_eps * c.measure) →
        (if F c = true then if c.at_boundary = true then tag_faces fc expected id c st else st
          else st).1 g = id) ∧
      (¬ (F c = true ∧ c.at_boundary = true ∧ g ∈ c.faces ∧
          |fc g (Fin.last (d + 1)) - expected| < boundary_eps * c.measure) →
        (if F c = true then if c.at_boundary = true then tag_faces fc expected id c st else st
          else st).1 g = st.1 g) := by
  by_cases hF : F c = true
  · by_cases hb : c.at_boundary = true
    · obtain ⟨h1, h2⟩ := fold_tag_faces
        (fun f => |fc f (Fin.last (d + 1)) - expected| < boundary_eps * c.measure) id
        c.faces st
      simp only [hF, hb, if_true, true_and]
      exact ⟨h1, h2⟩
    · simp [hF, hb]
  · simp [hF]

theorem fold_tag_cells {d : Nat} (fc : Nat → Point (d + 2)) (expected : ℚ) (id : Nat)
    (F : CellView → Bool) :
    ∀ (cells : List CellView) (st : (Nat → Nat) × Nat),
      ((cells.foldl (fun st cell =>
          if F cell = true then
            if cell.at_boundary = true then tag_faces fc expected id cell st else st
          else st) st).2 = 1 ↔
        (∃ c ∈ cells, F c = true ∧ c.at_boundary = true ∧
          ∃ f ∈ c.faces, |fc f (Fin.last (d + 1)) - expected| < boundary_eps * c.measure) ∨
        st.2 = 1) ∧
      ∀ g, ((∃ c ∈ cells, F c = true ∧ c.at_boundary = true ∧ g ∈ c.faces ∧
            |fc g (Fin.last (d + 1)) - expected| < boundary_eps * c.measure) →
          (cells.foldl (fun st cell =>
            if F cell = true then
              if cell.at_boundary = true then tag_faces fc expected id cell st else st
            else st) st).1 g = id) ∧
        (¬ (∃ c ∈ cells, F c = true ∧ c.at_boundary = true ∧ g ∈ c.faces ∧
            |fc g (Fin.last (d + 1)) - expected| < boundary_eps * c.measure) →
          (cells.foldl (fun st cell =>
            if F cell = true then
              if cell.at_boundary = true then tag_faces fc expected id cell st else st
            else st) st).1 g = st.1 g) := by
  intro cells
  induction cells with
  | nil =>
    intro st
    simp
  | cons c cs ih =>
    intro st
    rw [List.foldl_cons]
    obtain ⟨h1, h2⟩ := ih (if F c = true then
      if c.at_boundary = true then tag_faces fc expected id c st else st else st)
    obtain ⟨s1, s2⟩ := tag_step fc expected id F c st
    refine ⟨?_, ?_⟩
    · rw [h1, s1]
      constructor
      · rintro (⟨c2, hc2, hrest⟩ | hc | hst)
        · exact Or.inl ⟨c2, List.mem_cons_of_mem _ hc2, hrest⟩
        · exact Or.inl ⟨c, List.mem_cons_self _ _, hc⟩
        · exact Or.inr hst
      · rintro (⟨c2, hc2, hrest⟩ | hst)
        · rcases List.mem_cons.mp hc2 with h | h
          · subst h
            exact Or.inr (Or.inl hrest)
          · exact Or.inl ⟨c2, h, hrest⟩
        · exact Or.inr (Or.inr hst)
    · intro g
      obtain ⟨h3, h4⟩ := h2 g
      obtain ⟨s3, s4⟩ := s2 g
      by_cases hcs : ∃ c ∈ cs, F c = true ∧ c.at_boundary = true ∧ g ∈ c.faces ∧
          |fc g (Fin.last (d + 1)) - expected| < boundary_eps * c.measure
      · refine ⟨fun _ => h3 hcs, fun hn => ?_⟩
        obtain ⟨c2, hc2, hrest⟩ := hcs
        exact absurd ⟨c2, List.mem_cons_of_mem _ hc2, hrest⟩ hn
      · rw [h4 hcs]
        refine ⟨fun hy => ?_, fun hn => ?_⟩
        · obtain ⟨c2, hc2, hrest⟩ := hy
          rcases List.mem_cons.mp hc2 with h | h
          · subst h
            exact s3 hrest
          · exact absurd ⟨c2, h, hrest⟩ hcs
        · apply s4
          intro hc
          exact hn ⟨c, List.mem_cons_self _ _, hc⟩

theorem MaterialIdEqualTo_false (material_ids : Finset Nat) (c : CellView) :
    MaterialIdEqualTo material_ids false c = true ↔ c.material_id ∈ material_ids := by
  simp [MaterialIdEqualTo]

theorem tag_terminal_flag {d : Nat} (material_ids : Finset Nat) (expected : ℚ) (id : Nat)
    (tria : TriaView (d + 2)) :
    (tag_terminal material_ids false expected id tria).2 = 1 ↔
      ∃ cell ∈ tria.cells, cell.material_id ∈ material_ids ∧ cell.at_boundary = true ∧
        ∃ f ∈ cell.faces,
          |tria.face_center f (Fin.last (d + 1)) - expected| < boundary_eps * cell.measure := by
  have h := (fold_tag_cells tria.face_center expected id
    (MaterialIdEqualTo material_ids false) tria.cells (tria.boundary_id, 0)).1
  simp only [MaterialIdEqualTo_false] at h
  unfold tag_terminal
  simp only [MaterialIdEqualTo_false]
  rw [h]
  simp

theorem tag_terminal_ids {d : Nat} (material_ids : Finset Nat) (expected : ℚ) (id : Nat)
    (tria : TriaView (d + 2)) (g : Nat) :
    (is_terminal_face material_ids expected tria g →
      (tag_terminal material_ids false expected id tria).1.boundary_id g = id) ∧
    (¬ is_terminal_face material_ids expected tria g →
      (tag_terminal material_ids false expected id tria).1.boundary_id g =
        tria.boundary_id g) := by
  have h := (fold_tag_cells tria.face_center expected id
    (MaterialIdEqualTo material_ids false) tria.cells (tria.boundary_id, 0)).2 g
  simp only [MaterialIdEqualTo_false] at h
  unfold tag_terminal is_terminal_face
  simp only [MaterialIdEqualTo_false]
  exact h

theorem tag_faces_flag {d : Nat} (fc : Nat → Point (d + 2)) (expected : ℚ) (id : Nat)
    (c : CellView) (st : (Nat → Nat) × Nat) :
    (tag_faces fc expected id c st).2 = 1 ∨ (tag_faces fc expected id c st).2 = st.2 := by
  unfold tag_faces
  generalize c.faces = faces
  induction faces generalizing st with
  | nil => exact Or.inr rfl
  | cons f fs ih =>
    rw [List.foldl_cons]
    rcases ih (if |fc f (Fin.last (d + 1)) - expected| < boundary_eps * c.measure then
      (Function.update st.1 f id, 1) else st) with h | h
    · exact Or.inl h
    · rw [h]
      split_ifs
      · exact Or.inl rfl
      · exact Or.inr rfl

theorem tag_terminal_flag_cases {d : Nat} (material_ids : Finset Nat) (b : Bool)
    (expected : ℚ) (id : Nat) (tria : TriaView (d + 2)) :
    (tag_terminal material_ids b expected id tria).2 = 0 ∨
      (tag_terminal material_ids b expected id tria).2 = 1 := by
  unfold tag_terminal
  simp only
  have key : ∀ (cells : List CellView) (st : (Nat → Nat) × Nat), (st.2 = 0 ∨ st.2 = 1) →
      ((cells.foldl (fun st cell =>
          if MaterialIdEqualTo material_ids b cell = true then
            if cell.at_boundary = true then
              tag_faces tria.face_center expected id cell st
            else st
          else st) st).2 = 0 ∨
        (cells.foldl (fun st cell =>
          if MaterialIdEqualTo material_ids b cell = true then
            if cell.at_boundary = true then
              tag_faces tria.face_center expected id cell st
            else st
          else st) st).2 = 1) := by
    intro cells
    induction cells with
    | nil => intro st h; exact h
    | cons c cs ih =>
      intro st h
      rw [List.foldl_cons]
      apply ih
      split_ifs
      · rcases tag_faces_flag tria.face_center expected id c st with h1 | h1
        · exact Or.inr h1
        · rw [h1]
          exact h
      · exact h
      · exact h
  exact key tria.cells (tria.boundary_id, 0) (Or.inl rfl)

theorem MPI_max_flags (values : List Nat) (h : ∀ v ∈ values, v = 0 ∨ v = 1) :
    (MPI_max values = 1 ↔ 1 ∈ values) ∧ (MPI_max values = 0 ∨ MPI_max values = 1) := by
  induction values with
  | nil => simp [MPI_max]
  | cons v vs ih =>
    obtain ⟨h1, h2⟩ := ih (fun w hw => h w (List.mem_cons_of_mem _ hw))
    have hv := h v (List.mem_cons_self _ _)
    have hm : MPI_max (v :: vs) = max v (MPI_max vs) := rfl
    rw [hm, List.mem_cons]
    rcases hv with hv | hv <;> rcases h2 with h2 | h2 <;> rw [hv, h2] <;> rw [h2] at h1 <;>
      simp at h1 ⊢ <;> tauto

theorem reduced_flag_iff {d : Nat} (material_ids : Finset Nat) (expected : ℚ) (id : Nat)
    (ranks : List (TriaView (d + 2))) :
    (MPI_max ((ranks.map (tag_terminal material_ids false expected id)).map Prod.snd) = 1 ↔
      has_terminal_face material_ids expected ranks) ∧
    (MPI_max ((ranks.map (tag_terminal material_ids false expected id)).map Prod.snd) = 0 ∨
      MPI_max ((ranks.map (tag_terminal material_ids false expected id)).map Prod.snd) = 1) := by
  have hv : ∀ v ∈ (ranks.map (tag_terminal material_ids false expected id)).map Prod.snd,
      v = 0 ∨ v = 1 := by
    intro v hv
    simp only [List.map_map, List.mem_map, Function.comp_apply] at hv
    obtain ⟨tria, -, rfl⟩ := hv
    exact tag_terminal_flag_cases material_ids false expected id tria
  obtain ⟨h1, h2⟩ := MPI_max_flags _ hv
  refine ⟨?_, h2⟩
  rw [h1]
  simp only [List.map_map, List.mem_map, Function.comp_apply, has_terminal_face]
  constructor
  · rintro ⟨tria, ht, hf⟩
    exact ⟨tria, ht, (tag_terminal_flag material_ids expected id tria).mp hf⟩
  · rintro ⟨tria, ht, hf⟩
    exact ⟨tria, ht, (tag_terminal_flag material_ids expected id tria).mpr hf⟩

theorem has_terminal_face_tagged {d : Nat} (material_ids other : Finset Nat)
    (expected e2 : ℚ) (id : Nat) (ranks : List (TriaView (d + 2))) :
    has_terminal_face material_ids expected
        ((ranks.map (tag_terminal other false e2 id)).map Prod.fst) ↔
      has_terminal_face material_ids expected ranks := by
  simp only [has_terminal_face, List.map_map, List.mem_map, Function.comp_apply]
  constructor
  · rintro ⟨_, ⟨tria, ht, rfl⟩, hf⟩
    exact ⟨tria, ht, hf⟩
  · rintro ⟨tria, ht, hf⟩
    exact ⟨_, ⟨tria, ht, rfl⟩, hf⟩

theorem get_boundary_id_ok (boundaries : TagMap) (name : String) (a : Nat)
    (h : boundaries.tags name = {a}) :
    get_boundary_id boundaries name = Except.ok (a, (boundaries.index name).2) := by
  have hc : (boundaries.index name).1.card = 1 := by
    rw [TagMap.index_fst, h]
    rfl
  unfold get_boundary_id
  rw [dif_pos hc]
  simp only [TagMap.index_fst, h, Finset.min'_singleton]

theorem get_boundary_id_error (boundaries : TagMap) (name : String)
    (h : (boundaries.tags name).card ≠ 1) :
    get_boundary_id boundaries name =
      Except.error (BoundaryFailure.boundary_id_size name) := by
  have hc : ¬ (boundaries.index name).1.card = 1 := by
    rw [TagMap.index_fst]
    exact h
  unfold get_boundary_id
  rw [dif_neg hc]

theorem set_boundary_ids_anode_size {d : Nat} (materials boundaries : TagMap)
    (ranks : List (TriaView (d + 2))) (top bottom : ℚ)
    (h : (boundaries.tags "anode").card ≠ 1) :
    set_boundary_ids materials boundaries ranks top bottom =
      Except.error (BoundaryFailure.boundary_id_size "anode") := by
  unfold set_boundary_ids
  rw [get_boundary_id_error _ _ h]

theorem set_boundary_ids_anode_flag {d : Nat} (materials boundaries : TagMap)
    (ranks : List (TriaView (d + 2))) (top bottom : ℚ) (a : Nat)
    (h : boundaries.tags "anode" = {a})
    (hf : ¬ has_terminal_face (materials.tags "collector_anode") top ranks) :
    set_boundary_ids materials boundaries ranks top bottom =
      Except.error BoundaryFailure.anode_not_set := by
  unfold set_boundary_ids
  rw [get_boundary_id_ok _ _ a h]
  simp only [TagMap.index_fst]
  rw [if_pos]
  rw [Ne, (reduced_flag_iff _ top a ranks).1]
  exact hf

theorem set_boundary_ids_cathode_size {d : Nat} (materials boundaries : TagMap)
    (ranks : List (TriaView (d + 2))) (top bottom : ℚ) (a : Nat)
    (h : boundaries.tags "anode" = {a})
    (hf : has_terminal_face (materials.tags "collector_anode") top ranks)
    (hc : (boundaries.tags "cathode").card ≠ 1) :
    set_boundary_ids materials boundaries ranks top bottom =
      Except.error (BoundaryFailure.boundary_id_size "cathode") := by
  unfold set_boundary_ids
  rw [get_boundary_id_ok _ _ a h]
  simp only [TagMap.index_fst]
  rw [if_neg (not_not.mpr ((reduced_flag_iff _ top a ranks).1.mpr hf)),
    get_boundary_id_error _ _ (by rw [TagMap.index_tags]; exact hc)]

theorem set_boundary_ids_cathode_flag {d : Nat} (materials boundaries : TagMap)
    (ranks : List (TriaView (d + 2))) (top bottom : ℚ) (a c : Nat)
    (h : boundaries.tags "anode" = {a})
    (hf : has_terminal_face (materials.tags "collector_anode") top ranks)
    (hc : boundaries.tags "cathode" = {c})
    (hfc : ¬ has_terminal_face (materials.tags "collector_cathode") bottom ranks) :
    set_boundary_ids materials boundaries ranks top bottom =
      Except.error BoundaryFailure.cathode_not_set := by
  unfold set_boundary_ids
  rw [get_boundary_id_ok _ _ a h]
  simp only [TagMap.index_fst]
  rw [if_neg (not_not.mpr ((reduced_flag_iff _ top a ranks).1.mpr hf)),
    get_boundary_id_ok _ _ c (by rw [TagMap.index_tags]; exact hc)]
  simp only [TagMap.index_tags]
  rw [if_pos]
  rw [Ne, (reduced_flag_iff _ bottom c _).1, has_terminal_face_tagged]
  exact hfc

theorem set_boundary_ids_ok {d : Nat} (materials boundaries : TagMap)
    (ranks : List (TriaView (d + 2))) (top bottom : ℚ) (a c : Nat)
    (h : boundaries.tags "anode" = {a})
    (hf : has_terminal_face (materials.tags "collector_anode") top ranks)
    (hc : boundaries.tags "cathode" = {c})
    (hfc : has_terminal_face (materials.tags "collector_cathode") bottom ranks) :
    set_boundary_ids materials boundaries ranks top bottom =
      Except.ok
        (((ranks.map (tag_terminal (materials.tags "collector_anode") false top a)).map
            Prod.fst).map
          (fun tria =>
            (tag_terminal (materials.tags "collector_cathode") false bottom c tria).1),
          ((materials.index "collector_anode").2.index "collector_cathode").2,
          ((boundaries.index "anode").2.index "cathode").2) := by
  unfold set_boundary_ids
  rw [get_boundary_id_ok _ _ a h]
  simp only [TagMap.index_fst]
  rw [if_neg (not_not.mpr ((reduced_flag_iff _ top a ranks).1.mpr hf)),
    get_boundary_id_ok _ _ c (by rw [TagMap.index_tags]; exact hc)]
  simp only [TagMap.index_tags]
  rw [if_neg]
  · simp only [List.map_map]
    rfl
  · rw [Ne, not_not, (reduced_flag_iff _ bottom c _).1, has_terminal_face_tagged]
    exact hfc

theorem set_boundary_ids_cases {d : Nat} (materials boundaries : TagMap)
    (ranks : List (TriaView (d + 2))) (collector_top collector_bottom : ℚ)
    (P : Except BoundaryFailure (List (TriaView (d + 2)) × TagMap × TagMap) → Prop)
    (p1 : ¬ (boundaries.tags "anode").card = 1 →
      P (Except.error (BoundaryFailure.boundary_id_size "anode")))
    (p2 : (boundaries.tags "anode").card = 1 →
      ¬ has_terminal_face (materials.tags "collector_anode") collector_top ranks →
      P (Except.error BoundaryFailure.anode_not_set))
    (p3 : (boundaries.tags "anode").card = 1 →
      has_terminal_face (materials.tags "collector_anode") collector_top ranks →
      ¬ (boundaries.tags "cathode").card = 1 →
      P (Except.error (BoundaryFailure.boundary_id_size "cathode")))
    (p4 : (boundaries.tags "anode").card = 1 →
      has_terminal_face (materials.tags "collector_anode") collector_top ranks →
      (boundaries.tags "cathode").card = 1 →
      ¬ has_terminal_face (materials.tags "collector_cathode") collector_bottom ranks →
      P (Except.error BoundaryFailure.cathode_not_set))
    (p5 : ∀ a c, boundaries.tags "anode" = {a} →
      has_terminal_face (materials.tags "collector_anode") collector_top ranks →
      boundaries.tags "cathode" = {c} →
      has_terminal_face (materials.tags "collector_cathode") collector_bottom ranks →
      P (Except.ok
        (((ranks.map (tag_terminal (materials.tags "collector_anode") false collector_top
            a)).map Prod.fst).map
          (fun tria =>
            (tag_terminal (materials.tags "collector_cathode") false collector_bottom c
              tria).1),
          ((materials.index "collector_anode").2.index "collector_cathode").2,
          ((boundaries.index "anode").2.index "cathode").2))) :
    P (set_boundary_ids materials boundaries ranks collector_top collector_bottom) := by
  by_cases ha : (boundaries.tags "anode").card = 1
  · obtain ⟨a, hae⟩ := Finset.card_eq_one.mp ha
    by_cases hf : has_terminal_face (materials.tags "collector_anode") collector_top ranks
    · by_cases hc : (boundaries.tags "cathode").card = 1
      · obtain ⟨c, hce⟩ := Finset.card_eq_one.mp hc
        by_cases hfc : has_terminal_face (materials.tags "collector_cathode")
            collector_bottom ranks
        · rw [set_boundary_ids_ok materials boundaries ranks _ _ a c hae hf hce hfc]
          exact p5 a c hae hf hce hfc
        · rw [set_boundary_ids_cathode_flag materials boundaries ranks _ _ a c hae hf hce
            hfc]
          exact p4 ha hf hc hfc
      · rw [set_boundary_ids_cathode_size materials boundaries ranks _ _ a hae hf hc]
        exact p3 ha hf hc
    · rw [set_boundary_ids_anode_flag materials boundaries ranks _ _ a hae hf]
      exact p2 ha hf
  · rw [set_boundary_ids_anode_size materials boundaries ranks _ _ ha]
    exact p1 ha

/-! ### Auxiliary facts on the alignment of the collectors -/

/-- The mesh of `collector_a` that `mesh_generator` builds is the structured grid of the
collector box, transformed by `transform_coll_a` with the scale factor of the database. -/
theorem build_components_collector_a {d : Nat} (ids : MaterialIds) (database : Database) :
    (build_components ids database : Components (d + 2)).collector_a.triangulation =
      GridTools_transform
        (fun p => transform_coll_a p
          (collector_scale_factor (database.anode.dimensions.getD (d + 1) 0)
            (database.collector.dimensions.getD (d + 1) 0)
            (database.collector.divisions.getD (d + 1) 0))
          (database.collector.dimensions.getD (d + 1) 0))
        (set_material_id ids.collector_anode
          (subdivided_hyper_rectangle database.collector.divisions 0
            (fun i => database.collector.dimensions.getD i 0))) :=
  rfl

/-- The mesh of `collector_c` that `mesh_generator` builds is the structured grid of the
collector box, transformed by `transform_coll_c` with the scale factor and the offset of
the database; its vertical shift and the argument `collector_bottom` are
`-(collector_dim - anode_dim)`. -/
theorem build_components_collector_c {d : Nat} (ids : MaterialIds) (database : Database) :
    (build_components ids database : Components (d + 2)).collector_c.triangulation =
      GridTools_transform
        (fun p => transform_coll_c p
          (collector_scale_factor (database.anode.dimensions.getD (d + 1) 0)
            (database.collector.dimensions.getD (d + 1) 0)
            (database.collector.divisions.getD (d + 1) 0))
          (database.collector.dimensions.getD (d + 1) 0)
          (collector_c_offset (database.anode.dimensions.getD (d + 1) 0)
            (database.collector.dimensions.getD (d + 1) 0)
            (database.collector.divisions.getD (d + 1) 0)))
        (set_material_id ids.collector_cathode
          (subdivided_hyper_rectangle database.collector.divisions 0
            (fun i => database.collector.dimensions.getD i 0))) ∧
    (build_components ids database : Components (d + 2)).collector_c.shift_vector
        (Fin.last (d + 1)) =
      -(database.collector.dimensions.getD (d + 1) 0 -
        database.anode.dimensions.getD (d + 1) 0) ∧
    boundary_arguments (build_components ids database : Components (d + 2)) =
      (database.collector.dimensions.getD (d + 1) 0,
        -(database.collector.dimensions.getD (d + 1) 0 -
          database.anode.dimensions.getD (d + 1) 0)) := by
  refine ⟨rfl, ?_, rfl⟩
  show Function.update _ _ _ _ = _
  rw [Function.update_same]
  rfl

theorem grid_node_interior (C : ℚ) (n k : Nat) (hd : transform_eps ≤ C / (n : ℚ))
    (hk1 : 1 ≤ k) (hk2 : k + 1 ≤ n) :
    ¬ ((k : ℚ) * (C / (n : ℚ)) < transform_eps ∨
      (k : ℚ) * (C / (n : ℚ)) > C - transform_eps) := by
  have hpos : (0 : ℚ) < transform_eps := by norm_num [transform_eps]
  have hdpos : (0 : ℚ) < C / (n : ℚ) := lt_of_lt_of_le hpos hd
  have hn : (0 : ℚ) < (n : ℚ) := by
    have : 0 < n := by omega
    exact_mod_cast this
  have hkq : (1 : ℚ) ≤ (k : ℚ) := by exact_mod_cast hk1
  have hkn : (k : ℚ) + 1 ≤ (n : ℚ) := by exact_mod_cast hk2
  have hC : C = (n : ℚ) * (C / (n : ℚ)) := by field_simp
  rintro (h | h)
  · nlinarith
  · have h2 : ((n : ℚ) - (k : ℚ)) * (C / (n : ℚ)) < transform_eps := by
      have : ((n : ℚ) - (k : ℚ)) * (C / (n : ℚ)) = C - (k : ℚ) * (C / (n : ℚ)) := by
        rw [sub_mul, ← hC]
      rw [this]
      linarith
    nlinarith

theorem grid_node_scaled (A C : ℚ) (n k : Nat) (hn : 2 ≤ n) (hC : 0 < C) :
    (k : ℚ) * (C / (n : ℚ)) * collector_scale_factor A C n =
      (k : ℚ) * A / ((n : ℚ) - 1) := by
  have hnq : (2 : ℚ) ≤ (n : ℚ) := by exact_mod_cast hn
  have hn0 : (n : ℚ) ≠ 0 := by linarith
  have hn1 : (n : ℚ) - 1 ≠ 0 := by linarith
  have hC0 : C ≠ 0 := ne_of_gt hC
  have hden : C - C / (n : ℚ) = C * ((n : ℚ) - 1) / (n : ℚ) := by
    field_simp
    ring
  unfold collector_scale_factor
  rw [hden]
  field_simp
  ring

theorem scale_denominator_ne_zero (C : ℚ) (n : Nat) (hn : 2 ≤ n) (hC : 0 < C) :
    C - C / (n : ℚ) ≠ 0 := by
  have hnq : (2 : ℚ) ≤ (n : ℚ) := by exact_mod_cast hn
  have hn0 : (n : ℚ) ≠ 0 := by linarith
  have hn1 : (n : ℚ) - 1 ≠ 0 := by linarith
  have hden : C - C / (n : ℚ) = C * ((n : ℚ) - 1) / (n : ℚ) := by
    field_simp
    ring
  rw [hden]
  exact div_ne_zero (mul_ne_zero (ne_of_gt hC) hn1) hn0

theorem transform_coll_a_node {d : Nat} (A C : ℚ) (n k : Nat) (p : Point (d + 2))
    (hn : 2 ≤ n) (hC : 0 < C) (hd : transform_eps ≤ C / (n : ℚ)) (hk1 : 1 ≤ k)
    (hk2 : k ≤ n - 1) (hp : p (Fin.last (d + 1)) = (k : ℚ) * (C / (n : ℚ))) :
    transform_coll_a p (collector_scale_factor A C n) C =
      Function.update p (Fin.last (d + 1)) ((k : ℚ) * A / ((n : ℚ) - 1)) := by
  have hint := grid_node_interior C n k hd hk1 (by omega)
  rw [← hp] at hint
  simp only [transform_coll_a, if_neg hint]
  rw [hp, grid_node_scaled A C n k hn hC]

theorem transform_coll_c_node {d : Nat} (A C : ℚ) (n k : Nat) (p : Point (d + 2))
    (hn : 2 ≤ n) (hC : 0 < C) (hd : transform_eps ≤ C / (n : ℚ)) (hk1 : 1 ≤ k)
    (hk2 : k ≤ n - 1) (hp : p (Fin.last (d + 1)) = (k : ℚ) * (C / (n : ℚ))) :
    transform_coll_c p (collector_scale_factor A C n) C (collector_c_offset A C n) =
      Function.update p (Fin.last (d + 1))
        ((C - A) + ((k : ℚ) - 1) * A / ((n : ℚ) - 1)) := by
  have hint := grid_node_interior C n k hd hk1 (by omega)
  rw [← hp] at hint
  simp only [transform_coll_c, if_neg hint]
  refine congrArg (Function.update p (Fin.last (d + 1))) ?_
  have h1 := grid_node_scaled A C n 1 hn hC
  have hk := grid_node_scaled A C n k hn hC
  rw [Nat.cast_one, one_mul] at h1
  rw [hp, hk]
  unfold collector_c_offset
  rw [mul_comm (collector_scale_factor A C n), h1]
  ring

theorem transform_coll_end {d : Nat} (s C off : ℚ) (p : Point (d + 2))
    (hp : p (Fin.last (d + 1)) = 0 ∨ p (Fin.last (d + 1)) = C) :
    transform_coll_a p s C = p ∧ transform_coll_c p s C off = p := by
  have hpos : (0 : ℚ) < transform_eps := by norm_num [transform_eps]
  have hc : p (Fin.last (d + 1)) < transform_eps ∨
      p (Fin.last (d + 1)) > C - transform_eps := by
    rcases hp with h | h
    · left
      rw [h]
      exact hpos
    · right
      rw [h]
      linarith
  exact ⟨by simp only [transform_coll_a, if_pos hc],
    by simp only [transform_coll_c, if_pos hc]⟩

/-! ### Auxiliary facts on the vertical shift -/

theorem merge_run_applied {d : Nat} (cs : Components (d + 2)) (k : Nat) :
    ((merge_run cs (k + 1)).comps.get (components_at (k % 8))).triangulation =
      GridTools_shift (applied_shift cs k)
        ((merge_run cs k).comps.get (components_at (k % 8))).triangulation := by
  have hs := congrArg Prod.fst (merge_run_step cs k)
  simp only at hs
  rw [hs]
  rfl

theorem components_at_early (k : Nat) (hk : k < 3) :
    components_at (k % 8) ≠ ComponentId.collector_c := by
  interval_cases k <;> decide

theorem build_components_vertical {d : Nat} (ids : MaterialIds) (database : Database)
    (id : ComponentId) :
    ((build_components ids database : Components (d + 2)).get id).shift_vector
        (Fin.last (d + 1)) =
      if id = ComponentId.collector_c then
        -(database.collector.dimensions.getD (d + 1) 0 -
          database.anode.dimensions.getD (d + 1) 0)
      else 0 := by
  cases id
  case collector_c =>
    rw [if_pos rfl]
    exact (build_components_collector_c ids database).2.1
  all_goals rfl

theorem merge_run_vertical {d : Nat} (ids : MaterialIds) (database : Database) (k : Nat)
    (id : ComponentId) :
    ((merge_run (build_components ids database : Components (d + 2)) k).comps.get
        id).shift_vector (Fin.last (d + 1)) =
      if id = ComponentId.collector_c ∧ k ≤ 3 then
        -(database.collector.dimensions.getD (d + 1) 0 -
          database.anode.dimensions.getD (d + 1) 0)
      else 0 := by
  induction k with
  | zero =>
    have h := build_components_vertical (d := d) ids database id
    by_cases hid : id = ComponentId.collector_c
    · rw [if_pos ⟨hid, by omega⟩]
      rw [if_pos hid] at h
      exact h
    · rw [if_neg (fun hc => hid hc.1)]
      rw [if_neg hid] at h
      exact h
  | succ k ih =>
    by_cases h : id = components_at (k % 8)
    · subst h
      rw [merge_run_merged_last, if_neg]
      rintro ⟨hc, hk⟩
      exact components_at_early k (by omega) hc
    · rw [merge_run_other _ k id h, ih]
      by_cases hid : id = ComponentId.collector_c
      · have hk3 : k ≠ 3 := by
          intro hk
          apply h
          rw [hid, hk]
          rfl
        by_cases hk : k ≤ 3
        · rw [if_pos ⟨hid, hk⟩, if_pos ⟨hid, by omega⟩]
        · rw [if_neg (fun hc => hk hc.2), if_neg (fun hc => hk (by omega))]
      · rw [if_neg (fun hc => hid hc.1), if_neg (fun hc => hid hc.1)]

theorem applied_shift_vertical {d : Nat} (ids : MaterialIds) (database : Database)
    (k : Nat) :
    applied_shift (build_components ids database : Components (d + 2)) k
        (Fin.last (d + 1)) =
      if k = 3 then
        -(database.collector.dimensions.getD (d + 1) 0 -
          database.anode.dimensions.getD (d + 1) 0)
      else 0 := by
  unfold applied_shift
  rw [Function.update_noteq (last_ne_zero d), merge_run_vertical]
  by_cases hk : k = 3
  · subst hk
    rw [if_pos ⟨rfl, le_refl 3⟩, if_pos rfl]
  · rw [if_neg hk, if_neg]
    rintro ⟨hc, hk3⟩
    have hlt : k < 3 := by omega
    exact components_at_early k hlt hc

theorem merge_run_collector_c_total {d : Nat} (ids : MaterialIds) (database : Database)
    (k : Nat) (hk : 4 ≤ k) :
    ∃ T : Point (d + 2),
      (merge_run (build_components ids database : Components (d + 2))
          k).comps.collector_c.triangulation =
        GridTools_shift T
          (build_components ids database : Components (d + 2)).collector_c.triangulation ∧
      T (Fin.last (d + 1)) =
        -(database.collector.dimensions.getD (d + 1) 0 -
          database.anode.dimensions.getD (d + 1) 0) := by
  have hv := merge_run_vertical (d := d) ids database k ComponentId.collector_c
  rw [if_neg (fun hc => by omega)] at hv
  have hb := (build_components_collector_c (d := d) ids database).2.1
  rcases merge_run_placed (build_components ids database : Components (d + 2))
      (build_components_offset ids database)
      (fun id i _ hl => build_components_shift ids database id i hl) k
      ComponentId.collector_c with h | ⟨h, _⟩
  · refine ⟨0, ?_, ?_⟩
    · rw [GridTools_shift_zero]
      exact congrArg Component.triangulation h
    · have h2 := congrArg (fun c : Component (d + 2) => c.shift_vector (Fin.last (d + 1))) h
      simp only at h2
      rw [hv] at h2
      rw [← hb]
      exact h2
  · refine ⟨_, h, ?_⟩
    unfold placed
    rw [if_neg (last_ne_zero d)]
    exact hb

/-! ### Auxiliary facts on the file extension -/

theorem find_last_of_absent (c : Char) (ext : List Char) (h : c ∉ ext) :
    find_last_of ext c = none := by
  induction ext with
  | nil => rfl
  | cons x xs ih =>
    have hx : ¬ x = c := fun hxc => h (by rw [hxc]; exact List.mem_cons_self _ _)
    have hxs : c ∉ xs := fun hm => h (List.mem_cons_of_mem _ hm)
    simp [find_last_of, ih hxs, hx]

theorem find_last_of_last (c : Char) (pre ext : List Char) (h : c ∉ ext) :
    find_last_of (pre ++ c :: ext) c = some pre.length := by
  induction pre with
  | nil => simp [find_last_of, find_last_of_absent c ext h]
  | cons x xs ih => simp [find_last_of, ih]

theorem file_extension_no_dot (mesh_file : String) (h : '.' ∉ mesh_file.data) :
    file_extension mesh_file = mesh_file := by
  unfold file_extension
  rw [find_last_of_absent '.' mesh_file.data h]
  have hz : (npos + 1) % 2 ^ 64 = 0 := by decide
  rw [hz, List.drop_zero]

theorem file_extension_after_dot (mesh_file : String) (pre ext : List Char)
    (h : mesh_file.data = pre ++ '.' :: ext) (hdot : '.' ∉ ext) :
    file_extension mesh_file = String.mk ext := by
  unfold file_extension
  rw [h, find_last_of_last '.' pre ext hdot]
  simp

/-! ### Auxiliary facts on the conversion of the geometry database -/

theorem convert_geometry_database_two (sqrt : ℚ → ℚ)
    (collector anode_electrode separator cathode_electrode tab area : ℚ) :
    convert_geometry_database 0 sqrt
        (geometry_database collector anode_electrode separator cathode_electrode tab area
          collector) =
      Except.ok
        { collector :=
            [to_string_value (collector * (1 / 100)),
              to_string_value (area * (1 / 10000) + tab * (1 / 100))]
          anode :=
            [to_string_value (anode_electrode * (1 / 100)),
              to_string_value (area * (1 / 10000))]
          separator :=
            [to_string_value (separator * (1 / 100)), to_string_value (area * (1 / 10000))]
          cathode :=
            [to_string_value (cathode_electrode * (1 / 100)),
              to_string_value (area * (1 / 10000))] } := by
  simp [convert_geometry_database, geometry_database, get_double, bind, Except.bind,
    pure, Except.pure]

theorem to_string_value_of_floor (x : ℚ) (m : ℤ) (hm : ⌊x * 10 ^ 6⌋ = m)
    (hlow : x * 10 ^ 6 - (m : ℚ) < 1 / 2) :
    to_string_value x = (m : ℚ) / 10 ^ 6 := by
  unfold to_string_value round_half_even
  rw [hm, if_pos hlow]

/-! ### Auxiliary facts on the catalog after the accesses -/

theorem TagMap.index_of_nonempty (m : TagMap) (name : String) (h : (m.tags name).Nonempty) :
    (m.index name).2 = m := by
  unfold TagMap.tags at h
  unfold TagMap.index
  cases hl : List.lookup name m with
  | none =>
    rw [hl] at h
    simp at h
  | some s => rfl

/-- With the default catalog `compute_cell_weight` leaves the materials map as it was. -/
theorem compute_cell_weight_default_unchanged (m : Nat) (weights : WEIGHT_TYPE → Nat) :
    (compute_cell_weight default_materials m weights).2 = default_materials :=
  rfl

/-- When `set_boundary_ids` returns, both maps of the catalog are as they were. -/
theorem set_boundary_ids_maps_unchanged {d : Nat} (materials boundaries : TagMap)
    (ranks : List (TriaView (d + 2))) (collector_top collector_bottom : ℚ)
    (r : List (TriaView (d + 2)) × TagMap × TagMap)
    (h : set_boundary_ids materials boundaries ranks collector_top collector_bottom =
      Except.ok r) :
    r.2 = (materials, boundaries) := by
  revert h
  apply set_boundary_ids_cases materials boundaries ranks collector_top collector_bottom
    (fun res => res = Except.ok r → r.2 = (materials, boundaries))
  · intro _ h
    exact absurd h (by simp)
  · intro _ _ h
    exact absurd h (by simp)
  · intro _ _ _ h
    exact absurd h (by simp)
  · intro _ _ _ _ h
    exact absurd h (by simp)
  · intro a c ha hfa hc hfc h
    have hr := Except.ok.inj h
    subst hr
    have hma : (materials.tags "collector_anode").Nonempty := by
      obtain ⟨_, _, cell, _, hmem, _⟩ := hfa
      exact ⟨_, hmem⟩
    have hmc : (materials.tags "collector_cathode").Nonempty := by
      obtain ⟨_, _, cell, _, hmem, _⟩ := hfc
      exact ⟨_, hmem⟩
    have hba : (boundaries.tags "anode").Nonempty := by
      rw [ha]
      exact Finset.singleton_nonempty a
    have hbc : (boundaries.tags "cathode").Nonempty := by
      rw [hc]
      exact Finset.singleton_nonempty c
    have e1 : (materials.index "collector_anode").2 = materials :=
      TagMap.index_of_nonempty _ _ hma
    have e2 : (boundaries.index "anode").2 = boundaries := TagMap.index_of_nonempty _ _ hba
    simp only [e1, e2, TagMap.index_of_nonempty _ _ hmc, TagMap.index_of_nonempty _ _ hbc]

/-! ### Auxiliary facts on the ownership of the scanned cells -/

theorem tag_terminal_with_ownership {d : Nat} (material_ids : Finset Nat) (expected : ℚ)
    (id : Nat) (own : CellView → Bool) (tria : TriaView (d + 2)) :
    tag_terminal material_ids false expected id (with_ownership own tria) =
      (with_ownership own (tag_terminal material_ids false expected id tria).1,
        (tag_terminal material_ids false expected id tria).2) := by
  have hf : (fun (st : (Nat → Nat) × Nat) (cell : CellView) =>
      if MaterialIdEqualTo material_ids false
          { cell with is_locally_owned := own cell } = true then
        if ({ cell with is_locally_owned := own cell } : CellView).at_boundary = true then
          tag_faces tria.face_center expected id { cell with is_locally_owned := own cell } st
        else st
      else st) =
      (fun st cell =>
        if MaterialIdEqualTo material_ids false cell = true then
          if cell.at_boundary = true then tag_faces tria.face_center expected id cell st
          else st
        else st) := by
    funext st cell
    simp only [MaterialIdEqualTo_false]
    rfl
  unfold tag_terminal with_ownership
  simp only [List.foldl_map]
  rw [hf]

theorem tag_pass_with_ownership {d : Nat} (material_ids : Finset Nat) (expected : ℚ)
    (id : Nat) (own : CellView → Bool) (ranks : List (TriaView (d + 2))) :
    ((ranks.map (with_ownership own)).map
        (tag_terminal material_ids false expected id)).map Prod.snd =
      (ranks.map (tag_terminal material_ids false expected id)).map Prod.snd ∧
    ((ranks.map (with_ownership own)).map
        (tag_terminal material_ids false expected id)).map Prod.fst =
      ((ranks.map (tag_terminal material_ids false expected id)).map Prod.fst).map
        (with_ownership own) := by
  simp only [List.map_map]
  constructor
  · apply List.map_congr_left
    intro tria _
    simp only [Function.comp_apply, tag_terminal_with_ownership]
  · apply List.map_congr_left
    intro tria _
    simp only [Function.comp_apply, tag_terminal_with_ownership]

theorem set_boundary_ids_with_ownership {d : Nat} (materials boundaries : TagMap)
    (ranks : List (TriaView (d + 2))) (collector_top collector_bottom : ℚ)
    (own : CellView → Bool) :
    set_boundary_ids materials boundaries (ranks.map (with_ownership own)) collector_top
        collector_bottom =
      (set_boundary_ids materials boundaries ranks collector_top collector_bottom).map
        (fun r => (r.1.map (with_ownership own), r.2)) := by
  unfold set_boundary_ids
  simp only
  cases get_boundary_id boundaries "anode" with
  | error e => rfl
  | ok r =>
    obtain ⟨a, ba⟩ := r
    simp only
    rw [(tag_pass_with_ownership _ collector_top a own ranks).1,
      (tag_pass_with_ownership _ collector_top a own ranks).2]
    split_ifs with h1
    · rfl
    · cases get_boundary_id ba "cathode" with
      | error e => rfl
      | ok r2 =>
        obtain ⟨c, bc⟩ := r2
        simp only
        rw [(tag_pass_with_ownership _ collector_bottom c own _).1,
          (tag_pass_with_ownership _ collector_bottom c own _).2]
        split_ifs with h2
        · rfl
        · rfl

theorem ghost_tria_cells :
    ghost_tria.cells =
      [{ material_id := 3, is_locally_owned := false, at_boundary := true,
          measure := 1 / 100000, faces := [0, 1, 2, 3] },
        { material_id := 4, is_locally_owned := false, at_boundary := true,
          measure := 1 / 100000, faces := [4, 5, 6, 7] }] :=
  rfl

/-! ### Auxiliary facts on the nodes of the structured grids -/

theorem mem_grid_indices : ∀ (dim : Nat) (reps t : Fin dim → Nat),
    t ∈ grid_indices dim reps ↔ ∀ i, t i < reps i := by
  intro dim
  induction dim with
  | zero =>
    intro reps t
    simp only [grid_indices, List.mem_singleton]
    constructor
    · intro _ i
      exact i.elim0
    · intro _
      funext i
      exact i.elim0
  | succ n ih =>
    intro reps t
    simp only [grid_indices, List.mem_flatMap, List.mem_map, List.mem_range]
    constructor
    · rintro ⟨s, hs, i, hi, rfl⟩
      intro j
      refine Fin.cases ?_ ?_ j
      · simpa using hi
      · intro j
        simpa using (ih _ s).mp hs j
    · intro h
      refine ⟨Fin.tail t, (ih _ _).mpr fun i => h i.succ, t 0, h 0, ?_⟩
      exact Fin.cons_self_tail t

/-- The vertices of the structured grid: every coordinate of a vertex is the lower corner
plus a whole number `j ≤ repetitions[i]` of cell widths. -/
theorem subdivided_vertex_coord {dim : Nat} (repetitions : List Nat) (p_1 p_2 : Point dim)
    (cell : Cell dim) (hc : cell ∈ subdivided_hyper_rectangle repetitions p_1 p_2)
    (v : Point dim) (hv : v ∈ cell.vertices) (i : Fin dim) :
    ∃ j : Nat, j ≤ repetitions.getD i 0 ∧
      v i = min (p_1 i) (p_2 i) +
        (j : ℚ) * ((max (p_1 i) (p_2 i) - min (p_1 i) (p_2 i)) / (repetitions.getD i 0 : ℚ)) := by
  unfold subdivided_hyper_rectangle at hc
  simp only [List.mem_map] at hc
  obtain ⟨idx, hidx, rfl⟩ := hc
  simp only [List.mem_map] at hv
  obtain ⟨b, hb, rfl⟩ := hv
  have h1 := (mem_grid_indices dim _ idx).mp hidx i
  have h2 := (mem_grid_indices dim _ b).mp hb i
  exact ⟨idx i + b i, by omega, rfl⟩

/-- Every multi-index of a cell and every corner of it give a vertex of the structured
grid. -/
theorem subdivided_vertex_mem {dim : Nat} (repetitions : List Nat) (p_1 p_2 : Point dim)
    (idx b : Fin dim → Nat) (hidx : ∀ i, idx i < repetitions.getD i 0) (hb : ∀ i, b i < 2) :
    ∃ cell ∈ subdivided_hyper_rectangle repetitions p_1 p_2, cell.material_id = 0 ∧
      (fun i => min (p_1 i) (p_2 i) +
        ((idx i + b i : Nat) : ℚ) *
          ((max (p_1 i) (p_2 i) - min (p_1 i) (p_2 i)) / (repetitions.getD i 0 : ℚ))) ∈
        cell.vertices := by
  unfold subdivided_hyper_rectangle
  refine ⟨_, List.mem_map.mpr ⟨idx, (mem_grid_indices dim _ idx).mpr hidx, rfl⟩, rfl, ?_⟩
  exact List.mem_map.mpr ⟨b, (mem_grid_indices dim _ b).mpr hb, rfl⟩

theorem is_node_set_material_id {dim : Nat} (id m : Nat) (tria : Triangulation dim)
    (v : Point dim) :
    is_node (set_material_id id tria) m v ↔ m = id ∧ ∃ n, is_node tria n v := by
  unfold is_node set_material_id
  simp only [List.mem_map]
  constructor
  · rintro ⟨_, ⟨cell, hc, rfl⟩, hm, hv⟩
    exact ⟨hm.symm, cell.material_id, cell, hc, rfl, hv⟩
  · rintro ⟨rfl, n, cell, hc, _, hv⟩
    exact ⟨_, ⟨cell, hc, rfl⟩, rfl, hv⟩

theorem is_node_shift {dim : Nat} (T : Point dim) (m : Nat) (tria : Triangulation dim)
    (v : Point dim) :
    is_node (GridTools_shift T tria) m v ↔ ∃ u, is_node tria m u ∧ v = u + T := by
  unfold is_node GridTools_shift
  simp only [List.mem_map]
  constructor
  · rintro ⟨_, ⟨cell, hc, rfl⟩, hm, hv⟩
    simp only [List.mem_map] at hv
    obtain ⟨u, hu, rfl⟩ := hv
    exact ⟨u, ⟨cell, hc, hm, hu⟩, rfl⟩
  · rintro ⟨u, ⟨cell, hc, hm, hu⟩, rfl⟩
    exact ⟨_, ⟨cell, hc, rfl⟩, hm, List.mem_map.mpr ⟨u, hu, rfl⟩⟩

theorem is_node_transform {dim : Nat} (f : Point dim → Point dim) (m : Nat)
    (tria : Triangulation dim) (v : Point dim) :
    is_node (GridTools_transform f tria) m v ↔ ∃ u, is_node tria m u ∧ v = f u := by
  unfold is_node GridTools_transform
  simp only [List.mem_map]
  constructor
  · rintro ⟨_, ⟨cell, hc, rfl⟩, hm, hv⟩
    simp only [List.mem_map] at hv
    obtain ⟨u, hu, rfl⟩ := hv
    exact ⟨u, ⟨cell, hc, hm, hu⟩, rfl⟩
  · rintro ⟨u, ⟨cell, hc, hm, hu⟩, rfl⟩
    exact ⟨_, ⟨cell, hc, rfl⟩, hm, List.mem_map.mpr ⟨u, hu, rfl⟩⟩

theorem is_node_append {dim : Nat} (t1 t2 : Triangulation dim) (m : Nat) (v : Point dim) :
    is_node (t1 ++ t2) m v ↔ is_node t1 m v ∨ is_node t2 m v := by
  unfold is_node
  simp only [List.mem_append]
  constructor
  · rintro ⟨cell, hc | hc, h⟩
    · exact Or.inl ⟨cell, hc, h⟩
    · exact Or.inr ⟨cell, hc, h⟩
  · rintro (⟨cell, hc, h⟩ | ⟨cell, hc, h⟩)
    · exact ⟨cell, Or.inl hc, h⟩
    · exact ⟨cell, Or.inr hc, h⟩

/-- The global mesh after the four merges of one cycle: the mesh of `collector_a` followed
by the placed meshes of the anode, the separator, the cathode and `collector_c`. -/
theorem merge_run_four {d : Nat} (cs : Components (d + 2))
    (h0 : ∀ id, (cs.get id).offset = 0)
    (hmid : ∀ id i, i ≠ 0 → i ≠ Fin.last (d + 1) → (cs.get id).shift_vector i = 0) :
    (merge_run cs 4).triangulation =
      cs.collector_a.triangulation ++
        GridTools_shift (placed cs.anode (layer_start cs 0)) cs.anode.triangulation ++
        GridTools_shift (placed cs.separator (layer_start cs 1)) cs.separator.triangulation ++
        GridTools_shift (placed cs.cathode (layer_start cs 2)) cs.cathode.triangulation ++
        GridTools_shift (placed cs.collector_c (layer_start cs 3))
          cs.collector_c.triangulation := by
  rw [merge_run_append_placed cs h0 hmid 3, merge_run_append_placed cs h0 hmid 2,
    merge_run_append_placed cs h0 hmid 1, merge_run_append_placed cs h0 hmid 0]
  rfl

theorem transform_coll_a_other {d : Nat} (p : Point (d + 2)) (s C : ℚ) (i : Fin (d + 2))
    (hi : i ≠ Fin.last (d + 1)) : transform_coll_a p s C i = p i := by
  unfold transform_coll_a
  split_ifs
  · rfl
  · exact Function.update_noteq hi _ _

theorem transform_coll_c_other {d : Nat} (p : Point (d + 2)) (s C off : ℚ) (i : Fin (d + 2))
    (hi : i ≠ Fin.last (d + 1)) : transform_coll_c p s C off i = p i := by
  unfold transform_coll_c
  split_ifs
  · rfl
  · exact Function.update_noteq hi _ _

/-- The meshes that `mesh_generator` builds for the default mesh in three dimensions. -/
theorem supercapacitor_components_three (dimensions : ComponentDimensions) :
    (supercapacitor_components 1 dimensions).anode.triangulation =
      set_material_id 0
        (subdivided_hyper_rectangle [5, 5, 2] 0 (fun i => dimensions.anode.getD i 0)) ∧
    (supercapacitor_components 1 dimensions).separator.triangulation =
      set_material_id 1
        (subdivided_hyper_rectangle [4, 4, 2] 0 (fun i => dimensions.separator.getD i 0)) ∧
    (supercapacitor_components 1 dimensions).cathode.triangulation =
      set_material_id 2
        (subdivided_hyper_rectangle [5, 5, 2] 0 (fun i => dimensions.cathode.getD i 0)) ∧
    (supercapacitor_components 1 dimensions).collector_a.triangulation =
      GridTools_transform
        (fun p => transform_coll_a p
          (collector_scale_factor (dimensions.anode.getD 2 0) (dimensions.collector.getD 2 0) 3)
          (dimensions.collector.getD 2 0))
        (set_material_id 3
          (subdivided_hyper_rectangle [3, 3, 3] 0
            (fun i => dimensions.collector.getD i 0))) ∧
    (supercapacitor_components 1 dimensions).collector_c.triangulation =
      GridTools_transform
        (fun p => transform_coll_c p
          (collector_scale_factor (dimensions.anode.getD 2 0) (dimensions.collector.getD 2 0) 3)
          (dimensions.collector.getD 2 0)
          (collector_c_offset (dimensions.anode.getD 2 0) (dimensions.collector.getD 2 0) 3))
        (set_material_id 4
          (subdivided_hyper_rectangle [3, 3, 3] 0
            (fun i => dimensions.collector.getD i 0))) :=
  ⟨rfl, rfl, rfl, rfl, rfl⟩

theorem placed_middle {d : Nat} (ids : MaterialIds) (database : Database) (id : ComponentId)
    (offset : ℚ) (i : Fin (d + 2)) (h0 : i ≠ 0) (hl : i ≠ Fin.last (d + 1)) :
    placed ((build_components ids database : Components (d + 2)).get id) offset i = 0 := by
  unfold placed
  rw [if_neg h0]
  exact build_components_shift ids database id i hl

/-- The nodes of a tagged structured grid with its first corner at the origin. -/
theorem grid_node_axis {dim : Nat} (id m : Nat) (repetitions : List Nat) (D : Point dim)
    (u : Point dim)
    (hu : is_node (set_material_id id (subdivided_hyper_rectangle repetitions 0 D)) m u)
    (i : Fin dim) :
    m = id ∧ ∃ j : Nat, j ≤ repetitions.getD i 0 ∧
      u i = min 0 (D i) +
        (j : ℚ) * ((max 0 (D i) - min 0 (D i)) / (repetitions.getD i 0 : ℚ)) := by
  obtain ⟨hm, n, cell, hc, _, hv⟩ := (is_node_set_material_id id m _ u).mp hu
  exact ⟨hm, subdivided_vertex_coord repetitions 0 D cell hc u hv i⟩

/-- Every lattice point of a tagged structured grid with its first corner at the origin is
a node of it. -/
theorem grid_node_mem {dim : Nat} (id : Nat) (repetitions : List Nat) (D : Point dim)
    (j : Fin dim → Nat) (hj : ∀ i, j i ≤ repetitions.getD i 0)
    (hpos : ∀ i : Fin dim, 0 < repetitions.getD i 0) :
    is_node (set_material_id id (subdivided_hyper_rectangle repetitions 0 D)) id
      (fun i => min 0 (D i) +
        (j i : ℚ) * ((max 0 (D i) - min 0 (D i)) / (repetitions.getD i 0 : ℚ))) := by
  rw [is_node_set_material_id]
  refine ⟨rfl, 0, ?_⟩
  obtain ⟨cell, hc, hm, hv⟩ := subdivided_vertex_mem repetitions 0 D
    (fun i => if j i < repetitions.getD i 0 then j i else j i - 1)
    (fun i => if j i < repetitions.getD i 0 then 0 else 1)
    (by
      intro i
      have h1 := hj i
      have h2 := hpos i
      show (if j i < repetitions.getD i 0 then j i else j i - 1) < repetitions.getD i 0
      split_ifs <;> omega)
    (by
      intro i
      show (if j i < repetitions.getD i 0 then 0 else 1) < 2
      split_ifs <;> omega)
  refine ⟨cell, hc, hm, ?_⟩
  have he : (fun i => min 0 (D i) +
      (j i : ℚ) * ((max 0 (D i) - min 0 (D i)) / (repetitions.getD i 0 : ℚ))) =
      (fun i => min ((0 : Point dim) i) (D i) +
        (((if j i < repetitions.getD i 0 then j i else j i - 1) +
          (if j i < repetitions.getD i 0 then 0 else 1) : Nat) : ℚ) *
          ((max ((0 : Point dim) i) (D i) - min ((0 : Point dim) i) (D i)) /
            (repetitions.getD i 0 : ℚ))) := by
    funext i
    have h1 := hj i
    have h2 := hpos i
    have hn : (if j i < repetitions.getD i 0 then j i else j i - 1) +
        (if j i < repetitions.getD i 0 then 0 else 1) = j i := by
      split_ifs <;> omega
    rw [hn]
    rfl
  rw [he]
  exact hv

/-- The nodes of the default mesh in three dimensions, along axis `1`: a node of a cell of
material id `m` in the global mesh after the four merges lies a whole number `j ≤ n` of
cell widths `W / n` above the lower side of its layer, with `n = 5` for the electrodes,
`n = 4` for the separator and `n = 3` for the collectors. -/
theorem supercapacitor_three_axis_one (dimensions : ComponentDimensions) (m : Nat)
    (v : Point (1 + 2))
    (hv : is_node (merge_run (supercapacitor_components 1 dimensions) 4).triangulation m v) :
    ∃ (n : Nat) (W : ℚ) (j : Nat),
      ((m = 3 ∧ n = 3 ∧ W = dimensions.collector.getD 1 0) ∨
        (m = 0 ∧ n = 5 ∧ W = dimensions.anode.getD 1 0) ∨
        (m = 1 ∧ n = 4 ∧ W = dimensions.separator.getD 1 0) ∨
        (m = 2 ∧ n = 5 ∧ W = dimensions.cathode.getD 1 0) ∨
        (m = 4 ∧ n = 3 ∧ W = dimensions.collector.getD 1 0)) ∧
      j ≤ n ∧ v 1 = min 0 W + (j : ℚ) * ((max 0 W - min 0 W) / (n : ℚ)) := by
  have h1l : (1 : Fin (1 + 2)) ≠ Fin.last (1 + 1) := by decide
  have h10 : (1 : Fin (1 + 2)) ≠ 0 := by decide
  have hp : ∀ id offset,
      placed ((supercapacitor_components 1 dimensions).get id) offset 1 = 0 :=
    fun id offset => placed_middle sample_ids _ id offset 1 h10 h1l
  have hpa : ∀ o, placed (supercapacitor_components 1 dimensions).anode o 1 = 0 :=
    fun o => hp ComponentId.anode o
  have hps : ∀ o, placed (supercapacitor_components 1 dimensions).separator o 1 = 0 :=
    fun o => hp ComponentId.separator o
  have hpc : ∀ o, placed (supercapacitor_components 1 dimensions).cathode o 1 = 0 :=
    fun o => hp ComponentId.cathode o
  have hpk : ∀ o, placed (supercapacitor_components 1 dimensions).collector_c o 1 = 0 :=
    fun o => hp ComponentId.collector_c o
  obtain ⟨han, hse, hca, hcola, hcolc⟩ := supercapacitor_components_three dimensions
  rw [merge_run_four (supercapacitor_components 1 dimensions)
    (fun id => build_components_offset sample_ids _ id)
    (fun id i _ hi => build_components_shift sample_ids _ id i hi)] at hv
  simp only [is_node_append, is_node_shift] at hv
  rcases hv with (((hv | ⟨u, hu, rfl⟩) | ⟨u, hu, rfl⟩) | ⟨u, hu, rfl⟩) | ⟨u, hu, rfl⟩
  · rw [hcola, is_node_transform] at hv
    obtain ⟨u, hu, rfl⟩ := hv
    obtain ⟨hm, j, hj, hc⟩ := grid_node_axis 3 m _ _ u hu 1
    refine ⟨3, _, j, Or.inl ⟨hm, rfl, rfl⟩, hj, ?_⟩
    rw [transform_coll_a_other _ _ _ 1 h1l]
    exact hc
  · rw [han] at hu
    obtain ⟨hm, j, hj, hc⟩ := grid_node_axis 0 m _ _ u hu 1
    refine ⟨5, _, j, Or.inr (Or.inl ⟨hm, rfl, rfl⟩), hj, ?_⟩
    rw [Pi.add_apply, hpa, add_zero]
    exact hc
  · rw [hse] at hu
    obtain ⟨hm, j, hj, hc⟩ := grid_node_axis 1 m _ _ u hu 1
    refine ⟨4, _, j, Or.inr (Or.inr (Or.inl ⟨hm, rfl, rfl⟩)), hj, ?_⟩
    rw [Pi.add_apply, hps, add_zero]
    exact hc
  · rw [hca] at hu
    obtain ⟨hm, j, hj, hc⟩ := grid_node_axis 2 m _ _ u hu 1
    refine ⟨5, _, j, Or.inr (Or.inr (Or.inr (Or.inl ⟨hm, rfl, rfl⟩))), hj, ?_⟩
    rw [Pi.add_apply, hpc, add_zero]
    exact hc
  · rw [hcolc, is_node_transform] at hu
    obtain ⟨w, hw, rfl⟩ := hu
    obtain ⟨hm, j, hj, hc⟩ := grid_node_axis 4 m _ _ w hw 1
    refine ⟨3, _, j, Or.inr (Or.inr (Or.inr (Or.inr ⟨hm, rfl, rfl⟩))), hj, ?_⟩
    rw [Pi.add_apply, hpk, add_zero,
      transform_coll_c_other _ _ _ _ 1 h1l]
    exact hc

/-- The anode of the default mesh in three dimensions has, on each of its two faces across
the stack, a node one fifth of the width `W` above the lower side. -/
theorem supercapacitor_three_anode_nodes (dimensions : ComponentDimensions) (W : ℚ)
    (hW : 0 < W) (ha : dimensions.anode.getD 1 0 = W) (ht : 0 ≤ dimensions.anode.getD 0 0) :
    (∃ v : Point (1 + 2),
      is_node (merge_run (supercapacitor_components 1 dimensions) 4).triangulation 0 v ∧
        v 0 = layer_start (supercapacitor_components 1 dimensions) 0 ∧ v 1 = W / 5) ∧
    (∃ v : Point (1 + 2),
      is_node (merge_run (supercapacitor_components 1 dimensions) 4).triangulation 0 v ∧
        v 0 = layer_start (supercapacitor_components 1 dimensions) 1 ∧ v 1 = W / 5) := by
  have h1l : (1 : Fin (1 + 2)) ≠ Fin.last (1 + 1) := by decide
  have h10 : (1 : Fin (1 + 2)) ≠ 0 := by decide
  have hpa : ∀ o, placed (supercapacitor_components 1 dimensions).anode o 1 = 0 :=
    fun o => placed_middle sample_ids _ ComponentId.anode o 1 h10 h1l
  have hp0 : ∀ o, placed (supercapacitor_components 1 dimensions).anode o 0 = o :=
    fun o => if_pos rfl
  have hstart : layer_start (supercapacitor_components 1 dimensions) 1 =
      layer_start (supercapacitor_components 1 dimensions) 0 + dimensions.anode.getD 0 0 := by
    unfold layer_start
    rw [Finset.sum_range_one, Finset.sum_range_zero, add_zero]
    rfl
  have hmem : ∀ j : Fin (1 + 2) → Nat, (∀ i, j i ≤ [5, 5, 2].getD i 0) →
      is_node (merge_run (supercapacitor_components 1 dimensions) 4).triangulation 0
        ((fun i => min 0 (dimensions.anode.getD i 0) +
            (j i : ℚ) * ((max 0 (dimensions.anode.getD i 0) -
              min 0 (dimensions.anode.getD i 0)) / (([5, 5, 2] : List Nat).getD i 0 : ℚ)) :
            Point (1 + 2)) +
          placed (supercapacitor_components 1 dimensions).anode
            (layer_start (supercapacitor_components 1 dimensions) 0)) := by
    intro j hj
    rw [merge_run_four (supercapacitor_components 1 dimensions)
      (fun id => build_components_offset sample_ids _ id)
      (fun id i _ hi => build_components_shift sample_ids _ id i hi)]
    simp only [is_node_append, is_node_shift]
    refine Or.inl (Or.inl (Or.inl (Or.inr ⟨_, ?_, rfl⟩)))
    rw [(supercapacitor_components_three dimensions).1]
    exact grid_node_mem 0 [5, 5, 2] (fun i => dimensions.anode.getD i 0) j hj
      (by intro i; fin_cases i <;> simp)
  have hmin : min 0 W = 0 := min_eq_left (le_of_lt hW)
  have hmax : max 0 W = W := max_eq_right (le_of_lt hW)
  constructor
  · refine ⟨_, hmem ![0, 1, 0] (by intro i; fin_cases i <;> simp), ?_, ?_⟩
    · rw [Pi.add_apply, hp0]
      show min 0 (dimensions.anode.getD 0 0) +
        ((0 : Nat) : ℚ) * ((max 0 (dimensions.anode.getD 0 0) -
          min 0 (dimensions.anode.getD 0 0)) / ((5 : Nat) : ℚ)) + _ = _
      rw [min_eq_left ht]
      push_cast
      ring
    · rw [Pi.add_apply, hpa]
      show min 0 (dimensions.anode.getD 1 0) +
        ((1 : Nat) : ℚ) * ((max 0 (dimensions.anode.getD 1 0) -
          min 0 (dimensions.anode.getD 1 0)) / ((5 : Nat) : ℚ)) + 0 = W / 5
      rw [ha, hmin, hmax]
      norm_num
  · refine ⟨_, hmem ![5, 1, 0] (by intro i; fin_cases i <;> simp), ?_, ?_⟩
    · rw [Pi.add_apply, hp0, hstart]
      show min 0 (dimensions.anode.getD 0 0) +
        ((5 : Nat) : ℚ) * ((max 0 (dimensions.anode.getD 0 0) -
          min 0 (dimensions.anode.getD 0 0)) / ((5 : Nat) : ℚ)) + _ = _
      rw [min_eq_left ht, max_eq_right ht]
      push_cast
      ring
    · rw [Pi.add_apply, hpa]
      show min 0 (dimensions.anode.getD 1 0) +
        ((1 : Nat) : ℚ) * ((max 0 (dimensions.anode.getD 1 0) -
          min 0 (dimensions.anode.getD 1 0)) / ((5 : Nat) : ℚ)) + 0 = W / 5
      rw [ha, hmin, hmax]
      norm_num

/-- The meshes that `mesh_generator` builds for the default mesh in two dimensions. -/
theorem supercapacitor_components_two (dimensions : ComponentDimensions) :
    (supercapacitor_components 0 dimensions).anode.triangulation =
      set_material_id 0
        (subdivided_hyper_rectangle [10, 5] 0 (fun i => dimensions.anode.getD i 0)) ∧
    (supercapacitor_components 0 dimensions).separator.triangulation =
      set_material_id 1
        (subdivided_hyper_rectangle [5, 5] 0 (fun i => dimensions.separator.getD i 0)) ∧
    (supercapacitor_components 0 dimensions).cathode.triangulation =
      set_material_id 2
        (subdivided_hyper_rectangle [10, 5] 0 (fun i => dimensions.cathode.getD i 0)) ∧
    (supercapacitor_components 0 dimensions).collector_a.triangulation =
      GridTools_transform
        (fun p => transform_coll_a p
          (collector_scale_factor (dimensions.anode.getD 1 0) (dimensions.collector.getD 1 0) 6)
          (dimensions.collector.getD 1 0))
        (set_material_id 3
          (subdivided_hyper_rectangle [1, 6] 0 (fun i => dimensions.collector.getD i 0))) ∧
    (supercapacitor_components 0 dimensions).collector_c.triangulation =
      GridTools_transform
        (fun p => transform_coll_c p
          (collector_scale_factor (dimensions.anode.getD 1 0) (dimensions.collector.getD 1 0) 6)
          (dimensions.collector.getD 1 0)
          (collector_c_offset (dimensions.anode.getD 1 0) (dimensions.collector.getD 1 0) 6))
        (set_material_id 4
          (subdivided_hyper_rectangle [1, 6] 0 (fun i => dimensions.collector.getD i 0))) :=
  ⟨rfl, rfl, rfl, rfl, rfl⟩

/-- Where `merge_components` puts the layers of the default mesh in two dimensions: the
electrodes and the separator move along axis `0` only, `collector_c` also moves down by
`collector_dim - anode_dim`. -/
theorem supercapacitor_placed_two (dimensions : ComponentDimensions) (o : ℚ) :
    placed (supercapacitor_components 0 dimensions).anode o = ![o, 0] ∧
    placed (supercapacitor_components 0 dimensions).separator o = ![o, 0] ∧
    placed (supercapacitor_components 0 dimensions).cathode o = ![o, 0] ∧
    placed (supercapacitor_components 0 dimensions).collector_c o =
      ![o, -(dimensions.collector.getD 1 0 - dimensions.anode.getD 1 0)] := by
  refine ⟨?_, ?_, ?_, ?_⟩ <;>
  · funext i
    fin_cases i
    · rfl
    · rfl

/-- The positions of the layers of the default mesh along axis `0`. -/
theorem supercapacitor_layer_start (d : Nat) (dimensions : ComponentDimensions) :
    layer_start (supercapacitor_components d dimensions) 0 = dimensions.collector.getD 0 0 ∧
    layer_start (supercapacitor_components d dimensions) 1 =
      layer_start (supercapacitor_components d dimensions) 0 + dimensions.anode.getD 0 0 ∧
    layer_start (supercapacitor_components d dimensions) 2 =
      layer_start (supercapacitor_components d dimensions) 1 +
        dimensions.separator.getD 0 0 ∧
    layer_start (supercapacitor_components d dimensions) 3 =
      layer_start (supercapacitor_components d dimensions) 2 +
        dimensions.cathode.getD 0 0 := by
  unfold layer_start
  refine ⟨?_, ?_, ?_, ?_⟩
  · rw [Finset.sum_range_zero, add_zero]
    rfl
  · simp only [Finset.sum_range_succ, Finset.sum_range_zero, zero_add, add_zero]
    rfl
  · simp only [Finset.sum_range_succ, Finset.sum_range_zero, zero_add, add_zero, ← add_assoc]
    rfl
  · simp only [Finset.sum_range_succ, Finset.sum_range_zero, zero_add, add_zero, ← add_assoc]
    rfl

/-- The nodes of the default mesh in two dimensions, along axis `1`: every node of the
global mesh after the four merges that lies between the heights `0` and `A` of the
electrodes lies a whole number `k ≤ 5` of fifths of `A` above `0`, whatever its layer. -/
theorem supercapacitor_two_lattice (dimensions : ComponentDimensions) (A C : ℚ)
    (hA : 0 < A) (hAC : A < C) (hd : transform_eps ≤ C / 6)
    (ha : dimensions.anode.getD 1 0 = A) (hs : dimensions.separator.getD 1 0 = A)
    (hk : dimensions.cathode.getD 1 0 = A) (hc : dimensions.collector.getD 1 0 = C)
    (m : Nat) (v : Point (0 + 2))
    (hv : is_node (merge_run (supercapacitor_components 0 dimensions) 4).triangulation m v)
    (h0 : 0 ≤ v 1) (h1 : v 1 ≤ A) :
    ∃ k : Nat, k ≤ 5 ∧ v 1 = (k : ℚ) * (A / 5) := by
  have hC : 0 < C := lt_trans hA hAC
  have hd6 : transform_eps ≤ C / ((6 : Nat) : ℚ) := by
    push_cast
    exact hd
  have hminA : min 0 A = 0 := min_eq_left (le_of_lt hA)
  have hmaxA : max 0 A = A := max_eq_right (le_of_lt hA)
  have hminC : min 0 C = 0 := min_eq_left (le_of_lt hC)
  have hmaxC : max 0 C = C := max_eq_right (le_of_lt hC)
  obtain ⟨han, hse, hca, hcola, hcolc⟩ := supercapacitor_components_two dimensions
  have hbox : ∀ (id : Nat) (reps0 : Nat) (D : Point (0 + 2)) (u : Point (0 + 2)),
      D 1 = A →
      is_node (set_material_id id (subdivided_hyper_rectangle [reps0, 5] 0 D)) m u →
      ∃ k : Nat, k ≤ 5 ∧ u 1 = (k : ℚ) * (A / 5) := by
    intro id reps0 D u hD hu
    obtain ⟨_, j, hj, hcoord⟩ := grid_node_axis id m _ _ u hu 1
    refine ⟨j, hj, ?_⟩
    have h2 : u 1 = min 0 A + (j : ℚ) * ((max 0 A - min 0 A) / ((5 : Nat) : ℚ)) := by
      rw [← hD]
      exact hcoord
    rw [h2, hminA, hmaxA]
    push_cast
    ring
  have hgrid : ∀ (id : Nat) (u : Point (0 + 2)),
      is_node (set_material_id id (subdivided_hyper_rectangle [1, 6] 0
        (fun i => dimensions.collector.getD i 0))) m u →
      ∃ j : Nat, j ≤ 6 ∧ u (Fin.last (0 + 1)) = (j : ℚ) * (C / ((6 : Nat) : ℚ)) := by
    intro id u hu
    obtain ⟨_, j, hj, hcoord⟩ := grid_node_axis id m _ _ u hu 1
    refine ⟨j, hj, ?_⟩
    have h2 : u 1 = min 0 C + (j : ℚ) * ((max 0 C - min 0 C) / ((6 : Nat) : ℚ)) := by
      rw [← hc]
      exact hcoord
    show u 1 = _
    rw [h2, hminC, hmaxC]
    ring
  rw [merge_run_four (supercapacitor_components 0 dimensions)
    (fun id => build_components_offset sample_ids _ id)
    (fun id i _ hi => build_components_shift sample_ids _ id i hi)] at hv
  simp only [is_node_append, is_node_shift] at hv
  rcases hv with (((hv | ⟨u, hu, rfl⟩) | ⟨u, hu, rfl⟩) | ⟨u, hu, rfl⟩) | ⟨u, hu, rfl⟩
  · rw [hcola, is_node_transform, ha, hc] at hv
    obtain ⟨u, hu, rfl⟩ := hv
    obtain ⟨j, hj, hcoord⟩ := hgrid 3 u hu
    have hcases : j = 0 ∨ (1 ≤ j ∧ j ≤ 6 - 1) ∨ j = 6 := by omega
    rcases hcases with rfl | ⟨hj1, hj5⟩ | rfl
    · refine ⟨0, by norm_num, ?_⟩
      rw [(transform_coll_end _ C 0 u (Or.inl (by rw [hcoord]; simp))).1]
      show u (Fin.last (0 + 1)) = _
      rw [hcoord]
      simp
    · refine ⟨j, by omega, ?_⟩
      rw [transform_coll_a_node A C 6 j u (by norm_num) hC hd6 hj1 hj5 hcoord]
      show Function.update u (Fin.last (0 + 1)) _ (Fin.last (0 + 1)) = _
      rw [Function.update_same]
      push_cast
      ring
    · exfalso
      have hu6 : u (Fin.last (0 + 1)) = C := by
        rw [hcoord]
        push_cast
        field_simp
      rw [(transform_coll_end _ C 0 u (Or.inr hu6)).1] at h1
      have : u 1 = C := hu6
      linarith
  · rw [han] at hu
    obtain ⟨k, hk5, hcoord⟩ := hbox 0 10 _ u ha hu
    refine ⟨k, hk5, ?_⟩
    rw [(supercapacitor_placed_two dimensions _).1, Pi.add_apply, hcoord]
    simp
  · rw [hse] at hu
    obtain ⟨k, hk5, hcoord⟩ := hbox 1 5 _ u hs hu
    refine ⟨k, hk5, ?_⟩
    rw [(supercapacitor_placed_two dimensions _).2.1, Pi.add_apply, hcoord]
    simp
  · rw [hca] at hu
    obtain ⟨k, hk5, hcoord⟩ := hbox 2 10 _ u hk hu
    refine ⟨k, hk5, ?_⟩
    rw [(supercapacitor_placed_two dimensions _).2.2.1, Pi.add_apply, hcoord]
    simp
  · rw [hcolc, is_node_transform, ha, hc] at hu
    obtain ⟨w, hw, rfl⟩ := hu
    obtain ⟨j, hj, hcoord⟩ := hgrid 4 w hw
    rw [(supercapacitor_placed_two dimensions _).2.2.2, ha, hc, Pi.add_apply] at h0 h1 ⊢
    have hlast : (![layer_start (supercapacitor_components 0 dimensions) 3, -(C - A)] :
        Point (0 + 2)) 1 = -(C - A) := rfl
    rw [hlast] at h0 h1 ⊢
    have hcases : j = 0 ∨ (1 ≤ j ∧ j ≤ 6 - 1) ∨ j = 6 := by omega
    rcases hcases with rfl | ⟨hj1, hj5⟩ | rfl
    · exfalso
      have hu0 : w (Fin.last (0 + 1)) = 0 := by
        rw [hcoord]
        simp
      rw [(transform_coll_end (collector_scale_factor A C 6) C
        (collector_c_offset A C 6) w (Or.inl hu0)).2] at h0
      have : w 1 = 0 := hu0
      linarith
    · refine ⟨j - 1, by omega, ?_⟩
      rw [transform_coll_c_node A C 6 j w (by norm_num) hC hd6 hj1 hj5 hcoord]
      have hupd : Function.update w (Fin.last (0 + 1))
          (C - A + ((j : ℚ) - 1) * A / (((6 : Nat) : ℚ) - 1)) 1 =
          C - A + ((j : ℚ) - 1) * A / (((6 : Nat) : ℚ) - 1) := Function.update_same _ _ _
      rw [hupd, Nat.cast_sub hj1]
      push_cast
      ring
    · refine ⟨5, le_refl 5, ?_⟩
      have hu6 : w (Fin.last (0 + 1)) = C := by
        rw [hcoord]
        push_cast
        field_simp
      rw [(transform_coll_end (collector_scale_factor A C 6) C
        (collector_c_offset A C 6) w (Or.inr hu6)).2]
      have : w 1 = C := hu6
      rw [this]
      push_cast
      ring

/-- The nodes of a tagged two-dimensional grid on its two sides across axis `0`. -/
theorem grid_side_nodes (id n0 : Nat) (hn0 : 0 < n0) (D : Point (0 + 2)) (t A : ℚ)
    (ht : 0 ≤ t) (hA : 0 < A) (hD0 : D 0 = t) (hD1 : D 1 = A) (k : Nat) (hk : k ≤ 5) :
    is_node (set_material_id id (subdivided_hyper_rectangle [n0, 5] 0 D)) id
        ![0, (k : ℚ) * (A / 5)] ∧
      is_node (set_material_id id (subdivided_hyper_rectangle [n0, 5] 0 D)) id
        ![t, (k : ℚ) * (A / 5)] := by
  have hpos : ∀ i : Fin (0 + 2), 0 < ([n0, 5] : List Nat).getD i 0 := by
    intro i
    fin_cases i
    · exact hn0
    · show 0 < 5
      norm_num
  have hn0q : (n0 : ℚ) ≠ 0 := by
    have : 0 < (n0 : ℚ) := by exact_mod_cast hn0
    exact ne_of_gt this
  constructor
  · have h := grid_node_mem id [n0, 5] D ![0, k]
      (by
        intro i
        fin_cases i
        · exact Nat.zero_le _
        · exact hk) hpos
    have he : (fun i : Fin (0 + 2) => min 0 (D i) +
        ((![0, k] : Fin (0 + 2) → Nat) i : ℚ) *
          ((max 0 (D i) - min 0 (D i)) / (([n0, 5] : List Nat).getD i 0 : ℚ))) =
        ![0, (k : ℚ) * (A / 5)] := by
      funext i
      fin_cases i
      · show min 0 (D 0) + ((0 : Nat) : ℚ) * ((max 0 (D 0) - min 0 (D 0)) / (n0 : ℚ)) = 0
        rw [hD0, min_eq_left ht]
        simp
      · show min 0 (D 1) + (k : ℚ) * ((max 0 (D 1) - min 0 (D 1)) / ((5 : Nat) : ℚ)) =
          (k : ℚ) * (A / 5)
        rw [hD1, min_eq_left (le_of_lt hA), max_eq_right (le_of_lt hA)]
        push_cast
        ring
    rw [he] at h
    exact h
  · have h := grid_node_mem id [n0, 5] D ![n0, k]
      (by
        intro i
        fin_cases i
        · exact le_refl n0
        · exact hk) hpos
    have he : (fun i : Fin (0 + 2) => min 0 (D i) +
        ((![n0, k] : Fin (0 + 2) → Nat) i : ℚ) *
          ((max 0 (D i) - min 0 (D i)) / (([n0, 5] : List Nat).getD i 0 : ℚ))) =
        ![t, (k : ℚ) * (A / 5)] := by
      funext i
      fin_cases i
      · show min 0 (D 0) + (n0 : ℚ) * ((max 0 (D 0) - min 0 (D 0)) / (n0 : ℚ)) = t
        rw [hD0, min_eq_left ht, max_eq_right ht]
        field_simp
      · show min 0 (D 1) + (k : ℚ) * ((max 0 (D 1) - min 0 (D 1)) / ((5 : Nat) : ℚ)) =
          (k : ℚ) * (A / 5)
        rw [hD1, min_eq_left (le_of_lt hA), max_eq_right (le_of_lt hA)]
        push_cast
        ring
    rw [he] at h
    exact h

/-- The nodes of the collector grid of the default mesh in two dimensions on its two sides
across axis `0`, before the alignment. -/
theorem collector_side_nodes (id : Nat) (D : Point (0 + 2)) (t C : ℚ)
    (ht : 0 ≤ t) (hC : 0 < C) (hD0 : D 0 = t) (hD1 : D 1 = C) (j : Nat) (hj : j ≤ 6) :
    is_node (set_material_id id (subdivided_hyper_rectangle [1, 6] 0 D)) id
        ![0, (j : ℚ) * (C / ((6 : Nat) : ℚ))] ∧
      is_node (set_material_id id (subdivided_hyper_rectangle [1, 6] 0 D)) id
        ![t, (j : ℚ) * (C / ((6 : Nat) : ℚ))] := by
  have hpos : ∀ i : Fin (0 + 2), 0 < ([1, 6] : List Nat).getD i 0 := by
    intro i
    fin_cases i
    · show 0 < 1
      norm_num
    · show 0 < 6
      norm_num
  constructor
  · have h := grid_node_mem id [1, 6] D ![0, j]
      (by
        intro i
        fin_cases i
        · exact Nat.zero_le _
        · exact hj) hpos
    have he : (fun i : Fin (0 + 2) => min 0 (D i) +
        ((![0, j] : Fin (0 + 2) → Nat) i : ℚ) *
          ((max 0 (D i) - min 0 (D i)) / (([1, 6] : List Nat).getD i 0 : ℚ))) =
        ![0, (j : ℚ) * (C / ((6 : Nat) : ℚ))] := by
      funext i
      fin_cases i
      · show min 0 (D 0) + ((0 : Nat) : ℚ) * ((max 0 (D 0) - min 0 (D 0)) / ((1 : Nat) : ℚ)) = 0
        rw [hD0, min_eq_left ht]
        simp
      · show min 0 (D 1) + (j : ℚ) * ((max 0 (D 1) - min 0 (D 1)) / ((6 : Nat) : ℚ)) =
          (j : ℚ) * (C / ((6 : Nat) : ℚ))
        rw [hD1, min_eq_left (le_of_lt hC), max_eq_right (le_of_lt hC)]
        ring
    rw [he] at h
    exact h
  · have h := grid_node_mem id [1, 6] D ![1, j]
      (by
        intro i
        fin_cases i
        · exact le_refl 1
        · exact hj) hpos
    have he : (fun i : Fin (0 + 2) => min 0 (D i) +
        ((![1, j] : Fin (0 + 2) → Nat) i : ℚ) *
          ((max 0 (D i) - min 0 (D i)) / (([1, 6] : List Nat).getD i 0 : ℚ))) =
        ![t, (j : ℚ) * (C / ((6 : Nat) : ℚ))] := by
      funext i
      fin_cases i
      · show min 0 (D 0) + ((1 : Nat) : ℚ) * ((max 0 (D 0) - min 0 (D 0)) / ((1 : Nat) : ℚ)) = t
        rw [hD0, min_eq_left ht, max_eq_right ht]
        simp
      · show min 0 (D 1) + (j : ℚ) * ((max 0 (D 1) - min 0 (D 1)) / ((6 : Nat) : ℚ)) =
          (j : ℚ) * (C / ((6 : Nat) : ℚ))
        rw [hD1, min_eq_left (le_of_lt hC), max_eq_right (le_of_lt hC)]
        ring
    rw [he] at h
    exact h

/-- The default mesh in two dimensions has, on every plane between two layers and on both
sides of it, the nodes at the heights `k * A / 5`, `k ≤ 5`: at the start of the anode for
`collector_a` and the anode, at the start of the separator for the anode and the
separator, at the start of the cathode for the separator and the cathode, and at the start
of `collector_c` for the cathode and `collector_c`. -/
theorem supercapacitor_two_nodes (dimensions : ComponentDimensions) (A C : ℚ)
    (hA : 0 < A) (hAC : A < C) (hd : transform_eps ≤ C / 6)
    (ha : dimensions.anode.getD 1 0 = A) (hs : dimensions.separator.getD 1 0 = A)
    (hk : dimensions.cathode.getD 1 0 = A) (hc : dimensions.collector.getD 1 0 = C)
    (htc : 0 ≤ dimensions.collector.getD 0 0) (hta : 0 ≤ dimensions.anode.getD 0 0)
    (hts : 0 ≤ dimensions.separator.getD 0 0) (htk : 0 ≤ dimensions.cathode.getD 0 0)
    (k : Nat) (hk5 : k ≤ 5) :
    (is_node (merge_run (supercapacitor_components 0 dimensions) 4).triangulation 3
        ![layer_start (supercapacitor_components 0 dimensions) 0, (k : ℚ) * (A / 5)] ∧
      is_node (merge_run (supercapacitor_components 0 dimensions) 4).triangulation 0
        ![layer_start (supercapacitor_components 0 dimensions) 0, (k : ℚ) * (A / 5)]) ∧
    (is_node (merge_run (supercapacitor_components 0 dimensions) 4).triangulation 0
        ![layer_start (supercapacitor_components 0 dimensions) 1, (k : ℚ) * (A / 5)] ∧
      is_node (merge_run (supercapacitor_components 0 dimensions) 4).triangulation 1
        ![layer_start (supercapacitor_components 0 dimensions) 1, (k : ℚ) * (A / 5)]) ∧
    (is_node (merge_run (supercapacitor_components 0 dimensions) 4).triangulation 1
        ![layer_start (supercapacitor_components 0 dimensions) 2, (k : ℚ) * (A / 5)] ∧
      is_node (merge_run (supercapacitor_components 0 dimensions) 4).triangulation 2
        ![layer_start (supercapacitor_components 0 dimensions) 2, (k : ℚ) * (A / 5)]) ∧
    (is_node (merge_run (supercapacitor_components 0 dimensions) 4).triangulation 2
        ![layer_start (supercapacitor_components 0 dimensions) 3, (k : ℚ) * (A / 5)] ∧
      is_node (merge_run (supercapacitor_components 0 dimensions) 4).triangulation 4
        ![layer_start (supercapacitor_components 0 dimensions) 3, (k : ℚ) * (A / 5)]) := by
  have hC : 0 < C := lt_trans hA hAC
  have hd6 : transform_eps ≤ C / ((6 : Nat) : ℚ) := by
    push_cast
    exact hd
  obtain ⟨han, hse, hca, hcola, hcolc⟩ := supercapacitor_components_two dimensions
  obtain ⟨hX0, hX1, hX2, hX3⟩ := supercapacitor_layer_start 0 dimensions
  obtain ⟨hPa, hPs, hPc, hPk⟩ :
      (∀ o, placed (supercapacitor_components 0 dimensions).anode o = ![o, 0]) ∧
      (∀ o, placed (supercapacitor_components 0 dimensions).separator o = ![o, 0]) ∧
      (∀ o, placed (supercapacitor_components 0 dimensions).cathode o = ![o, 0]) ∧
      (∀ o, placed (supercapacitor_components 0 dimensions).collector_c o =
        ![o, -(C - A)]) := by
    refine ⟨fun o => (supercapacitor_placed_two dimensions o).1,
      fun o => (supercapacitor_placed_two dimensions o).2.1,
      fun o => (supercapacitor_placed_two dimensions o).2.2.1, fun o => ?_⟩
    rw [(supercapacitor_placed_two dimensions o).2.2.2, ha, hc]
  have hna := grid_side_nodes 0 10 (by norm_num) (fun i => dimensions.anode.getD i 0)
    (dimensions.anode.getD 0 0) A hta hA rfl ha k hk5
  have hns := grid_side_nodes 1 5 (by norm_num) (fun i => dimensions.separator.getD i 0)
    (dimensions.separator.getD 0 0) A hts hA rfl hs k hk5
  have hnk := grid_side_nodes 2 10 (by norm_num) (fun i => dimensions.cathode.getD i 0)
    (dimensions.cathode.getD 0 0) A htk hA rfl hk k hk5
  have hsum : ∀ x y t : ℚ, (![x + t, y] : Point (0 + 2)) = ![t, y] + ![x, 0] := by
    intro x y t
    funext i
    fin_cases i
    · show x + t = t + x
      ring
    · show y = y + 0
      ring
  have hsum0 : ∀ x y : ℚ, (![x, y] : Point (0 + 2)) = ![0, y] + ![x, 0] := by
    intro x y
    have h := hsum x y 0
    rw [add_zero] at h
    exact h
  rw [merge_run_four (supercapacitor_components 0 dimensions)
    (fun id => build_components_offset sample_ids _ id)
    (fun id i _ hi => build_components_shift sample_ids _ id i hi)]
  simp only [is_node_append, is_node_shift]
  rw [han, hse, hca, hcola, hcolc, hPa, hPs, hPc, hPk]
  refine ⟨⟨?_, ?_⟩, ⟨?_, ?_⟩, ⟨?_, ?_⟩, ⟨?_, ?_⟩⟩
  · refine Or.inl (Or.inl (Or.inl (Or.inl ?_)))
    rw [is_node_transform, ha, hc, hX0]
    have hg := (collector_side_nodes 3 (fun i => dimensions.collector.getD i 0)
      (dimensions.collector.getD 0 0) C htc hC rfl hc k (by omega)).2
    refine ⟨_, hg, ?_⟩
    rcases Nat.eq_zero_or_pos k with rfl | hk1
    · rw [(transform_coll_end _ C 0 _ (Or.inl (by simp [Fin.last]))).1]
      simp
    · rw [transform_coll_a_node A C 6 k _ (by norm_num) hC hd6 hk1 (by omega) rfl]
      funext i
      fin_cases i
      · rfl
      · show (k : ℚ) * (A / 5) = (k : ℚ) * A / (((6 : Nat) : ℚ) - 1)
        push_cast
        ring
  · exact Or.inl (Or.inl (Or.inl (Or.inr ⟨_, hna.1, hsum0 _ _⟩)))
  · refine Or.inl (Or.inl (Or.inl (Or.inr ⟨_, hna.2, ?_⟩)))
    rw [hX1]
    exact hsum _ _ _
  · exact Or.inl (Or.inl (Or.inr ⟨_, hns.1, hsum0 _ _⟩))
  · refine Or.inl (Or.inl (Or.inr ⟨_, hns.2, ?_⟩))
    rw [hX2]
    exact hsum _ _ _
  · exact Or.inl (Or.inr ⟨_, hnk.1, hsum0 _ _⟩)
  · refine Or.inl (Or.inr ⟨_, hnk.2, ?_⟩)
    rw [hX3]
    exact hsum _ _ _
  · refine Or.inr ?_
    have hg := (collector_side_nodes 4 (fun i => dimensions.collector.getD i 0)
      (dimensions.collector.getD 0 0) C htc hC rfl hc (k + 1) (by omega)).1
    refine ⟨_, (is_node_transform _ _ _ _).mpr ⟨_, hg, rfl⟩, ?_⟩
    rw [ha, hc]
    rcases Nat.lt_or_ge k 5 with hk4 | hk5'
    · rw [transform_coll_c_node A C 6 (k + 1) _ (by norm_num) hC hd6 (by omega) (by omega) rfl]
      funext i
      fin_cases i
      · show _ = (0 : ℚ) + _
        rw [zero_add]
        rfl
      · show (k : ℚ) * (A / 5) =
          C - A + (((k + 1 : Nat) : ℚ) - 1) * A / (((6 : Nat) : ℚ) - 1) + -(C - A)
        push_cast
        ring
    · have hk5e : k = 5 := by omega
      subst hk5e
      rw [(transform_coll_end (collector_scale_factor A C 6) C (collector_c_offset A C 6) _
        (Or.inr (by
          show ((5 + 1 : Nat) : ℚ) * (C / ((6 : Nat) : ℚ)) = C
          push_cast
          field_simp))).2]
      funext i
      fin_cases i
      · show _ = (0 : ℚ) + _
        rw [zero_add]
        rfl
      · show ((5 : Nat) : ℚ) * (A / 5) = ((5 + 1 : Nat) : ℚ) * (C / ((6 : Nat) : ℚ)) + -(C - A)
        push_cast
        field_simp

/-- The dimensions that `convert_geometry_database` writes give the electrodes and the
separator the same extent along axis `1`, and in three dimensions the collectors too. -/
theorem convert_geometry_database_transverse (d : Nat) (sqrt : ℚ → ℚ)
    (database : GeometryDatabase) (dimensions : ComponentDimensions)
    (h : convert_geometry_database d sqrt database = Except.ok dimensions) :
    dimensions.separator.getD 1 0 = dimensions.anode.getD 1 0 ∧
    dimensions.cathode.getD 1 0 = dimensions.anode.getD 1 0 ∧
    (d ≠ 0 → dimensions.collector.getD 1 0 = dimensions.anode.getD 1 0) := by
  rcases database with ⟨_ | c1, _ | c2, _ | c3, _ | c4, _ | c5, _ | c6, _ | c7⟩ <;>
    simp only [convert_geometry_database, get_double, bind, Except.bind, pure,
      Except.pure] at h <;>
    try contradiction
  split_ifs at h with h1 h2
  · rw [← Except.ok.inj h]
    refine ⟨rfl, rfl, fun hd => absurd (by omega) hd⟩
  · rw [← Except.ok.inj h]
    exact ⟨rfl, rfl, fun _ => rfl⟩

theorem to_string_value_exact (m : ℤ) (x : ℚ) (hx : x = (m : ℚ) / 10 ^ 6) :
    to_string_value x = x := by
  have hm : x * 10 ^ 6 = (m : ℚ) := by
    rw [hx]
    field_simp
  rw [to_string_value_of_floor x m (by rw [hm]; exact Int.floor_intCast m)
    (by rw [hm]; norm_num), hx]

/-- The conversion of `supercapacitor_geometry`, whose values are whole micrometres, in two
and in three dimensions; the area is the square of `0.005 m`. -/
theorem supercapacitor_geometry_converted :
    Geometry_supercapacitor 0 Rat.sqrt supercapacitor_geometry =
      Except.ok (supercapacitor_database 0 supercapacitor_dimensions_two) ∧
    Geometry_supercapacitor 1 Rat.sqrt supercapacitor_geometry =
      Except.ok (supercapacitor_database 1 supercapacitor_dimensions_three) := by
  have hsqrt : Rat.sqrt (25 / 100 * (1 / 10000)) = 1 / 200 := by
    have h : (25 / 100 * (1 / 10000) : ℚ) = 1 / 200 * (1 / 200) := by norm_num
    rw [h, Rat.sqrt_eq]
    norm_num [abs_of_pos]
  have h1 : to_string_value (5 / 10000 * (1 / 100)) = 1 / 200000 := by
    rw [to_string_value_exact 5 _ (by norm_num)]
    norm_num
  have h2 : to_string_value (50 / 10000 * (1 / 100)) = 1 / 20000 := by
    rw [to_string_value_exact 50 _ (by norm_num)]
    norm_num
  have h3 : to_string_value (25 / 10000 * (1 / 100)) = 1 / 40000 := by
    rw [to_string_value_exact 25 _ (by norm_num)]
    norm_num
  have h4 : to_string_value (25 / 100 * (1 / 10000)) = 1 / 40000 := by
    rw [to_string_value_exact 25 _ (by norm_num)]
    norm_num
  have h5 : to_string_value (25 / 100 * (1 / 10000) + 5 / 10000 * (1 / 100)) = 3 / 100000 := by
    rw [to_string_value_exact 30 _ (by norm_num)]
    norm_num
  have h6 : to_string_value (1 / 200) = 1 / 200 :=
    to_string_value_exact 5000 _ (by norm_num)
  have h7 : to_string_value (1 / 200 + 5 / 10000 * (1 / 100)) = 1001 / 200000 := by
    rw [to_string_value_exact 5005 _ (by norm_num)]
    norm_num
  constructor
  · unfold Geometry_supercapacitor supercapacitor_geometry
    rw [convert_geometry_database_two]
    simp only [h1, h2, h3, h4, h5]
    rfl
  · unfold Geometry_supercapacitor supercapacitor_geometry
    simp only [convert_geometry_database, geometry_database, get_double, bind, Except.bind,
      pure, Except.pure, hsqrt, h1, h2, h3, h6, h7]
    rw [if_neg (not_not.mpr rfl), if_neg (by decide)]
    rfl

/-- C1: both alignment transforms return the point unchanged when its last-axis
coordinate is within `1e-15` of `0` or within `1e-15` of `max_value`, for every
scale factor, maximum and offset. -/
theorem transform_endpoints_fixed {d : Nat} (p : Point (d + 2))
    (scale_factor max_value offset : ℚ)
    (h : |p (Fin.last (d + 1)) - 0| < transform_eps ∨
      |p (Fin.last (d + 1)) - max_value| < transform_eps) :
    transform_coll_a p scale_factor max_value = p ∧
      transform_coll_c p scale_factor max_value offset = p := by
  have hc : p (Fin.last (d + 1)) < transform_eps ∨
      p (Fin.last (d + 1)) > max_value - transform_eps := by
    rcases h with h | h
    · left
      have := (abs_lt.mp h).2
      linarith
    · right
      have := (abs_lt.mp h).1
      linarith
  exact ⟨by simp only [transform_coll_a, if_pos hc],
    by simp only [transform_coll_c, if_pos hc]⟩

/-- C1 at a point on the top face of a collector of thickness `1/50000`. -/
theorem transform_endpoints_fixed_witness :
    (|(![3, 1 / 50000] : Point 2) (Fin.last 1) - 0| < transform_eps ∨
      |(![3, 1 / 50000] : Point 2) (Fin.last 1) - 1 / 50000| < transform_eps) ∧
    (transform_coll_a (![3, 1 / 50000] : Point 2) 2 (1 / 50000) = ![3, 1 / 50000] ∧
      transform_coll_c (![3, 1 / 50000] : Point 2) 2 (1 / 50000) 5 = ![3, 1 / 50000]) :=
  ⟨Or.inr (by norm_num [transform_eps, Fin.last]),
    transform_endpoints_fixed (![3, 1 / 50000] : Point 2) 2 (1 / 50000) 5
      (Or.inr (by norm_num [transform_eps, Fin.last]))⟩

/-- C2: for an interior point (`1e-15 ≤ x ≤ max_value - 1e-15` on the last axis),
`transform_coll_a` replaces only the last-axis coordinate, by `x * scale_factor`, and
`transform_coll_c` replaces only the last-axis coordinate, by
`x * scale_factor + offset`; every other coordinate is unchanged. -/
theorem transform_interior_scaled {d : Nat} (p : Point (d + 2))
    (scale_factor max_value offset : ℚ)
    (hlo : transform_eps ≤ p (Fin.last (d + 1)))
    (hhi : p (Fin.last (d + 1)) ≤ max_value - transform_eps) :
    (transform_coll_a p scale_factor max_value (Fin.last (d + 1)) =
        p (Fin.last (d + 1)) * scale_factor ∧
      ∀ i, i ≠ Fin.last (d + 1) → transform_coll_a p scale_factor max_value i = p i) ∧
    (transform_coll_c p scale_factor max_value offset (Fin.last (d + 1)) =
        p (Fin.last (d + 1)) * scale_factor + offset ∧
      ∀ i, i ≠ Fin.last (d + 1) →
        transform_coll_c p scale_factor max_value offset i = p i) := by
  have hc : ¬ (p (Fin.last (d + 1)) < transform_eps ∨
      p (Fin.last (d + 1)) > max_value - transform_eps) := by
    rintro (h | h)
    · exact absurd hlo (not_le.mpr h)
    · exact absurd hhi (not_le.mpr h)
  simp only [transform_coll_a, transform_coll_c, if_neg hc, Function.update_same]
  exact ⟨⟨trivial, fun i hi => Function.update_noteq hi _ _⟩,
    ⟨trivial, fun i hi => Function.update_noteq hi _ _⟩⟩

/-- C2 at the interior node of height `1/100000` of a collector of thickness `1/50000`. -/
theorem transform_interior_scaled_witness :
    (transform_coll_a (![3, 1 / 100000] : Point 2) 2 (1 / 50000) (Fin.last 1) =
        (![3, 1 / 100000] : Point 2) (Fin.last 1) * 2 ∧
      ∀ i, i ≠ Fin.last 1 →
        transform_coll_a (![3, 1 / 100000] : Point 2) 2 (1 / 50000) i =
          (![3, 1 / 100000] : Point 2) i) ∧
    (transform_coll_c (![3, 1 / 100000] : Point 2) 2 (1 / 50000) 5 (Fin.last 1) =
        (![3, 1 / 100000] : Point 2) (Fin.last 1) * 2 + 5 ∧
      ∀ i, i ≠ Fin.last 1 →
        transform_coll_c (![3, 1 / 100000] : Point 2) 2 (1 / 50000) 5 i =
          (![3, 1 / 100000] : Point 2) i) :=
  transform_interior_scaled (![3, 1 / 100000] : Point 2) 2 (1 / 50000) 5
    (by norm_num [transform_eps, Fin.last]) (by norm_num [transform_eps, Fin.last])

/-- C3: for every `n_repetitions = N ≥ 0` the merge loop of `mesh_generator` returns after
exactly `4 * (N + 1)` merges; it starts from a global mesh that is a copy of the mesh of
`collector_a`, and merge `k` (counted from `0`) is the call of `merge_components` on the
component at slot `k mod 8` of the array `components`. -/
theorem merge_count_and_order {d : Nat} (cs : Components (d + 2)) (database : Database)
    (N fuel : Nat) (hN : database.n_repetitions = some (N : ℤ)) (hint : N < 2 ^ 31)
    (hfuel : N + 2 ≤ fuel) :
    ∃ s, stack_merge cs database fuel = some s ∧ s = merge_run cs (4 * (N + 1)) ∧
      s.calls.length = 4 * (N + 1) ∧
      (merge_run cs 0).triangulation = cs.collector_a.triangulation ∧
      ∀ k, k < 4 * (N + 1) → ∃ id, components[k % 8]? = some id ∧
        s.calls[k]? = some (id, (merge_run cs k).offset) ∧
        ((merge_run cs (k + 1)).comps.get id, (merge_run cs (k + 1)).triangulation) =
          merge_components ((merge_run cs k).comps.get id) (merge_run cs k).offset
            (merge_run cs k).triangulation := by
  refine ⟨_, stack_merge_eq cs database N fuel hN hint hfuel, rfl,
    merge_run_calls_length cs _, rfl, ?_⟩
  intro k hk
  exact ⟨components_at (k % 8), components_at_lt k, merge_run_calls_get cs _ k hk,
    merge_run_step cs k⟩

/-- C3 on the sample stack with `n_repetitions = 0`. -/
theorem merge_count_and_order_witness :
    (sample_database.n_repetitions = some ((0 : ℕ) : ℤ) ∧ 0 < 2 ^ 31 ∧ 0 + 2 ≤ 2) ∧
    ∃ s, stack_merge sample_components sample_database 2 = some s ∧
      s = merge_run sample_components (4 * (0 + 1)) ∧
      s.calls.length = 4 * (0 + 1) ∧
      (merge_run sample_components 0).triangulation =
        sample_components.collector_a.triangulation ∧
      ∀ k, k < 4 * (0 + 1) → ∃ id, components[k % 8]? = some id ∧
        s.calls[k]? = some (id, (merge_run sample_components k).offset) ∧
        ((merge_run sample_components (k + 1)).comps.get id,
            (merge_run sample_components (k + 1)).triangulation) =
          merge_components ((merge_run sample_components k).comps.get id)
            (merge_run sample_components k).offset
            (merge_run sample_components k).triangulation :=
  ⟨⟨rfl, by norm_num, by norm_num⟩,
    merge_count_and_order sample_components sample_database 0 2 rfl (by norm_num)
      (by norm_num)⟩

/-- C4, as the code has it: the running offset starts at the extent of the seed collector
along axis `0`; every merge adds exactly the extent `box_dimensions[1][0]` of the
component it merged, the one at slot `k mod 8`, so no component is skipped; the offset
grows strictly at a merge exactly when that extent is positive and does not decrease
exactly when it is not negative. -/
theorem offset_increment {d : Nat} (cs : Components (d + 2)) (database : Database)
    (N fuel : Nat) (hN : database.n_repetitions = some (N : ℤ)) (hint : N < 2 ^ 31)
    (hfuel : N + 2 ≤ fuel) :
    stack_merge cs database fuel = some (merge_run cs (4 * (N + 1))) ∧
    (merge_run cs 0).offset = cs.collector_a.extent ∧
    ∀ k, (merge_run cs (k + 1)).calls =
        (merge_run cs k).calls ++ [(components_at (k % 8), (merge_run cs k).offset)] ∧
      (merge_run cs (k + 1)).offset =
        (merge_run cs k).offset + (cs.get (components_at (k % 8))).extent ∧
      ((merge_run cs k).offset < (merge_run cs (k + 1)).offset ↔
        0 < (cs.get (components_at (k % 8))).extent) ∧
      ((merge_run cs k).offset ≤ (merge_run cs (k + 1)).offset ↔
        0 ≤ (cs.get (components_at (k % 8))).extent) := by
  refine ⟨stack_merge_eq cs database N fuel hN hint hfuel, rfl, ?_⟩
  intro k
  refine ⟨merge_run_calls cs k, merge_run_offset cs k, ?_, ?_⟩
  · rw [merge_run_offset]
    exact lt_add_iff_pos_right _
  · rw [merge_run_offset]
    exact le_add_iff_nonneg_right _

/-- C4, as the code has it, on the sample stack with `n_repetitions = 0`. -/
theorem offset_increment_witness :
    (sample_database.n_repetitions = some ((0 : ℕ) : ℤ) ∧ 0 < 2 ^ 31 ∧ 0 + 2 ≤ 2) ∧
    (stack_merge sample_components sample_database 2 =
      some (merge_run sample_components (4 * (0 + 1))) ∧
    (merge_run sample_components 0).offset = sample_components.collector_a.extent ∧
    ∀ k, (merge_run sample_components (k + 1)).calls =
        (merge_run sample_components k).calls ++
          [(components_at (k % 8), (merge_run sample_components k).offset)] ∧
      (merge_run sample_components (k + 1)).offset =
        (merge_run sample_components k).offset +
          (sample_components.get (components_at (k % 8))).extent ∧
      ((merge_run sample_components k).offset < (merge_run sample_components (k + 1)).offset ↔
        0 < (sample_components.get (components_at (k % 8))).extent) ∧
      ((merge_run sample_components k).offset ≤ (merge_run sample_components (k + 1)).offset ↔
        0 ≤ (sample_components.get (components_at (k % 8))).extent)) :=
  ⟨⟨rfl, by norm_num, by norm_num⟩,
    offset_increment sample_components sample_database 0 2 rfl (by norm_num) (by norm_num)⟩

/-- C4 as stated fails: with an anode of extent `0` along axis `0` the loop returns, and
the offset passed to the second merge equals the offset passed to the first one, so
merging the anode did not make the running offset strictly greater. -/
theorem offset_not_strict :
    ∃ s o0 o1, stack_merge flat_anode_components flat_anode_database 2 = some s ∧
      s.calls[0]? = some (ComponentId.anode, o0) ∧
      s.calls[1]? = some (ComponentId.separator, o1) ∧ ¬ o0 < o1 := by
  refine ⟨_, _, _,
    stack_merge_eq flat_anode_components flat_anode_database 0 2 rfl (by norm_num)
      (by norm_num),
    merge_run_calls_get _ 4 0 (by norm_num), merge_run_calls_get _ 4 1 (by norm_num), ?_⟩
  rw [merge_run_offset]
  simp [components_at, components, Components.get, Component.extent, build_components,
    read_component_database, Component.new, flat_anode_database, sample_database,
    flat_anode_components]

/-- C5: on the components that `mesh_generator` builds, for every `N` the loop returns,
and the cells that merge `k` adds to the global mesh are the cells of the component at
slot `k mod 8` as built, translated along axis `0` by exactly the extent of the seed
collector plus the extents of the components merged at steps `0 .. k - 1`; the next layer
starts where this one ends. At every step the total translation of every component along
axis `0` equals its `offset` field, also for a component that is merged again; the first
corner of the box of every component is the origin, so that corner lands at that offset. -/
theorem layers_contiguous {d : Nat} (ids : MaterialIds) (database : Database)
    (N fuel : Nat) (hN : database.n_repetitions = some (N : ℤ)) (hint : N < 2 ^ 31)
    (hfuel : N + 2 ≤ fuel) :
    stack_merge (build_components ids database : Components (d + 2)) database fuel =
      some (merge_run (build_components ids database) (4 * (N + 1))) ∧
    ∀ k,
      (merge_run (build_components ids database : Components (d + 2)) (k + 1)).triangulation =
        (merge_run (build_components ids database) k).triangulation ++
          GridTools_shift
            (placed ((build_components ids database).get (components_at (k % 8)))
              (layer_start (build_components ids database : Components (d + 2)) k))
            ((build_components ids database).get (components_at (k % 8))).triangulation ∧
      placed ((build_components ids database : Components (d + 2)).get (components_at (k % 8)))
          (layer_start (build_components ids database : Components (d + 2)) k) 0 =
        (build_components ids database : Components (d + 2)).collector_a.extent +
          ∑ j in Finset.range k,
            ((build_components ids database : Components (d + 2)).get
              (components_at (j % 8))).extent ∧
      layer_start (build_components ids database : Components (d + 2)) (k + 1) =
        layer_start (build_components ids database : Components (d + 2)) k +
          ((build_components ids database : Components (d + 2)).get
            (components_at (k % 8))).extent ∧
      ∀ id, ((build_components ids database : Components (d + 2)).get id).box_dimensions[0]? =
          some 0 ∧
        ∃ T : Point (d + 2),
          ((merge_run (build_components ids database : Components (d + 2)) k).comps.get
              id).triangulation =
            GridTools_shift T ((build_components ids database).get id).triangulation ∧
          T 0 = ((merge_run (build_components ids database : Components (d + 2)) k).comps.get
            id).offset := by
  have h0 := build_components_offset (d := d) ids database
  have hmid : ∀ id (i : Fin (d + 2)), i ≠ 0 → i ≠ Fin.last (d + 1) →
      ((build_components ids database : Components (d + 2)).get id).shift_vector i = 0 :=
    fun id i _ hl => build_components_shift ids database id i hl
  refine ⟨stack_merge_eq _ database N fuel hN hint hfuel, ?_⟩
  intro k
  refine ⟨merge_run_append_placed _ h0 hmid k, ?_, ?_,
    fun id => ⟨build_components_origin ids database id, merge_run_translation _ h0 hmid k id⟩⟩
  · simp [placed, layer_start]
  · simp [layer_start, Finset.sum_range_succ, add_assoc]

/-- C5 on the sample stack with `n_repetitions = 0`, in two dimensions. -/
theorem layers_contiguous_witness :
    (sample_database.n_repetitions = some ((0 : ℕ) : ℤ) ∧ 0 < 2 ^ 31 ∧ 0 + 2 ≤ 2) ∧
    (stack_merge (build_components sample_ids sample_database : Components (0 + 2))
        sample_database 2 =
      some (merge_run (build_components sample_ids sample_database) (4 * (0 + 1))) ∧
    ∀ k,
      (merge_run (build_components sample_ids sample_database : Components (0 + 2))
          (k + 1)).triangulation =
        (merge_run (build_components sample_ids sample_database) k).triangulation ++
          GridTools_shift
            (placed ((build_components sample_ids sample_database).get (components_at (k % 8)))
              (layer_start (build_components sample_ids sample_database : Components (0 + 2))
                k))
            ((build_components sample_ids sample_database).get
              (components_at (k % 8))).triangulation ∧
      placed ((build_components sample_ids sample_database : Components (0 + 2)).get
            (components_at (k % 8)))
          (layer_start (build_components sample_ids sample_database : Components (0 + 2)) k)
          0 =
        (build_components sample_ids sample_database : Components (0 + 2)).collector_a.extent +
          ∑ j in Finset.range k,
            ((build_components sample_ids sample_database : Components (0 + 2)).get
              (components_at (j % 8))).extent ∧
      layer_start (build_components sample_ids sample_database : Components (0 + 2)) (k + 1) =
        layer_start (build_components sample_ids sample_database : Components (0 + 2)) k +
          ((build_components sample_ids sample_database : Components (0 + 2)).get
            (components_at (k % 8))).extent ∧
      ∀ id,
        ((build_components sample_ids sample_database : Components (0 + 2)).get
          id).box_dimensions[0]? = some 0 ∧
        ∃ T : Point (0 + 2),
          ((merge_run (build_components sample_ids sample_database : Components (0 + 2))
              k).comps.get id).triangulation =
            GridTools_shift T
              ((build_components sample_ids sample_database).get id).triangulation ∧
          T 0 = ((merge_run (build_components sample_ids sample_database : Components (0 + 2))
            k).comps.get id).offset) :=
  ⟨⟨rfl, by norm_num, by norm_num⟩,
    layers_contiguous sample_ids sample_database 0 2 rfl (by norm_num) (by norm_num)⟩

/-- C6: for every `N ≥ 0` the loop returns a global mesh whose cells carry, in order, the
material ids of the cells of the seed collector followed by those of the component merged
at each of the `4 * (N + 1)` steps, so every cell keeps the material id of the component
it came from and the cell count is the seed's count plus the sum of the merged counts. -/
theorem merge_cell_count {d : Nat} (cs : Components (d + 2)) (database : Database)
    (N fuel : Nat) (hN : database.n_repetitions = some (N : ℤ)) (hint : N < 2 ^ 31)
    (hfuel : N + 2 ≤ fuel) :
    ∃ s, stack_merge cs database fuel = some s ∧
      s.triangulation.length =
        cs.collector_a.triangulation.length +
          ∑ k in Finset.range (4 * (N + 1)),
            (cs.get (components_at (k % 8))).triangulation.length ∧
      s.triangulation.map Cell.material_id =
        cs.collector_a.triangulation.map Cell.material_id ++
          (List.range (4 * (N + 1))).flatMap fun k =>
            (cs.get (components_at (k % 8))).triangulation.map Cell.material_id := by
  refine ⟨_, stack_merge_eq cs database N fuel hN hint hfuel, ?_,
    merge_run_material_all cs _⟩
  have h := congrArg List.length (merge_run_material_all cs (4 * (N + 1)))
  rw [List.length_map, List.length_append, List.length_map] at h
  rw [h]
  congr 1
  generalize 4 * (N + 1) = m
  induction m with
  | zero => rfl
  | succ m ih =>
    rw [List.range_succ, List.flatMap_append, List.length_append, ih,
      Finset.sum_range_succ, List.flatMap_singleton, List.length_map]

/-- C6 on the sample stack with `n_repetitions = 0`. -/
theorem merge_cell_count_witness :
    (sample_database.n_repetitions = some ((0 : ℕ) : ℤ) ∧ 0 < 2 ^ 31 ∧ 0 + 2 ≤ 2) ∧
    ∃ s, stack_merge sample_components sample_database 2 = some s ∧
      s.triangulation.length =
        sample_components.collector_a.triangulation.length +
          ∑ k in Finset.range (4 * (0 + 1)),
            (sample_components.get (components_at (k % 8))).triangulation.length ∧
      s.triangulation.map Cell.material_id =
        sample_components.collector_a.triangulation.map Cell.material_id ++
          (List.range (4 * (0 + 1))).flatMap fun k =>
            (sample_components.get (components_at (k % 8))).triangulation.map
              Cell.material_id :=
  ⟨⟨rfl, by norm_num, by norm_num⟩,
    merge_cell_count sample_components sample_database 0 2 rfl (by norm_num) (by norm_num)⟩

/-- C7 as stated fails. In the one-cycle sample stack `collector_c` is merged exactly once,
by the last of the four merges, and was built with a nonzero vertical shift, yet its
last-axis `shift_vector` component is zero right after that first merge. Read for axis `0`
instead, the claim fails as well: in the two-cycle stack the anode is merged a second
time, and its axis-0 `shift_vector` component is not zero afterwards. -/
theorem shift_vector_after_merge_counterexample :
    (∃ s, stack_merge sample_components sample_database 2 = some s ∧
      s.calls.map Prod.fst =
        [ComponentId.anode, ComponentId.separator, ComponentId.cathode,
          ComponentId.collector_c] ∧
      sample_components.collector_c.shift_vector (Fin.last 1) ≠ 0 ∧
      ¬ s.comps.collector_c.shift_vector (Fin.last 1) ≠ 0) ∧
    (∃ s, stack_merge two_cycle_components two_cycle_database 3 = some s ∧
      s.calls.map Prod.fst =
        [ComponentId.anode, ComponentId.separator, ComponentId.cathode,
          ComponentId.collector_c, ComponentId.cathode, ComponentId.separator,
          ComponentId.anode, ComponentId.collector_a] ∧
      ¬ s.comps.anode.shift_vector 0 = 0) := by
  constructor
  · refine ⟨_, stack_merge_eq sample_components sample_database 0 2 rfl (by norm_num)
      (by norm_num), ?_, ?_, ?_⟩
    · show ((merge_run sample_components (3 + 1)).calls.map Prod.fst) = _
      rw [merge_run_calls, merge_run_calls, merge_run_calls, merge_run_calls]
      simp [merge_run, merge_init, components_at, components]
    · simp [sample_components, build_components, read_component_database, Component.new,
        Component.of_box, sample_database, Fin.last]
      norm_num
    · exact not_not.mpr (merge_run_merged_last sample_components 3)
  · refine ⟨_, stack_merge_eq two_cycle_components two_cycle_database 1 3 rfl (by norm_num)
      (by norm_num), ?_, ?_⟩
    · show ((merge_run two_cycle_components (7 + 1)).calls.map Prod.fst) = _
      rw [merge_run_calls, merge_run_calls, merge_run_calls, merge_run_calls,
        merge_run_calls, merge_run_calls, merge_run_calls, merge_run_calls]
      simp [merge_run, merge_init, components_at, components]
    · have h8 : (merge_run two_cycle_components (7 + 1)).comps.get ComponentId.anode =
          (merge_run two_cycle_components 7).comps.get ComponentId.anode :=
        merge_run_other _ 7 _ (by decide)
      have h7 := merge_run_merged_first two_cycle_components 6
      have h6 : (merge_run two_cycle_components (5 + 1)).comps.get ComponentId.anode =
          (merge_run two_cycle_components 5).comps.get ComponentId.anode :=
        merge_run_other _ 5 _ (by decide)
      have h5 : (merge_run two_cycle_components (4 + 1)).comps.get ComponentId.anode =
          (merge_run two_cycle_components 4).comps.get ComponentId.anode :=
        merge_run_other _ 4 _ (by decide)
      have h4 : (merge_run two_cycle_components (3 + 1)).comps.get ComponentId.anode =
          (merge_run two_cycle_components 3).comps.get ComponentId.anode :=
        merge_run_other _ 3 _ (by decide)
      have h3 : (merge_run two_cycle_components (2 + 1)).comps.get ComponentId.anode =
          (merge_run two_cycle_components 2).comps.get ComponentId.anode :=
        merge_run_other _ 2 _ (by decide)
      have h2 : (merge_run two_cycle_components (1 + 1)).comps.get ComponentId.anode =
          (merge_run two_cycle_components 1).comps.get ComponentId.anode :=
        merge_run_other _ 1 _ (by decide)
      have h1 := merge_run_merged_offset two_cycle_components 0
      have hq : (merge_run two_cycle_components (4 * (1 + 1))).comps.anode.shift_vector 0 =
          (merge_run two_cycle_components 6).offset -
            (merge_run two_cycle_components 0).offset := by
        show ((merge_run two_cycle_components (7 + 1)).comps.get
          ComponentId.anode).shift_vector 0 = _
        rw [h8]
        show ((merge_run two_cycle_components (6 + 1)).comps.get
          (components_at (6 % 8))).shift_vector 0 = _
        rw [h7]
        show _ - ((merge_run two_cycle_components (5 + 1)).comps.get ComponentId.anode).offset
          = _
        rw [h6, h5, h4, h3, h2]
        show _ - ((merge_run two_cycle_components (0 + 1)).comps.get
          (components_at (0 % 8))).offset = _
        rw [h1]
      rw [hq, merge_run_offset_sum, merge_run_offset_sum]
      simp [Finset.sum_range_succ, components_at, components, Components.get,
        Component.extent, two_cycle_components, build_components, read_component_database,
        Component.new, Component.of_box, two_cycle_database, sample_database]
      norm_num

/-- C7, as the code has it: after every call of `merge_components`, the first one for a
component included, the last-axis `shift_vector` component of the merged component is
exactly zero; the value it had before the call was applied to the mesh by that call,
together with the axis-0 translation `offset - component.offset`, which is the axis-0
`shift_vector` component after the call. -/
theorem shift_vector_after_merge {d : Nat} (c : Component (d + 2)) (offset : ℚ)
    (t : Triangulation (d + 2)) :
    (merge_components c offset t).1.shift_vector (Fin.last (d + 1)) = 0 ∧
    (merge_components c offset t).1.shift_vector 0 = offset - c.offset ∧
    (merge_components c offset t).1.triangulation =
      GridTools_shift (Function.update c.shift_vector 0 (offset - c.offset)) c.triangulation ∧
    (merge_components c offset t).2 =
      merge_triangulations t (merge_components c offset t).1.triangulation :=
  ⟨merge_components_last c offset t, merge_components_first c offset t, rfl, rfl⟩

/-- C8 as stated fails: with the default catalog and an anode weight equal to the sentinel
`4294967295`, the cell of material id `0` is in the anode set and still gets the
sentinel, so the sentinel is not returned exactly when the id is in none of the four
sets. -/
theorem weight_sentinel_conflated :
    ¬ ((compute_cell_weight default_materials 0 sentinel_weights).1 = invalid_unsigned_int ↔
      (0 ∉ default_materials.tags "anode" ∧ 0 ∉ default_materials.tags "cathode" ∧
        0 ∉ default_materials.tags "separator" ∧ 0 ∉ default_materials.tags "collector")) := by
  intro h
  have h1 : (compute_cell_weight default_materials 0 sentinel_weights).1 =
      invalid_unsigned_int := by
    rw [compute_cell_weight_eq, default_materials_tags.1]
    rfl
  have h2 := (h.mp h1).1
  rw [default_materials_tags.1] at h2
  exact h2 (Finset.mem_singleton_self 0)

/-- C8, as the code has it: for every catalog, weight configuration and material id `m`,
`compute_cell_weight` returns the weight of the first class, in the order anode, cathode,
separator, collector, whose tag set contains `m`, and the sentinel
`invalid_unsigned_int` when `m` is in none of the four sets; when no configured weight
equals the sentinel, the sentinel is returned exactly when `m` is in none of the four
sets. With the default catalog this is `a` for id `0`, `c` for id `2`, `s` for id `1`,
`k` for ids `3` and `4`, and the sentinel for every other id. -/
theorem compute_cell_weight_lookup (materials : TagMap) (weights : WEIGHT_TYPE → Nat)
    (m : Nat) :
    ((compute_cell_weight materials m weights).1 =
      if m ∈ materials.tags "anode" then weights WEIGHT_TYPE.anode
      else if m ∈ materials.tags "cathode" then weights WEIGHT_TYPE.cathode
      else if m ∈ materials.tags "separator" then weights WEIGHT_TYPE.separator
      else if m ∈ materials.tags "collector" then weights WEIGHT_TYPE.collector
      else invalid_unsigned_int) ∧
    ((m ∉ materials.tags "anode" ∧ m ∉ materials.tags "cathode" ∧
        m ∉ materials.tags "separator" ∧ m ∉ materials.tags "collector") →
      (compute_cell_weight materials m weights).1 = invalid_unsigned_int) ∧
    ((∀ t, weights t ≠ invalid_unsigned_int) →
      ((compute_cell_weight materials m weights).1 = invalid_unsigned_int ↔
        (m ∉ materials.tags "anode" ∧ m ∉ materials.tags "cathode" ∧
          m ∉ materials.tags "separator" ∧ m ∉ materials.tags "collector"))) ∧
    ((compute_cell_weight default_materials 0 weights).1 = weights WEIGHT_TYPE.anode ∧
      (compute_cell_weight default_materials 2 weights).1 = weights WEIGHT_TYPE.cathode ∧
      (compute_cell_weight default_materials 1 weights).1 = weights WEIGHT_TYPE.separator ∧
      (compute_cell_weight default_materials 3 weights).1 = weights WEIGHT_TYPE.collector ∧
      (compute_cell_weight default_materials 4 weights).1 = weights WEIGHT_TYPE.collector ∧
      (5 ≤ m → (compute_cell_weight default_materials m weights).1 = invalid_unsigned_int)) := by
  refine ⟨compute_cell_weight_eq materials m weights, ?_, ?_, ?_⟩
  · rintro ⟨ha, hc, hs, hk⟩
    rw [compute_cell_weight_eq, if_neg ha, if_neg hc, if_neg hs, if_neg hk]
  · intro hw
    rw [compute_cell_weight_eq]
    constructor
    · intro h
      split_ifs at h with ha hc hs hk
      · exact absurd h (hw _)
      · exact absurd h (hw _)
      · exact absurd h (hw _)
      · exact absurd h (hw _)
      · exact ⟨ha, hc, hs, hk⟩
    · rintro ⟨ha, hc, hs, hk⟩
      rw [if_neg ha, if_neg hc, if_neg hs, if_neg hk]
  · obtain ⟨ta, tc, ts, tk, -, -⟩ := default_materials_tags
    simp only [compute_cell_weight_eq, ta, tc, ts, tk]
    refine ⟨by simp, by simp, by simp, by simp, by simp, ?_⟩
    intro h5
    have e0 : m ≠ 0 := by omega
    have e1 : m ≠ 1 := by omega
    have e2 : m ≠ 2 := by omega
    have e3 : m ≠ 3 := by omega
    have e4 : m ≠ 4 := by omega
    simp [e0, e1, e2, e3, e4]

/-- C8, as the code has it, on the default catalog with the weights `5, 4, 2, 1` and the
unregistered material id `9`. -/
theorem compute_cell_weight_lookup_witness :
    ((9 ∉ default_materials.tags "anode" ∧ 9 ∉ default_materials.tags "cathode" ∧
        9 ∉ default_materials.tags "separator" ∧ 9 ∉ default_materials.tags "collector") ∧
      (∀ t, sample_weights t ≠ invalid_unsigned_int) ∧ 5 ≤ 9) ∧
    (compute_cell_weight default_materials 9 sample_weights).1 = invalid_unsigned_int ∧
    ((compute_cell_weight default_materials 9 sample_weights).1 = invalid_unsigned_int ↔
      (9 ∉ default_materials.tags "anode" ∧ 9 ∉ default_materials.tags "cathode" ∧
        9 ∉ default_materials.tags "separator" ∧ 9 ∉ default_materials.tags "collector")) ∧
    (compute_cell_weight default_materials 0 sample_weights).1 = 5 := by
  have hn : 9 ∉ default_materials.tags "anode" ∧ 9 ∉ default_materials.tags "cathode" ∧
      9 ∉ default_materials.tags "separator" ∧ 9 ∉ default_materials.tags "collector" := by
    obtain ⟨ta, tc, ts, tk, -, -⟩ := default_materials_tags
    rw [ta, tc, ts, tk]
    decide
  have hw : ∀ t, sample_weights t ≠ invalid_unsigned_int := by
    intro t
    cases t <;> decide
  have h := compute_cell_weight_lookup default_materials sample_weights 9
  exact ⟨⟨hn, hw, by norm_num⟩, h.2.1 hn, h.2.2.1 hw, h.2.2.2.1⟩

/-- C9: for each terminal class the reduced flag of `set_boundary_ids` is `1` if and only if,
on at least one rank, some at-boundary cell of the class has a face whose centre's
last-axis coordinate differs from the expected terminal coordinate (`collector_top` for
`collector_anode`, `collector_bottom` for `collector_cathode`) by less than `1e-6` times
the measure of the cell; when no such face exists the flag is `0` and the pass fails. -/
theorem terminal_flag_iff {d : Nat} (materials boundaries : TagMap)
    (ranks : List (TriaView (d + 2))) (collector_top collector_bottom : ℚ)
    (anode_boundary_id cathode_boundary_id : Nat) :
    ((MPI_max ((ranks.map (tag_terminal (materials.tags "collector_anode") false collector_top
          anode_boundary_id)).map Prod.snd) = 1 ↔
        has_terminal_face (materials.tags "collector_anode") collector_top ranks) ∧
      (¬ has_terminal_face (materials.tags "collector_anode") collector_top ranks →
        MPI_max ((ranks.map (tag_terminal (materials.tags "collector_anode") false
          collector_top anode_boundary_id)).map Prod.snd) = 0 ∧
        ∃ e, set_boundary_ids materials boundaries ranks collector_top collector_bottom =
          Except.error e)) ∧
    ((MPI_max ((((ranks.map (tag_terminal (materials.tags "collector_anode") false
          collector_top anode_boundary_id)).map Prod.fst).map
            (tag_terminal (materials.tags "collector_cathode") false collector_bottom
              cathode_boundary_id)).map Prod.snd) = 1 ↔
        has_terminal_face (materials.tags "collector_cathode") collector_bottom ranks) ∧
      (¬ has_terminal_face (materials.tags "collector_cathode") collector_bottom ranks →
        MPI_max ((((ranks.map (tag_terminal (materials.tags "collector_anode") false
          collector_top anode_boundary_id)).map Prod.fst).map
            (tag_terminal (materials.tags "collector_cathode") false collector_bottom
              cathode_boundary_id)).map Prod.snd) = 0 ∧
        ∃ e, set_boundary_ids materials boundaries ranks collector_top collector_bottom =
          Except.error e)) ∧
    (set_boundary_ids materials boundaries ranks collector_top collector_bottom =
        Except.error BoundaryFailure.anode_not_set ↔
      (boundaries.tags "anode").card = 1 ∧
        ¬ has_terminal_face (materials.tags "collector_anode") collector_top ranks) ∧
    (set_boundary_ids materials boundaries ranks collector_top collector_bottom =
        Except.error BoundaryFailure.cathode_not_set ↔
      (boundaries.tags "anode").card = 1 ∧
        has_terminal_face (materials.tags "collector_anode") collector_top ranks ∧
        (boundaries.tags "cathode").card = 1 ∧
        ¬ has_terminal_face (materials.tags "collector_cathode") collector_bottom ranks) := by
  have hA := reduced_flag_iff (materials.tags "collector_anode") collector_top
    anode_boundary_id ranks
  have hC := reduced_flag_iff (materials.tags "collector_cathode") collector_bottom
    cathode_boundary_id
    ((ranks.map (tag_terminal (materials.tags "collector_anode") false collector_top
      anode_boundary_id)).map Prod.fst)
  rw [has_terminal_face_tagged] at hC
  have cases5 := set_boundary_ids_cases materials boundaries ranks collector_top collector_bottom
  refine ⟨⟨hA.1, fun hn => ⟨?_, ?_⟩⟩, ⟨hC.1, fun hn => ⟨?_, ?_⟩⟩, ?_, ?_⟩
  · rcases hA.2 with h | h
    · exact h
    · exact absurd (hA.1.mp h) hn
  · apply cases5 (fun r => ∃ e, r = Except.error e)
    · exact fun _ => ⟨_, rfl⟩
    · exact fun _ _ => ⟨_, rfl⟩
    · exact fun _ _ _ => ⟨_, rfl⟩
    · exact fun _ _ _ _ => ⟨_, rfl⟩
    · exact fun _ _ _ hf _ _ => absurd hf hn
  · rcases hC.2 with h | h
    · exact h
    · exact absurd (hC.1.mp h) hn
  · apply cases5 (fun r => ∃ e, r = Except.error e)
    · exact fun _ => ⟨_, rfl⟩
    · exact fun _ _ => ⟨_, rfl⟩
    · exact fun _ _ _ => ⟨_, rfl⟩
    · exact fun _ _ _ _ => ⟨_, rfl⟩
    · exact fun _ _ _ _ _ hf => absurd hf hn
  · apply cases5 (fun r => r = Except.error BoundaryFailure.anode_not_set ↔
      (boundaries.tags "anode").card = 1 ∧
        ¬ has_terminal_face (materials.tags "collector_anode") collector_top ranks)
    · intro h1
      simp [h1]
    · intro h1 h2
      simp [h1, h2]
    · intro h1 h2 _
      simp [h1, h2]
    · intro h1 h2 _ _
      simp [h1, h2]
    · intro a c h1 h2 _ _
      simp [h1, h2]
  · apply cases5 (fun r => r = Except.error BoundaryFailure.cathode_not_set ↔
      (boundaries.tags "anode").card = 1 ∧
        has_terminal_face (materials.tags "collector_anode") collector_top ranks ∧
        (boundaries.tags "cathode").card = 1 ∧
        ¬ has_terminal_face (materials.tags "collector_cathode") collector_bottom ranks)
    · intro h1
      simp [h1]
    · intro h1 h2
      simp [h1, h2]
    · intro h1 h2 h3
      simp [h1, h2, h3]
    · intro h1 h2 h3 h4
      simp [h1, h2, h3, h4]
    · intro a c h1 h2 h3 h4
      simp [h1, h2, h3, h4]

/-- C9 on a malformed geometry: one rank with the two terminal cells of the sample stack,
and terminal coordinates `2` and `-1` where the faces lie at `3/2` and `-1/2`. -/
theorem terminal_flag_iff_witness :
    (¬ has_terminal_face (default_materials.tags "collector_anode") 2 [sample_tria] ∧
      ¬ has_terminal_face (default_materials.tags "collector_cathode") (-1) [sample_tria]) ∧
    (MPI_max (([sample_tria].map (tag_terminal (default_materials.tags "collector_anode")
          false 2 1)).map Prod.snd) = 0 ∧
      ∃ e, set_boundary_ids default_materials default_boundaries [sample_tria] 2 (-1) =
        Except.error e) ∧
    (MPI_max (((([sample_tria].map (tag_terminal (default_materials.tags "collector_anode")
          false 2 1)).map Prod.fst).map
            (tag_terminal (default_materials.tags "collector_cathode") false (-1) 2)).map
              Prod.snd) = 0 ∧
      ∃ e, set_boundary_ids default_materials default_boundaries [sample_tria] 2 (-1) =
        Except.error e) := by
  have ha : ¬ has_terminal_face (default_materials.tags "collector_anode") 2
      [sample_tria] := by
    rw [default_materials_tags.2.2.2.2.1]
    simp [has_terminal_face, sample_tria, boundary_eps, Fin.last]
    norm_num [le_abs]
  have hc : ¬ has_terminal_face (default_materials.tags "collector_cathode") (-1)
      [sample_tria] := by
    rw [default_materials_tags.2.2.2.2.2]
    simp [has_terminal_face, sample_tria, boundary_eps, Fin.last]
    norm_num [le_abs]
  have h := terminal_flag_iff default_materials default_boundaries [sample_tria] 2 (-1) 1 2
  exact ⟨⟨ha, hc⟩, h.1.2 ha, h.2.1.2 hc⟩

/-- C10: `set_boundary_ids` fails whenever the tag set of the boundary name `anode` or of
the boundary name `cathode` does not have exactly one element, be it empty, missing or
with several elements; when it returns, both sets are singletons `{a}` and `{c}`, and on
every rank the faces tagged for `collector_cathode` carry `c`, the other faces tagged for
`collector_anode` carry `a`, and no other face, cell or face centre has changed. -/
theorem boundary_tag_single {d : Nat} (materials boundaries : TagMap)
    (ranks : List (TriaView (d + 2))) (collector_top collector_bottom : ℚ) :
    (((boundaries.tags "anode").card ≠ 1 ∨ (boundaries.tags "cathode").card ≠ 1) →
      ∃ e, set_boundary_ids materials boundaries ranks collector_top collector_bottom =
        Except.error e) ∧
    ((boundaries.lookup "anode" = none ∨ boundaries.lookup "cathode" = none) →
      ∃ e, set_boundary_ids materials boundaries ranks collector_top collector_bottom =
        Except.error e) ∧
    ((boundaries.tags "anode").card ≠ 1 →
      set_boundary_ids materials boundaries ranks collector_top collector_bottom =
        Except.error (BoundaryFailure.boundary_id_size "anode")) ∧
    (∀ r, set_boundary_ids materials boundaries ranks collector_top collector_bottom =
        Except.ok r →
      ∃ a c, boundaries.tags "anode" = {a} ∧ boundaries.tags "cathode" = {c} ∧
        List.Forall₂
          (fun tria tria2 =>
            tria2.cells = tria.cells ∧ tria2.face_center = tria.face_center ∧
            ∀ g,
              (is_terminal_face (materials.tags "collector_cathode") collector_bottom tria g →
                tria2.boundary_id g = c) ∧
              (¬ is_terminal_face (materials.tags "collector_cathode") collector_bottom tria g →
                is_terminal_face (materials.tags "collector_anode") collector_top tria g →
                tria2.boundary_id g = a) ∧
              (¬ is_terminal_face (materials.tags "collector_cathode") collector_bottom tria g →
                ¬ is_terminal_face (materials.tags "collector_anode") collector_top tria g →
                tria2.boundary_id g = tria.boundary_id g))
          ranks r.1) := by
  have hfail : ((boundaries.tags "anode").card ≠ 1 ∨ (boundaries.tags "cathode").card ≠ 1) →
      ∃ e, set_boundary_ids materials boundaries ranks collector_top collector_bottom =
        Except.error e := by
    intro hbad
    apply set_boundary_ids_cases materials boundaries ranks collector_top collector_bottom
      (fun r => ∃ e, r = Except.error e)
    · exact fun _ => ⟨_, rfl⟩
    · exact fun _ _ => ⟨_, rfl⟩
    · exact fun _ _ _ => ⟨_, rfl⟩
    · exact fun _ _ _ _ => ⟨_, rfl⟩
    · intro a c ha _ hc _
      rcases hbad with h | h
      · exact absurd (by rw [ha]; rfl) h
      · exact absurd (by rw [hc]; rfl) h
  refine ⟨hfail, ?_, set_boundary_ids_anode_size materials boundaries ranks _ _, ?_⟩
  · intro hmiss
    apply hfail
    rcases hmiss with h | h
    · left
      simp [TagMap.tags, h]
    · right
      simp [TagMap.tags, h]
  · apply set_boundary_ids_cases materials boundaries ranks collector_top collector_bottom
      (fun res => ∀ r, res = Except.ok r →
        ∃ a c, boundaries.tags "anode" = {a} ∧ boundaries.tags "cathode" = {c} ∧
          List.Forall₂
            (fun tria tria2 =>
              tria2.cells = tria.cells ∧ tria2.face_center = tria.face_center ∧
              ∀ g,
                (is_terminal_face (materials.tags "collector_cathode") collector_bottom tria
                    g → tria2.boundary_id g = c) ∧
                (¬ is_terminal_face (materials.tags "collector_cathode") collector_bottom
                    tria g →
                  is_terminal_face (materials.tags "collector_anode") collector_top tria g →
                  tria2.boundary_id g = a) ∧
                (¬ is_terminal_face (materials.tags "collector_cathode") collector_bottom
                    tria g →
                  ¬ is_terminal_face (materials.tags "collector_anode") collector_top tria
                    g →
                  tria2.boundary_id g = tria.boundary_id g))
            ranks r.1)
    · intro _ r h
      exact absurd h (by simp)
    · intro _ _ r h
      exact absurd h (by simp)
    · intro _ _ _ r h
      exact absurd h (by simp)
    · intro _ _ _ _ r h
      exact absurd h (by simp)
    · intro a c ha _ hc _ r h
      have hr := Except.ok.inj h
      subst hr
      refine ⟨a, c, ha, hc, ?_⟩
      simp only [List.map_map]
      rw [List.forall₂_map_right_iff, List.forall₂_same]
      intro tria _
      refine ⟨rfl, rfl, ?_⟩
      intro g
      have hcath := tag_terminal_ids (materials.tags "collector_cathode") collector_bottom c
        (tag_terminal (materials.tags "collector_anode") false collector_top a tria).1 g
      have hanod := tag_terminal_ids (materials.tags "collector_anode") collector_top a tria g
      have hsame : is_terminal_face (materials.tags "collector_cathode") collector_bottom
          (tag_terminal (materials.tags "collector_anode") false collector_top a tria).1 g ↔
          is_terminal_face (materials.tags "collector_cathode") collector_bottom tria g :=
        Iff.rfl
      rw [hsame] at hcath
      refine ⟨hcath.1, ?_, ?_⟩
      · intro h1 h2
        exact (hcath.2 h1).trans (hanod.1 h2)
      · intro h1 h2
        exact (hcath.2 h1).trans (hanod.2 h2)

/-- C10 on the sample terminal cells: a two-element `anode` set and a missing `anode`
name make the pass fail, and with the default catalog the pass returns and tags with the
single ids `1` and `2`. -/
theorem boundary_tag_single_witness :
    ((two_tag_boundaries.tags "anode").card ≠ 1 ∧
      set_boundary_ids default_materials two_tag_boundaries [sample_tria] (3 / 2) (-1 / 2) =
        Except.error (BoundaryFailure.boundary_id_size "anode")) ∧
    ((([] : TagMap).lookup "anode" = none ∨ ([] : TagMap).lookup "cathode" = none) ∧
      ∃ e, set_boundary_ids default_materials [] [sample_tria] (3 / 2) (-1 / 2) =
        Except.error e) ∧
    ∃ r, set_boundary_ids default_materials default_boundaries [sample_tria] (3 / 2) (-1 / 2) =
        Except.ok r ∧
      ∃ a c, default_boundaries.tags "anode" = {a} ∧ default_boundaries.tags "cathode" = {c} ∧
        List.Forall₂
          (fun tria tria2 =>
            tria2.cells = tria.cells ∧ tria2.face_center = tria.face_center ∧
            ∀ g,
              (is_terminal_face (default_materials.tags "collector_cathode") (-1 / 2) tria g →
                tria2.boundary_id g = c) ∧
              (¬ is_terminal_face (default_materials.tags "collector_cathode") (-1 / 2) tria g →
                is_terminal_face (default_materials.tags "collector_anode") (3 / 2) tria g →
                tria2.boundary_id g = a) ∧
              (¬ is_terminal_face (default_materials.tags "collector_cathode") (-1 / 2) tria g →
                ¬ is_terminal_face (default_materials.tags "collector_anode") (3 / 2) tria g →
                tria2.boundary_id g = tria.boundary_id g))
          [sample_tria] r.1 := by
  have h2 : (two_tag_boundaries.tags "anode").card ≠ 1 := by decide
  have ha : has_terminal_face (default_materials.tags "collector_anode") (3 / 2)
      [sample_tria] := by
    rw [default_materials_tags.2.2.2.2.1]
    simp [has_terminal_face, sample_tria, boundary_eps, Fin.last]
  have hc : has_terminal_face (default_materials.tags "collector_cathode") (-1 / 2)
      [sample_tria] := by
    rw [default_materials_tags.2.2.2.2.2]
    simp [has_terminal_face, sample_tria, boundary_eps, Fin.last]
  have hok := set_boundary_ids_ok default_materials default_boundaries [sample_tria] (3 / 2)
    (-1 / 2) 1 2 rfl ha rfl hc
  exact ⟨⟨h2, (boundary_tag_single default_materials two_tag_boundaries [sample_tria] (3 / 2)
      (-1 / 2)).2.2.1 h2⟩,
    ⟨Or.inl rfl, (boundary_tag_single default_materials [] [sample_tria] (3 / 2)
      (-1 / 2)).2.1 (Or.inl rfl)⟩,
    ⟨_, hok, (boundary_tag_single default_materials default_boundaries [sample_tria] (3 / 2)
      (-1 / 2)).2.2.2 _ hok⟩⟩

/-- C17 as stated fails: the point with last-axis coordinate `-1` is within `1e-15` neither
of `0` nor of `max_value = 1/50000`, and `transform_coll_a` with scale factor `2` and
`transform_coll_c` with scale factor `2` and offset `5` return it with the coordinate `-1`,
not `-2` and not `3`. -/
theorem transform_outside_counterexample :
    ¬ |(![3, -1] : Point 2) (Fin.last 1) - 0| < transform_eps ∧
    ¬ |(![3, -1] : Point 2) (Fin.last 1) - 1 / 50000| < transform_eps ∧
    transform_coll_a (![3, -1] : Point 2) 2 (1 / 50000) (Fin.last 1) ≠
      (![3, -1] : Point 2) (Fin.last 1) * 2 ∧
    transform_coll_c (![3, -1] : Point 2) 2 (1 / 50000) 5 (Fin.last 1) ≠
      (![3, -1] : Point 2) (Fin.last 1) * 2 + 5 := by
  have hc : (![3, -1] : Point 2) (Fin.last 1) < transform_eps ∨
      (![3, -1] : Point 2) (Fin.last 1) > 1 / 50000 - transform_eps :=
    Or.inl (by norm_num [transform_eps, Fin.last])
  refine ⟨?_, ?_, ?_, ?_⟩
  · norm_num [transform_eps, Fin.last, le_abs]
  · norm_num [transform_eps, Fin.last, le_abs]
  · simp only [transform_coll_a, if_pos hc]
    norm_num [Fin.last]
  · simp only [transform_coll_c, if_pos hc]
    norm_num [Fin.last]

/-- C17, as the code has it: the guard of both transforms is one-sided. A point whose
last-axis coordinate `x` satisfies `1e-15 ≤ x ≤ max_value - 1e-15` is returned with `x`
replaced by `x * scale_factor` (`transform_coll_a`) or `x * scale_factor + offset`
(`transform_coll_c`); every point with `x < 1e-15`, in particular with `x < 0`, and every
point with `x > max_value - 1e-15`, in particular with `x > max_value`, is returned
unchanged. -/
theorem transform_guard_one_sided {d : Nat} (p : Point (d + 2))
    (scale_factor max_value offset : ℚ) :
    ((transform_eps ≤ p (Fin.last (d + 1)) ∧
        p (Fin.last (d + 1)) ≤ max_value - transform_eps) →
      transform_coll_a p scale_factor max_value =
          Function.update p (Fin.last (d + 1)) (p (Fin.last (d + 1)) * scale_factor) ∧
        transform_coll_c p scale_factor max_value offset =
          Function.update p (Fin.last (d + 1))
            (p (Fin.last (d + 1)) * scale_factor + offset)) ∧
    ((p (Fin.last (d + 1)) < transform_eps ∨
        p (Fin.last (d + 1)) > max_value - transform_eps) →
      transform_coll_a p scale_factor max_value = p ∧
        transform_coll_c p scale_factor max_value offset = p) ∧
    ((p (Fin.last (d + 1)) < 0 ∨ p (Fin.last (d + 1)) > max_value) →
      transform_coll_a p scale_factor max_value = p ∧
        transform_coll_c p scale_factor max_value offset = p) := by
  have hpos : (0 : ℚ) < transform_eps := by norm_num [transform_eps]
  have hout : (p (Fin.last (d + 1)) < transform_eps ∨
        p (Fin.last (d + 1)) > max_value - transform_eps) →
      transform_coll_a p scale_factor max_value = p ∧
        transform_coll_c p scale_factor max_value offset = p := by
    intro hc
    exact ⟨by simp only [transform_coll_a, if_pos hc],
      by simp only [transform_coll_c, if_pos hc]⟩
  refine ⟨?_, hout, ?_⟩
  · rintro ⟨hlo, hhi⟩
    have hc : ¬ (p (Fin.last (d + 1)) < transform_eps ∨
        p (Fin.last (d + 1)) > max_value - transform_eps) := by
      rintro (h | h)
      · exact absurd hlo (not_le.mpr h)
      · exact absurd hhi (not_le.mpr h)
    exact ⟨by simp only [transform_coll_a, if_neg hc],
      by simp only [transform_coll_c, if_neg hc]⟩
  · rintro (h | h)
    · exact hout (Or.inl (by linarith))
    · exact hout (Or.inr (by linarith))

/-- C17, as the code has it, at an interior node, at a point below `0` and at a point
above `max_value`. -/
theorem transform_guard_one_sided_witness :
    ((transform_eps ≤ (![3, 1 / 100000] : Point 2) (Fin.last 1) ∧
        (![3, 1 / 100000] : Point 2) (Fin.last 1) ≤ 1 / 50000 - transform_eps) ∧
      transform_coll_a (![3, 1 / 100000] : Point 2) 2 (1 / 50000) =
          Function.update (![3, 1 / 100000] : Point 2) (Fin.last 1)
            ((![3, 1 / 100000] : Point 2) (Fin.last 1) * 2) ∧
        transform_coll_c (![3, 1 / 100000] : Point 2) 2 (1 / 50000) 5 =
          Function.update (![3, 1 / 100000] : Point 2) (Fin.last 1)
            ((![3, 1 / 100000] : Point 2) (Fin.last 1) * 2 + 5)) ∧
    (((![3, -1] : Point 2) (Fin.last 1) < 0 ∨ (![3, -1] : Point 2) (Fin.last 1) > 1 / 50000) ∧
      transform_coll_a (![3, -1] : Point 2) 2 (1 / 50000) = ![3, -1] ∧
        transform_coll_c (![3, -1] : Point 2) 2 (1 / 50000) 5 = ![3, -1]) ∧
    (((![3, 1] : Point 2) (Fin.last 1) < transform_eps ∨
        (![3, 1] : Point 2) (Fin.last 1) > 1 / 50000 - transform_eps) ∧
      transform_coll_a (![3, 1] : Point 2) 2 (1 / 50000) = ![3, 1] ∧
        transform_coll_c (![3, 1] : Point 2) 2 (1 / 50000) 5 = ![3, 1]) :=
  ⟨⟨⟨by norm_num [transform_eps, Fin.last], by norm_num [transform_eps, Fin.last]⟩,
      (transform_guard_one_sided (![3, 1 / 100000] : Point 2) 2 (1 / 50000) 5).1
        ⟨by norm_num [transform_eps, Fin.last], by norm_num [transform_eps, Fin.last]⟩⟩,
    ⟨Or.inl (by norm_num [Fin.last]),
      (transform_guard_one_sided (![3, -1] : Point 2) 2 (1 / 50000) 5).2.2
        (Or.inl (by norm_num [Fin.last]))⟩,
    ⟨Or.inr (by norm_num [transform_eps, Fin.last]),
      (transform_guard_one_sided (![3, 1] : Point 2) 2 (1 / 50000) 5).2.1
        (Or.inr (by norm_num [transform_eps, Fin.last]))⟩⟩

/-- C18 as stated fails: for a collector of extent `C = 1e-15` with `n = 2` subdivisions
and an electrode of extent `A = 2.5e-16` (so `0 < A < C`), the grid node `k = 1` at height
`C / 2 = 5e-16` is below the tolerance of the transform and stays at `5e-16`, where the
claim puts it at `k * A / (n - 1) = 2.5e-16`. -/
theorem collector_a_alignment_counterexample :
    2 ≤ 2 ∧ (0 : ℚ) < 1 / (4 * 10 ^ 15) ∧ (1 : ℚ) / (4 * 10 ^ 15) < 1 / 10 ^ 15 ∧
    1 ≤ 1 ∧ 1 ≤ 2 - 1 ∧
    transform_coll_a (![0, ((1 : ℕ) : ℚ) * ((1 / 10 ^ 15) / ((2 : ℕ) : ℚ))] : Point 2)
        (collector_scale_factor (1 / (4 * 10 ^ 15)) (1 / 10 ^ 15) 2) (1 / 10 ^ 15)
        (Fin.last 1) ≠
      ((1 : ℕ) : ℚ) * (1 / (4 * 10 ^ 15)) / (((2 : ℕ) : ℚ) - 1) := by
  have hc : (![0, ((1 : ℕ) : ℚ) * ((1 / 10 ^ 15) / ((2 : ℕ) : ℚ))] : Point 2) (Fin.last 1) <
        transform_eps ∨
      (![0, ((1 : ℕ) : ℚ) * ((1 / 10 ^ 15) / ((2 : ℕ) : ℚ))] : Point 2) (Fin.last 1) >
        1 / 10 ^ 15 - transform_eps :=
    Or.inl (by norm_num [transform_eps, Fin.last])
  refine ⟨le_refl 2, by norm_num, by norm_num, le_refl 1, by norm_num, ?_⟩
  simp only [transform_coll_a, if_pos hc]
  norm_num [Fin.last]

/-- C18, as the code has it: let the first collector have extent `C` and `n ≥ 2`
subdivisions along the last axis, cell width `C / n` not below the tolerance `1e-15` of
the transform, and let the electrode extent `A` satisfy `0 < A < C`. With the scale
factor `A / (C - C / n)` of `mesh_generator`, whose denominator is not zero,
`transform_coll_a` moves the grid node at height `k * (C / n)` to height
`k * A / (n - 1)` for every `1 ≤ k ≤ n - 1`, changing no other coordinate, and leaves the
nodes at `0` and `C` fixed; the images increase with `k`, node `n - 1` lands at `A`, below
the top node at `C`. The mesh of `collector_a` in `mesh_generator` is transformed with
exactly this map. -/
theorem collector_a_alignment {d : Nat} (A C : ℚ) (n : Nat) (hn : 2 ≤ n) (hA : 0 < A)
    (hAC : A < C) (hd : transform_eps ≤ C / (n : ℚ)) :
    C - C / (n : ℚ) ≠ 0 ∧
    (∀ (k : Nat) (p : Point (d + 2)), 1 ≤ k → k ≤ n - 1 →
      p (Fin.last (d + 1)) = (k : ℚ) * (C / (n : ℚ)) →
      transform_coll_a p (collector_scale_factor A C n) C =
        Function.update p (Fin.last (d + 1)) ((k : ℚ) * A / ((n : ℚ) - 1))) ∧
    (∀ p : Point (d + 2), (p (Fin.last (d + 1)) = 0 ∨ p (Fin.last (d + 1)) = C) →
      transform_coll_a p (collector_scale_factor A C n) C = p) ∧
    (∀ k : Nat, (k : ℚ) * A / ((n : ℚ) - 1) < ((k : ℚ) + 1) * A / ((n : ℚ) - 1)) ∧
    ((n - 1 : ℕ) : ℚ) * A / ((n : ℚ) - 1) = A ∧ A < C ∧
    (∀ (ids : MaterialIds) (database : Database),
      (build_components ids database : Components (d + 2)).collector_a.triangulation =
        GridTools_transform
          (fun p => transform_coll_a p
            (collector_scale_factor (database.anode.dimensions.getD (d + 1) 0)
              (database.collector.dimensions.getD (d + 1) 0)
              (database.collector.divisions.getD (d + 1) 0))
            (database.collector.dimensions.getD (d + 1) 0))
          (set_material_id ids.collector_anode
            (subdivided_hyper_rectangle database.collector.divisions 0
              (fun i => database.collector.dimensions.getD i 0)))) := by
  have hC : 0 < C := lt_trans hA hAC
  have hpos : (0 : ℚ) < transform_eps := by norm_num [transform_eps]
  have hnq : (2 : ℚ) ≤ (n : ℚ) := by exact_mod_cast hn
  have hn1 : (0 : ℚ) < (n : ℚ) - 1 := by linarith
  refine ⟨scale_denominator_ne_zero C n hn hC, ?_, ?_, ?_, ?_, hAC,
    fun ids database => build_components_collector_a ids database⟩
  · intro k p hk1 hk2 hp
    have hint := grid_node_interior C n k hd hk1 (by omega)
    rw [← hp] at hint
    simp only [transform_coll_a, if_neg hint]
    rw [hp, grid_node_scaled A C n k hn hC]
  · intro p hp
    have hc : p (Fin.last (d + 1)) < transform_eps ∨
        p (Fin.last (d + 1)) > C - transform_eps := by
      rcases hp with h | h
      · left
        rw [h]
        exact hpos
      · right
        rw [h]
        linarith
    simp only [transform_coll_a, if_pos hc]
  · intro k
    apply div_lt_div_of_pos_right _ hn1
    nlinarith
  · have hcast : ((n - 1 : ℕ) : ℚ) = (n : ℚ) - 1 := by
      rw [Nat.cast_sub (by omega)]
      simp
    rw [hcast]
    field_simp

/-- C18, as the code has it, on the sample collector: extent `3/2`, two subdivisions,
electrode extent `1`. -/
theorem collector_a_alignment_witness :
    (2 ≤ 2 ∧ (0 : ℚ) < 1 ∧ (1 : ℚ) < 3 / 2 ∧ transform_eps ≤ (3 / 2 : ℚ) / ((2 : ℕ) : ℚ)) ∧
    ((3 / 2 : ℚ) - (3 / 2) / ((2 : ℕ) : ℚ) ≠ 0 ∧
    (∀ (k : Nat) (p : Point (0 + 2)), 1 ≤ k → k ≤ 2 - 1 →
      p (Fin.last (0 + 1)) = (k : ℚ) * ((3 / 2) / ((2 : ℕ) : ℚ)) →
      transform_coll_a p (collector_scale_factor 1 (3 / 2) 2) (3 / 2) =
        Function.update p (Fin.last (0 + 1)) ((k : ℚ) * 1 / (((2 : ℕ) : ℚ) - 1))) ∧
    (∀ p : Point (0 + 2), (p (Fin.last (0 + 1)) = 0 ∨ p (Fin.last (0 + 1)) = 3 / 2) →
      transform_coll_a p (collector_scale_factor 1 (3 / 2) 2) (3 / 2) = p) ∧
    (∀ k : Nat, (k : ℚ) * 1 / (((2 : ℕ) : ℚ) - 1) < ((k : ℚ) + 1) * 1 / (((2 : ℕ) : ℚ) - 1)) ∧
    ((2 - 1 : ℕ) : ℚ) * 1 / (((2 : ℕ) : ℚ) - 1) = 1 ∧ (1 : ℚ) < 3 / 2 ∧
    (∀ (ids : MaterialIds) (database : Database),
      (build_components ids database : Components (0 + 2)).collector_a.triangulation =
        GridTools_transform
          (fun p => transform_coll_a p
            (collector_scale_factor (database.anode.dimensions.getD (0 + 1) 0)
              (database.collector.dimensions.getD (0 + 1) 0)
              (database.collector.divisions.getD (0 + 1) 0))
            (database.collector.dimensions.getD (0 + 1) 0))
          (set_material_id ids.collector_anode
            (subdivided_hyper_rectangle database.collector.divisions 0
              (fun i => database.collector.dimensions.getD i 0))))) :=
  ⟨⟨le_refl 2, by norm_num, by norm_num, by norm_num [transform_eps]⟩,
    collector_a_alignment 1 (3 / 2) 2 (le_refl 2) (by norm_num) (by norm_num)
      (by norm_num [transform_eps])⟩

/-- C19 as stated fails: for a collector of extent `C = 1e-15` with `n = 2` subdivisions
and an electrode of extent `A = 2.5e-16` (so `0 < A < C`), the grid node `k = 1` at height
`C / 2 = 5e-16` is below the tolerance of the transform and stays at `5e-16`, where the
claim puts it at `(C - A) + (k - 1) * A / (n - 1) = 7.5e-16`. -/
theorem collector_c_alignment_counterexample :
    2 ≤ 2 ∧ (0 : ℚ) < 1 / (4 * 10 ^ 15) ∧ (1 : ℚ) / (4 * 10 ^ 15) < 1 / 10 ^ 15 ∧
    1 ≤ 1 ∧ 1 ≤ 2 - 1 ∧
    transform_coll_c (![0, ((1 : ℕ) : ℚ) * ((1 / 10 ^ 15) / ((2 : ℕ) : ℚ))] : Point 2)
        (collector_scale_factor (1 / (4 * 10 ^ 15)) (1 / 10 ^ 15) 2) (1 / 10 ^ 15)
        (collector_c_offset (1 / (4 * 10 ^ 15)) (1 / 10 ^ 15) 2) (Fin.last 1) ≠
      (1 / 10 ^ 15 - 1 / (4 * 10 ^ 15)) +
        (((1 : ℕ) : ℚ) - 1) * (1 / (4 * 10 ^ 15)) / (((2 : ℕ) : ℚ) - 1) := by
  have hc : (![0, ((1 : ℕ) : ℚ) * ((1 / 10 ^ 15) / ((2 : ℕ) : ℚ))] : Point 2) (Fin.last 1) <
        transform_eps ∨
      (![0, ((1 : ℕ) : ℚ) * ((1 / 10 ^ 15) / ((2 : ℕ) : ℚ))] : Point 2) (Fin.last 1) >
        1 / 10 ^ 15 - transform_eps :=
    Or.inl (by norm_num [transform_eps, Fin.last])
  refine ⟨le_refl 2, by norm_num, by norm_num, le_refl 1, by norm_num, ?_⟩
  simp only [transform_coll_c, if_pos hc]
  norm_num [Fin.last]

/-- C19, as the code has it: with `C`, `n`, `A` as for the first collector, cell width
`C / n` not below the tolerance `1e-15`, the scale factor `s = A / (C - C / n)` and the
offset `C - A - s * (C / n)` of `mesh_generator`, `transform_coll_c` moves the node of the
second collector at height `k * (C / n)` to `(C - A) + (k - 1) * A / (n - 1)` for every
`1 ≤ k ≤ n - 1` and leaves the nodes at `0` and `C` fixed. After the vertical shift by
`-(C - A)` node `k`, for `1 ≤ k ≤ n`, lies at `(k - 1) * A / (n - 1)`, the height of node
`k - 1` of the first collector after `transform_coll_a`, and the bottom node lies at
`-(C - A)`. The mesh of `collector_c` in `mesh_generator` is transformed with exactly
this map, its vertical shift is `-(collector_dim - anode_dim)`, and that value is the
argument `collector_bottom` of `set_boundary_ids`. -/
theorem collector_c_alignment {d : Nat} (A C : ℚ) (n : Nat) (hn : 2 ≤ n) (hA : 0 < A)
    (hAC : A < C) (hd : transform_eps ≤ C / (n : ℚ)) :
    (∀ (k : Nat) (p : Point (d + 2)), 1 ≤ k → k ≤ n - 1 →
      p (Fin.last (d + 1)) = (k : ℚ) * (C / (n : ℚ)) →
      transform_coll_c p (collector_scale_factor A C n) C (collector_c_offset A C n) =
        Function.update p (Fin.last (d + 1))
          ((C - A) + ((k : ℚ) - 1) * A / ((n : ℚ) - 1))) ∧
    (∀ p : Point (d + 2), (p (Fin.last (d + 1)) = 0 ∨ p (Fin.last (d + 1)) = C) →
      transform_coll_c p (collector_scale_factor A C n) C (collector_c_offset A C n) = p) ∧
    (∀ (k : Nat) (p q : Point (d + 2)), 1 ≤ k → k ≤ n →
      p (Fin.last (d + 1)) = (k : ℚ) * (C / (n : ℚ)) →
      q (Fin.last (d + 1)) = ((k - 1 : ℕ) : ℚ) * (C / (n : ℚ)) →
      transform_coll_c p (collector_scale_factor A C n) C (collector_c_offset A C n)
          (Fin.last (d + 1)) + -(C - A) = ((k : ℚ) - 1) * A / ((n : ℚ) - 1) ∧
      transform_coll_a q (collector_scale_factor A C n) C (Fin.last (d + 1)) =
        ((k : ℚ) - 1) * A / ((n : ℚ) - 1)) ∧
    (∀ p : Point (d + 2), p (Fin.last (d + 1)) = 0 →
      transform_coll_c p (collector_scale_factor A C n) C (collector_c_offset A C n)
        (Fin.last (d + 1)) + -(C - A) = -(C - A)) ∧
    (∀ (ids : MaterialIds) (database : Database),
      (build_components ids database : Components (d + 2)).collector_c.triangulation =
        GridTools_transform
          (fun p => transform_coll_c p
            (collector_scale_factor (database.anode.dimensions.getD (d + 1) 0)
              (database.collector.dimensions.getD (d + 1) 0)
              (database.collector.divisions.getD (d + 1) 0))
            (database.collector.dimensions.getD (d + 1) 0)
            (collector_c_offset (database.anode.dimensions.getD (d + 1) 0)
              (database.collector.dimensions.getD (d + 1) 0)
              (database.collector.divisions.getD (d + 1) 0)))
          (set_material_id ids.collector_cathode
            (subdivided_hyper_rectangle database.collector.divisions 0
              (fun i => database.collector.dimensions.getD i 0))) ∧
      (build_components ids database : Components (d + 2)).collector_c.shift_vector
          (Fin.last (d + 1)) =
        -(database.collector.dimensions.getD (d + 1) 0 -
          database.anode.dimensions.getD (d + 1) 0) ∧
      boundary_arguments (build_components ids database : Components (d + 2)) =
        (database.collector.dimensions.getD (d + 1) 0,
          -(database.collector.dimensions.getD (d + 1) 0 -
            database.anode.dimensions.getD (d + 1) 0))) := by
  have hC : 0 < C := lt_trans hA hAC
  have hnq : (2 : ℚ) ≤ (n : ℚ) := by exact_mod_cast hn
  have hn0 : (n : ℚ) ≠ 0 := by linarith
  have hn1 : (n : ℚ) - 1 ≠ 0 := by linarith
  refine ⟨fun k p hk1 hk2 hp => transform_coll_c_node A C n k p hn hC hd hk1 hk2 hp,
    fun p hp => (transform_coll_end _ C _ p hp).2, ?_, ?_,
    fun ids database => build_components_collector_c ids database⟩
  · intro k p q hk1 hk2 hp hq
    have hcast : ((k - 1 : ℕ) : ℚ) = (k : ℚ) - 1 := by
      rw [Nat.cast_sub hk1]
      simp
    constructor
    · by_cases hkn : k = n
      · have hpC : p (Fin.last (d + 1)) = C := by
          rw [hp, hkn]
          field_simp
        rw [(transform_coll_end _ C _ p (Or.inr hpC)).2, hpC, hkn]
        field_simp
      · rw [transform_coll_c_node A C n k p hn hC hd hk1 (by omega) hp,
          Function.update_same]
        ring
    · by_cases hk : k = 1
      · have hq0 : q (Fin.last (d + 1)) = 0 := by
          rw [hq, hk]
          simp
        rw [(transform_coll_end _ C 0 q (Or.inl hq0)).1, hq0, hk]
        simp
      · rw [transform_coll_a_node A C n (k - 1) q hn hC hd (by omega) (by omega) hq,
          Function.update_same, hcast]
  · intro p hp
    rw [(transform_coll_end _ C _ p (Or.inl hp)).2, hp]
    ring

/-- C19, as the code has it, on the sample collector: extent `3/2`, two subdivisions,
electrode extent `1`. -/
theorem collector_c_alignment_witness :
    (2 ≤ 2 ∧ (0 : ℚ) < 1 ∧ (1 : ℚ) < 3 / 2 ∧ transform_eps ≤ (3 / 2 : ℚ) / ((2 : ℕ) : ℚ)) ∧
    (∀ (k : Nat) (p : Point (0 + 2)), 1 ≤ k → k ≤ 2 - 1 →
      p (Fin.last (0 + 1)) = (k : ℚ) * ((3 / 2) / ((2 : ℕ) : ℚ)) →
      transform_coll_c p (collector_scale_factor 1 (3 / 2) 2) (3 / 2)
          (collector_c_offset 1 (3 / 2) 2) =
        Function.update p (Fin.last (0 + 1))
          ((3 / 2 - 1) + ((k : ℚ) - 1) * 1 / (((2 : ℕ) : ℚ) - 1))) ∧
    (∀ (k : Nat) (p q : Point (0 + 2)), 1 ≤ k → k ≤ 2 →
      p (Fin.last (0 + 1)) = (k : ℚ) * ((3 / 2) / ((2 : ℕ) : ℚ)) →
      q (Fin.last (0 + 1)) = ((k - 1 : ℕ) : ℚ) * ((3 / 2) / ((2 : ℕ) : ℚ)) →
      transform_coll_c p (collector_scale_factor 1 (3 / 2) 2) (3 / 2)
          (collector_c_offset 1 (3 / 2) 2) (Fin.last (0 + 1)) + -(3 / 2 - 1) =
        ((k : ℚ) - 1) * 1 / (((2 : ℕ) : ℚ) - 1) ∧
      transform_coll_a q (collector_scale_factor 1 (3 / 2) 2) (3 / 2) (Fin.last (0 + 1)) =
        ((k : ℚ) - 1) * 1 / (((2 : ℕ) : ℚ) - 1)) :=
  ⟨⟨le_refl 2, by norm_num, by norm_num, by norm_num [transform_eps]⟩,
    (collector_c_alignment 1 (3 / 2) 2 (le_refl 2) (by norm_num) (by norm_num)
      (by norm_num [transform_eps])).1,
    (collector_c_alignment 1 (3 / 2) 2 (le_refl 2) (by norm_num) (by norm_num)
      (by norm_num [transform_eps])).2.2.1⟩

/-- C20: on the components that `mesh_generator` builds, for every `N ≥ 0` the loop
returns, `collector_c` is merged for the first time by merge `3`, which every run
contains, and the shift vector that merge `k` applies to its component has the last-axis
entry `-(collector_dim - anode_dim)` for `k = 3` and `0` for every other merge, be it a
later merge of `collector_c` or a merge of another component. After every call of
`merge_components` the last-axis `shift_vector` entry of the merged component is zero,
and from merge `3` on the mesh of `collector_c` is displaced along the last axis by
`-(collector_dim - anode_dim)` in total. -/
theorem vertical_shift_once {d : Nat} (ids : MaterialIds) (database : Database)
    (N fuel : Nat) (hN : database.n_repetitions = some (N : ℤ)) (hint : N < 2 ^ 31)
    (hfuel : N + 2 ≤ fuel) :
    stack_merge (build_components ids database : Components (d + 2)) database fuel =
      some (merge_run (build_components ids database) (4 * (N + 1))) ∧
    (3 < 4 * (N + 1) ∧ components_at (3 % 8) = ComponentId.collector_c ∧
      ∀ k, k < 3 → components_at (k % 8) ≠ ComponentId.collector_c) ∧
    ∀ k,
      ((merge_run (build_components ids database : Components (d + 2)) (k + 1)).comps.get
          (components_at (k % 8))).triangulation =
        GridTools_shift (applied_shift (build_components ids database) k)
          ((merge_run (build_components ids database) k).comps.get
            (components_at (k % 8))).triangulation ∧
      applied_shift (build_components ids database : Components (d + 2)) k
          (Fin.last (d + 1)) =
        (if k = 3 then
          -(database.collector.dimensions.getD (d + 1) 0 -
            database.anode.dimensions.getD (d + 1) 0)
        else 0) ∧
      ((merge_run (build_components ids database : Components (d + 2)) (k + 1)).comps.get
          (components_at (k % 8))).shift_vector (Fin.last (d + 1)) = 0 ∧
      (4 ≤ k → ∃ T : Point (d + 2),
        (merge_run (build_components ids database : Components (d + 2))
            k).comps.collector_c.triangulation =
          GridTools_shift T
            (build_components ids database : Components (d + 2)).collector_c.triangulation ∧
        T (Fin.last (d + 1)) =
          -(database.collector.dimensions.getD (d + 1) 0 -
            database.anode.dimensions.getD (d + 1) 0)) := by
  refine ⟨stack_merge_eq _ database N fuel hN hint hfuel,
    ⟨by omega, rfl, components_at_early⟩, ?_⟩
  intro k
  exact ⟨merge_run_applied _ k, applied_shift_vertical ids database k,
    merge_run_merged_last _ k, merge_run_collector_c_total ids database k⟩

/-- C20 on the sample stack with `n_repetitions = 0`, in two dimensions. -/
theorem vertical_shift_once_witness :
    (sample_database.n_repetitions = some ((0 : ℕ) : ℤ) ∧ 0 < 2 ^ 31 ∧ 0 + 2 ≤ 2) ∧
    (stack_merge (build_components sample_ids sample_database : Components (0 + 2))
        sample_database 2 =
      some (merge_run (build_components sample_ids sample_database) (4 * (0 + 1))) ∧
    (3 < 4 * (0 + 1) ∧ components_at (3 % 8) = ComponentId.collector_c ∧
      ∀ k, k < 3 → components_at (k % 8) ≠ ComponentId.collector_c) ∧
    ∀ k,
      ((merge_run (build_components sample_ids sample_database : Components (0 + 2))
          (k + 1)).comps.get (components_at (k % 8))).triangulation =
        GridTools_shift (applied_shift (build_components sample_ids sample_database) k)
          ((merge_run (build_components sample_ids sample_database) k).comps.get
            (components_at (k % 8))).triangulation ∧
      applied_shift (build_components sample_ids sample_database : Components (0 + 2)) k
          (Fin.last (0 + 1)) =
        (if k = 3 then
          -(sample_database.collector.dimensions.getD (0 + 1) 0 -
            sample_database.anode.dimensions.getD (0 + 1) 0)
        else 0) ∧
      ((merge_run (build_components sample_ids sample_database : Components (0 + 2))
          (k + 1)).comps.get (components_at (k % 8))).shift_vector (Fin.last (0 + 1)) = 0 ∧
      (4 ≤ k → ∃ T : Point (0 + 2),
        (merge_run (build_components sample_ids sample_database : Components (0 + 2))
            k).comps.collector_c.triangulation =
          GridTools_shift T
            (build_components sample_ids sample_database :
              Components (0 + 2)).collector_c.triangulation ∧
        T (Fin.last (0 + 1)) =
          -(sample_database.collector.dimensions.getD (0 + 1) 0 -
            sample_database.anode.dimensions.getD (0 + 1) 0))) :=
  ⟨⟨rfl, by norm_num, by norm_num⟩,
    vertical_shift_once sample_ids sample_database 0 2 rfl (by norm_num) (by norm_num)⟩

/-- C11 as stated fails: on the sample stack (anode and cathode `50e-6`, separator
`25e-6`, collector `20e-6`, `n_repetitions = 0`) the loop returns with the running offset
`165e-6`, which is not the sum `290e-6` of the extents of the eight entries of the array
`components`. -/
theorem stack_extent_counterexample :
    ∃ s, stack_merge sample_components sample_database 2 = some s ∧
      s.offset = 33 / 200000 ∧
      (components.map fun id => (sample_components.get id).extent).sum = 29 / 100000 ∧
      s.offset ≠ (components.map fun id => (sample_components.get id).extent).sum := by
  have hoff : (merge_run sample_components (4 * (0 + 1))).offset = 33 / 200000 := by
    rw [merge_run_offset_sum]
    simp [Finset.sum_range_succ, components_at, components, Components.get,
      Component.extent, sample_components, build_components, read_component_database,
      Component.new, Component.of_box, sample_database]
    norm_num
  have hsum : (components.map fun id => (sample_components.get id).extent).sum =
      29 / 100000 := by
    simp [components, Components.get, Component.extent, sample_components,
      build_components, read_component_database, Component.new, Component.of_box,
      sample_database]
    norm_num
  refine ⟨_, stack_merge_eq sample_components sample_database 0 2 rfl (by norm_num)
    (by norm_num), hoff, hsum, ?_⟩
  rw [hoff, hsum]
  norm_num

/-- C11, as the code has it: with anode and cathode extent `50e-6`, separator extent
`25e-6`, collector extent `20e-6` along axis `0` and `n_repetitions = 0`, the loop makes
four merges and the final running offset is the sum of the five layers collector, anode,
separator, cathode, collector, which is `165e-6`. -/
theorem stack_extent_five_layers {d : Nat} (ids : MaterialIds) (database : Database)
    (fuel : Nat) (hN : database.n_repetitions = some 0) (hfuel : 2 ≤ fuel)
    (hc : database.collector.dimensions[0]? = some (1 / 50000))
    (ha : database.anode.dimensions[0]? = some (1 / 20000))
    (hs : database.separator.dimensions[0]? = some (1 / 40000))
    (hk : database.cathode.dimensions[0]? = some (1 / 20000)) :
    ∃ s, stack_merge (build_components ids database : Components (d + 2)) database fuel =
        some s ∧
      s.calls.length = 4 ∧
      s.calls.map Prod.fst =
        [ComponentId.anode, ComponentId.separator, ComponentId.cathode,
          ComponentId.collector_c] ∧
      s.offset = 1 / 50000 + 1 / 20000 + 1 / 40000 + 1 / 20000 + 1 / 50000 ∧
      s.offset = 33 / 200000 := by
  have hN2 : database.n_repetitions = some ((0 : ℕ) : ℤ) := by
    rw [hN]
    rfl
  have hoff : (merge_run (build_components ids database : Components (d + 2))
      (4 * (0 + 1))).offset = 1 / 50000 + 1 / 20000 + 1 / 40000 + 1 / 20000 + 1 / 50000 := by
    rw [merge_run_offset_sum]
    simp [Finset.sum_range_succ, components_at, components, Components.get,
      Component.extent, build_components, read_component_database,
      Component.new, Component.of_box, List.getD_eq_getElem?_getD, hc, ha, hs, hk]
    norm_num
  refine ⟨_, stack_merge_eq _ database 0 fuel hN2 (by norm_num) (by omega),
    merge_run_calls_length _ _, ?_, hoff, ?_⟩
  · show ((merge_run _ (3 + 1)).calls.map Prod.fst) = _
    rw [merge_run_calls, merge_run_calls, merge_run_calls, merge_run_calls]
    simp [merge_run, merge_init, components_at, components]
  · rw [hoff]
    norm_num

/-- C11, as the code has it, on the sample stack. -/
theorem stack_extent_five_layers_witness :
    (sample_database.n_repetitions = some 0 ∧ 2 ≤ 2 ∧
      sample_database.collector.dimensions[0]? = some (1 / 50000) ∧
      sample_database.anode.dimensions[0]? = some (1 / 20000) ∧
      sample_database.separator.dimensions[0]? = some (1 / 40000) ∧
      sample_database.cathode.dimensions[0]? = some (1 / 20000)) ∧
    ∃ s, stack_merge (build_components sample_ids sample_database : Components (0 + 2))
        sample_database 2 = some s ∧
      s.calls.length = 4 ∧
      s.calls.map Prod.fst =
        [ComponentId.anode, ComponentId.separator, ComponentId.cathode,
          ComponentId.collector_c] ∧
      s.offset = 1 / 50000 + 1 / 20000 + 1 / 40000 + 1 / 20000 + 1 / 50000 ∧
      s.offset = 33 / 200000 :=
  ⟨⟨rfl, le_refl 2, rfl, rfl, rfl, rfl⟩,
    stack_extent_five_layers sample_ids sample_database 2 rfl (le_refl 2) rfl rfl rfl rfl⟩

/-- C15: `buildEnergyStorageDevice` constructs a `SeriesRC` for the type `SeriesRC`, a
`ParallelRC` for the type `ParallelRC`, and a `NoName<2>` or `NoName<3>` for the type
`NoName` with `dim` equal to `2` or `3`. It throws exactly when the type, taken as
`unknown_type` if the database has no `type` entry, is none of the three names, or when
the type is `NoName` and `dim` is neither `2` nor `3`. -/
theorem build_device_cases (database : DeviceDatabase) :
    (database.type = some "SeriesRC" →
      buildEnergyStorageDevice database = Except.ok DeviceClass.SeriesRC) ∧
    (database.type = some "ParallelRC" →
      buildEnergyStorageDevice database = Except.ok DeviceClass.ParallelRC) ∧
    (database.type = some "NoName" → database.dim = some 2 →
      buildEnergyStorageDevice database = Except.ok (DeviceClass.NoName 2)) ∧
    (database.type = some "NoName" → database.dim = some 3 →
      buildEnergyStorageDevice database = Except.ok (DeviceClass.NoName 3)) ∧
    (database.type = none →
      buildEnergyStorageDevice database =
        Except.error
          (Exception.runtime_error "invalid energy storage type ``unknown_type''\n")) ∧
    ((∃ e, buildEnergyStorageDevice database = Except.error e) ↔
      (database.type.getD "unknown_type" ≠ "SeriesRC" ∧
          database.type.getD "unknown_type" ≠ "ParallelRC" ∧
          database.type.getD "unknown_type" ≠ "NoName") ∨
        (database.type = some "NoName" ∧ database.dim ≠ some 2 ∧ database.dim ≠ some 3)) := by
  refine ⟨?_, ?_, ?_, ?_, ?_, ?_⟩
  · intro h
    simp [buildEnergyStorageDevice, h]
  · intro h
    simp [buildEnergyStorageDevice, h]
  · intro h h2
    simp [buildEnergyStorageDevice, h, h2]
  · intro h h3
    simp [buildEnergyStorageDevice, h, h3]
  · intro h
    simp [buildEnergyStorageDevice, h]
  · unfold buildEnergyStorageDevice
    by_cases h1 : database.type.getD "unknown_type" = "SeriesRC"
    · simp [h1]
      intro ht
      rw [ht] at h1
      exact absurd h1 (by decide)
    · by_cases h2 : database.type.getD "unknown_type" = "ParallelRC"
      · simp [h1, h2]
        intro ht
        rw [ht] at h2
        exact absurd h2 (by decide)
      · by_cases h3 : database.type.getD "unknown_type" = "NoName"
        · have ht : database.type = some "NoName" := by
            cases hty : database.type with
            | none =>
              rw [hty] at h3
              exact absurd h3 (by decide)
            | some t =>
              rw [hty] at h3
              exact congrArg some h3
          cases hd : database.dim with
          | none => simp [h3, ht]
          | some dim =>
            by_cases d2 : dim = 2
            · simp [h3, ht, d2]
            · by_cases d3 : dim = 3
              · simp [h3, ht, d3]
              · simp [h3, ht, d2, d3]
        · simp [h1, h2, h3]

/-- C15 on four databases: type `NoName` with `dim = 2`, type `NoName` with `dim = 5`, no
`type` entry, and type `SeriesRC`. -/
theorem build_device_cases_witness :
    buildEnergyStorageDevice { type := some "NoName", dim := some 2 } =
      Except.ok (DeviceClass.NoName 2) ∧
    (∃ e, buildEnergyStorageDevice { type := some "NoName", dim := some 5 } =
      Except.error e) ∧
    buildEnergyStorageDevice { type := none, dim := none } =
      Except.error
        (Exception.runtime_error "invalid energy storage type ``unknown_type''\n") ∧
    buildEnergyStorageDevice { type := some "SeriesRC", dim := none } =
      Except.ok DeviceClass.SeriesRC :=
  ⟨(build_device_cases { type := some "NoName", dim := some 2 }).2.2.1 rfl rfl,
    (build_device_cases { type := some "NoName", dim := some 5 }).2.2.2.2.2.mpr
      (Or.inr ⟨rfl, by decide, by decide⟩),
    (build_device_cases { type := none, dim := none }).2.2.2.2.1 rfl,
    (build_device_cases { type := some "SeriesRC", dim := none }).1 rfl⟩

/-- C13: in the mode `file`, with the entry `mesh_file` present and a well-formed catalog,
the extension is the text after the last `.` of `mesh_file` (the whole name when it has no
`.`); the constructor calls `read_ucd` for `ucd` and `read_abaqus` for `inp`, and for
every other extension throws a `std::runtime_error` whose message contains the extension
and the mesh file name; it throws if and only if the extension is neither `ucd` nor
`inp`. -/
theorem mesh_file_extension (database : FileDatabase) (mesh_file : String)
    (maps : TagMap × TagMap) (hfile : database.mesh_file = some mesh_file)
    (hmaps : fill_material_and_boundary_maps database.catalog = Except.ok maps) :
    (∀ pre ext : List Char, mesh_file.data = pre ++ '.' :: ext → '.' ∉ ext →
      file_extension mesh_file = String.mk ext) ∧
    ('.' ∉ mesh_file.data → file_extension mesh_file = mesh_file) ∧
    (file_extension mesh_file = "ucd" →
      Geometry_file database = Except.ok (MeshReader.read_ucd, maps)) ∧
    (file_extension mesh_file = "inp" →
      Geometry_file database = Except.ok (MeshReader.read_abaqus, maps)) ∧
    (file_extension mesh_file ≠ "ucd" → file_extension mesh_file ≠ "inp" →
      Geometry_file database =
        Except.error
          (Exception.runtime_error
            ("Bad mesh file extension ." ++ file_extension mesh_file ++ " in mesh file " ++
              mesh_file))) ∧
    ((∃ e, Geometry_file database = Except.error e) ↔
      (file_extension mesh_file ≠ "ucd" ∧ file_extension mesh_file ≠ "inp")) := by
  refine ⟨fun pre ext h hdot => file_extension_after_dot mesh_file pre ext h hdot,
    file_extension_no_dot mesh_file, ?_, ?_, ?_, ?_⟩
  · intro h
    simp [Geometry_file, hfile, hmaps, h]
  · intro h
    have hne : ¬ ("inp" : String) = "ucd" := by decide
    simp [Geometry_file, hfile, hmaps, h, hne]
  · intro h1 h2
    simp [Geometry_file, hfile, hmaps, h1, h2]
  · by_cases h1 : file_extension mesh_file = "ucd"
    · simp [Geometry_file, hfile, hmaps, h1]
    · by_cases h2 : file_extension mesh_file = "inp"
      · simp [Geometry_file, hfile, hmaps, h1, h2]
      · simp [Geometry_file, hfile, hmaps, h1, h2]

/-- C13 on the mesh files `stack.v2.ucd`, `stack.inp` and `stack.msh` with an empty
catalog. -/
theorem mesh_file_extension_witness :
    file_extension "stack.v2.ucd" = "ucd" ∧
    Geometry_file { mesh_file := some "stack.v2.ucd", catalog := empty_catalog_database } =
      Except.ok (MeshReader.read_ucd, ([], [])) ∧
    Geometry_file { mesh_file := some "stack.inp", catalog := empty_catalog_database } =
      Except.ok (MeshReader.read_abaqus, ([], [])) ∧
    Geometry_file { mesh_file := some "stack.msh", catalog := empty_catalog_database } =
      Except.error
        (Exception.runtime_error
          ("Bad mesh file extension ." ++ file_extension "stack.msh" ++ " in mesh file " ++
            "stack.msh")) :=
  ⟨(mesh_file_extension
      { mesh_file := some "stack.v2.ucd", catalog := empty_catalog_database }
      "stack.v2.ucd" ([], []) rfl rfl).1 "stack.v2".data "ucd".data rfl (by decide),
    (mesh_file_extension
      { mesh_file := some "stack.v2.ucd", catalog := empty_catalog_database }
      "stack.v2.ucd" ([], []) rfl rfl).2.2.1 (by decide),
    (mesh_file_extension { mesh_file := some "stack.inp", catalog := empty_catalog_database }
      "stack.inp" ([], []) rfl rfl).2.2.2.1 (by decide),
    (mesh_file_extension { mesh_file := some "stack.msh", catalog := empty_catalog_database }
      "stack.msh" ([], []) rfl rfl).2.2.2.2.1 (by decide) (by decide)⟩

/-- C12: on a database with all seven entries, `convert_geometry_database` throws if and
only if the two collector thicknesses differ, and then the `std::runtime_error` with the
message `Both collectors must have the same thickness.`; when they are equal it returns
for every value of the thicknesses and writes the four dimension entries, each starting
with the thickness of its component, converted to metres and printed by `std::to_string`. -/
theorem collector_thickness_check (d : Nat) (sqrt : ℚ → ℚ)
    (anode_collector anode_electrode separator cathode_electrode tab area
      cathode_collector : ℚ) :
    (convert_geometry_database d sqrt
        (geometry_database anode_collector anode_electrode separator cathode_electrode tab
          area cathode_collector) =
      Except.error
        (Exception.runtime_error "Both collectors must have the same thickness.") ↔
      anode_collector ≠ cathode_collector) ∧
    ((∃ e, convert_geometry_database d sqrt
        (geometry_database anode_collector anode_electrode separator cathode_electrode tab
          area cathode_collector) = Except.error e) ↔
      anode_collector ≠ cathode_collector) ∧
    (anode_collector = cathode_collector →
      ∃ out, convert_geometry_database d sqrt
          (geometry_database anode_collector anode_electrode separator cathode_electrode tab
            area cathode_collector) = Except.ok out ∧
        out.collector[0]? = some (to_string_value (anode_collector * (1 / 100))) ∧
        out.anode[0]? = some (to_string_value (anode_electrode * (1 / 100))) ∧
        out.separator[0]? = some (to_string_value (separator * (1 / 100))) ∧
        out.cathode[0]? = some (to_string_value (cathode_electrode * (1 / 100))) ∧
        (d = 0 →
          out.collector =
              [to_string_value (anode_collector * (1 / 100)),
                to_string_value (area * (1 / 10000) + tab * (1 / 100))] ∧
            out.anode =
              [to_string_value (anode_electrode * (1 / 100)),
                to_string_value (area * (1 / 10000))] ∧
            out.separator =
              [to_string_value (separator * (1 / 100)),
                to_string_value (area * (1 / 10000))] ∧
            out.cathode =
              [to_string_value (cathode_electrode * (1 / 100)),
                to_string_value (area * (1 / 10000))])) := by
  have hiff : anode_collector * (1 / 100) = cathode_collector * (1 / 100) ↔
      anode_collector = cathode_collector := by
    constructor
    · intro h
      linarith
    · intro h
      rw [h]
  by_cases hac : anode_collector = cathode_collector
  · subst hac
    by_cases hd : d = 0
    · subst hd
      simp [convert_geometry_database, geometry_database, get_double, bind, Except.bind,
        pure, Except.pure]
    · simp [convert_geometry_database, geometry_database, get_double, bind, Except.bind,
        pure, Except.pure, hd]
  · have hne : ¬ anode_collector * (1 / 100) = cathode_collector * (1 / 100) :=
      fun h => hac (hiff.mp h)
    simp [convert_geometry_database, geometry_database, get_double, bind, Except.bind,
      pure, Except.pure, hac]

/-- C12 on the default thicknesses in centimetres, and with a cathode collector that is
thicker than the anode collector. -/
theorem collector_thickness_check_witness :
    ((5 / 10000 : ℚ) = 5 / 10000 ∧
      ∃ out, convert_geometry_database 0 (fun x => x)
          (geometry_database (5 / 10000) (50 / 10000) (25 / 10000) (50 / 10000) (5 / 10000)
            (25 / 100) (5 / 10000)) = Except.ok out ∧
        out.collector[0]? = some (to_string_value (5 / 10000 * (1 / 100))) ∧
        out.anode[0]? = some (to_string_value (50 / 10000 * (1 / 100))) ∧
        out.separator[0]? = some (to_string_value (25 / 10000 * (1 / 100))) ∧
        out.cathode[0]? = some (to_string_value (50 / 10000 * (1 / 100))) ∧
        ((0 : ℕ) = 0 →
          out.collector =
              [to_string_value (5 / 10000 * (1 / 100)),
                to_string_value (25 / 100 * (1 / 10000) + 5 / 10000 * (1 / 100))] ∧
            out.anode =
              [to_string_value (50 / 10000 * (1 / 100)),
                to_string_value (25 / 100 * (1 / 10000))] ∧
            out.separator =
              [to_string_value (25 / 10000 * (1 / 100)),
                to_string_value (25 / 100 * (1 / 10000))] ∧
            out.cathode =
              [to_string_value (50 / 10000 * (1 / 100)),
                to_string_value (25 / 100 * (1 / 10000))])) ∧
    ((5 / 10000 : ℚ) ≠ 6 / 10000 ∧
      convert_geometry_database 0 (fun x => x)
          (geometry_database (5 / 10000) (50 / 10000) (25 / 10000) (50 / 10000) (5 / 10000)
            (25 / 100) (6 / 10000)) =
        Except.error
          (Exception.runtime_error "Both collectors must have the same thickness.")) :=
  ⟨⟨rfl, (collector_thickness_check 0 (fun x => x) (5 / 10000) (50 / 10000) (25 / 10000)
      (50 / 10000) (5 / 10000) (25 / 100) (5 / 10000)).2.2 rfl⟩,
    ⟨by norm_num, (collector_thickness_check 0 (fun x => x) (5 / 10000) (50 / 10000)
      (25 / 10000) (50 / 10000) (5 / 10000) (25 / 100) (6 / 10000)).1.mpr (by norm_num)⟩⟩

/-- C16 at a failing input: for the electrode thickness `0.00123 cm`, whose value in
metres is `1.23e-5`, `convert_geometry_database` writes the text `0.000012`, and the box
that `read_component_database` builds from it has its first corner at the origin and
`box_dimensions[1][0] = 1.2e-5`, which is not the thickness. For the thickness
`0.005 cm` the same path gives `5e-5`, the thickness. -/
theorem thickness_rounded_by_text :
    (∃ out, convert_geometry_database 0 (fun x => x)
        (geometry_database (5 / 10000) (123 / 100000) (25 / 10000) (50 / 10000) (5 / 10000)
          (25 / 100) (5 / 10000)) = Except.ok out ∧
      (read_component_database { divisions := [10, 5], dimensions := out.anode }
          (Component.new (0 + 2))).box_dimensions[0]? = some 0 ∧
      ((read_component_database { divisions := [10, 5], dimensions := out.anode }
          (Component.new (0 + 2))).box_dimensions.getD 1 0) 0 = 3 / 250000 ∧
      ((read_component_database { divisions := [10, 5], dimensions := out.anode }
          (Component.new (0 + 2))).box_dimensions.getD 1 0) 0 ≠ 123 / 100000 * (1 / 100)) ∧
    (∃ out, convert_geometry_database 0 (fun x => x)
        (geometry_database (5 / 10000) (50 / 10000) (25 / 10000) (50 / 10000) (5 / 10000)
          (25 / 100) (5 / 10000)) = Except.ok out ∧
      ((read_component_database { divisions := [10, 5], dimensions := out.anode }
          (Component.new (0 + 2))).box_dimensions.getD 1 0) 0 = 50 / 10000 * (1 / 100)) := by
  have h1 : to_string_value (123 / 100000 * (1 / 100)) = 3 / 250000 := by
    have hfl : ⌊(123 / 100000 * (1 / 100) * 10 ^ 6 : ℚ)⌋ = 12 := by
      rw [Int.floor_eq_iff]
      constructor <;> norm_num
    rw [to_string_value_of_floor _ 12 hfl (by norm_num)]
    norm_num
  have h2 : to_string_value (50 / 10000 * (1 / 100)) = 50 / 10000 * (1 / 100) := by
    have hfl : ⌊(50 / 10000 * (1 / 100) * 10 ^ 6 : ℚ)⌋ = 50 := by
      rw [Int.floor_eq_iff]
      constructor <;> norm_num
    rw [to_string_value_of_floor _ 50 hfl (by norm_num)]
    norm_num
  refine ⟨⟨_, convert_geometry_database_two _ _ _ _ _ _ _, rfl, ?_, ?_⟩,
    ⟨_, convert_geometry_database_two _ _ _ _ _ _ _, ?_⟩⟩
  · show to_string_value (123 / 100000 * (1 / 100)) = 3 / 250000
    exact h1
  · show to_string_value (123 / 100000 * (1 / 100)) ≠ 123 / 100000 * (1 / 100)
    rw [h1]
    norm_num
  · show to_string_value (50 / 10000 * (1 / 100)) = 50 / 10000 * (1 / 100)
    exact h2

/-- C14 at a failing input: the configured catalog with the single material name `anode`
is built by `fill_material_and_boundary_maps(database)`, and `compute_cell_weight` on a
cell of material id `3` returns the sentinel and leaves a materials map with the three
new names `cathode`, `separator` and `collector`, each with the empty set. -/
theorem catalog_grows_on_weight_lookup :
    fill_material_and_boundary_maps anode_only_database =
      Except.ok ([("anode", {7})], []) ∧
    (compute_cell_weight [("anode", {7})] 3 sample_weights).1 = invalid_unsigned_int ∧
    (compute_cell_weight [("anode", {7})] 3 sample_weights).2 =
      [("anode", {7}), ("cathode", ∅), ("separator", ∅), ("collector", ∅)] ∧
    (compute_cell_weight [("anode", {7})] 3 sample_weights).2 ≠ [("anode", {7})] := by
  refine ⟨rfl, rfl, rfl, ?_⟩
  have h : (compute_cell_weight [("anode", {7})] 3 sample_weights).2 =
      [("anode", {7}), ("cathode", ∅), ("separator", ∅), ("collector", ∅)] := rfl
  rw [h]
  intro hc
  have := congrArg List.length hc
  simp at this

/-- C21 as stated fails: on a rank that owns neither of the two terminal cells of the
sample stack, the pass for `collector_anode` still sets the local flag and tags face `3`
of the cell of material id `3`, whose centre lies at the terminal coordinate `3/2`, and
`set_boundary_ids` returns with face `3` tagged `1` and face `6` tagged `2`. -/
theorem unowned_cell_counterexample :
    (∀ cell ∈ ghost_tria.cells, cell.is_locally_owned = false) ∧
    ghost_tria.boundary_id 3 = 0 ∧
    (tag_terminal (default_materials.tags "collector_anode") false (3 / 2) 1 ghost_tria).2 = 1 ∧
    (tag_terminal (default_materials.tags "collector_anode") false (3 / 2) 1
      ghost_tria).1.boundary_id 3 = 1 ∧
    ∃ r, set_boundary_ids default_materials default_boundaries [ghost_tria] (3 / 2) (-1 / 2) =
        Except.ok r ∧
      r.1.map (fun tria => (tria.boundary_id 3, tria.boundary_id 6)) = [(1, 2)] := by
  have hown : ∀ cell ∈ ghost_tria.cells, cell.is_locally_owned = false := by
    intro cell hc
    rw [ghost_tria_cells] at hc
    simp only [List.mem_cons, List.mem_singleton, List.not_mem_nil, or_false] at hc
    rcases hc with h | h <;> rw [h]
  have h3 : is_terminal_face (default_materials.tags "collector_anode") (3 / 2)
      ghost_tria 3 := by
    rw [default_materials_tags.2.2.2.2.1]
    refine ⟨⟨3, false, true, 1 / 100000, [0, 1, 2, 3]⟩, ?_, ?_, rfl, ?_, ?_⟩
    · rw [ghost_tria_cells]
      exact List.mem_cons_self _ _
    · decide
    · decide
    · norm_num [ghost_tria, with_ownership, sample_tria, boundary_eps, Fin.last]
  have h6 : is_terminal_face (default_materials.tags "collector_cathode") (-1 / 2)
      ghost_tria 6 := by
    rw [default_materials_tags.2.2.2.2.2]
    refine ⟨⟨4, false, true, 1 / 100000, [4, 5, 6, 7]⟩, ?_, ?_, rfl, ?_, ?_⟩
    · rw [ghost_tria_cells]
      exact List.mem_cons_of_mem _ (List.mem_cons_self _ _)
    · decide
    · decide
    · norm_num [ghost_tria, with_ownership, sample_tria, boundary_eps, Fin.last]
  have hn3 : ¬ is_terminal_face (default_materials.tags "collector_cathode") (-1 / 2)
      ghost_tria 3 := by
    rw [default_materials_tags.2.2.2.2.2]
    rintro ⟨cell, hc, hm, _, hf, _⟩
    rw [ghost_tria_cells] at hc
    simp only [List.mem_cons, List.mem_singleton, List.not_mem_nil, or_false] at hc
    rcases hc with h | h
    · rw [h] at hm
      exact absurd hm (by decide)
    · rw [h] at hf
      exact absurd hf (by decide)
  have ha : has_terminal_face (default_materials.tags "collector_anode") (3 / 2)
      [ghost_tria] := by
    obtain ⟨cell, hc, hm, hb, hf, hlt⟩ := h3
    exact ⟨_, List.mem_singleton_self _, cell, hc, hm, hb, 3, hf, hlt⟩
  have hc : has_terminal_face (default_materials.tags "collector_cathode") (-1 / 2)
      [ghost_tria] := by
    obtain ⟨cell, hc, hm, hb, hf, hlt⟩ := h6
    exact ⟨_, List.mem_singleton_self _, cell, hc, hm, hb, 6, hf, hlt⟩
  have hflag := (tag_terminal_flag (default_materials.tags "collector_anode") (3 / 2) 1
    ghost_tria).mpr (by
      obtain ⟨cell, hc, hm, hb, hf, hlt⟩ := h3
      exact ⟨cell, hc, hm, hb, 3, hf, hlt⟩)
  have htag := (tag_terminal_ids (default_materials.tags "collector_anode") (3 / 2) 1
    ghost_tria 3).1 h3
  refine ⟨hown, rfl, hflag, htag, _,
    set_boundary_ids_ok default_materials default_boundaries [ghost_tria] (3 / 2) (-1 / 2)
      1 2 rfl ha rfl hc, ?_⟩
  simp only [List.map_cons, List.map_nil, List.cons.injEq, Prod.mk.injEq, and_true]
  constructor
  · exact ((tag_terminal_ids (default_materials.tags "collector_cathode") (-1 / 2) 2
      (tag_terminal (default_materials.tags "collector_anode") false (3 / 2) 1
        ghost_tria).1 3).2 hn3).trans htag
  · exact (tag_terminal_ids (default_materials.tags "collector_cathode") (-1 / 2) 2
      (tag_terminal (default_materials.tags "collector_anode") false (3 / 2) 1
        ghost_tria).1 6).1 h6

/-- C21, as the code has it: `set_boundary_ids` builds its cell filter with
`only_locally_owned = false`, so on every rank it scans every cell whose material id is in
the terminal class, locally owned or not. In each of the two passes a cell of the class
that is not locally owned, lies at the boundary and has a face whose centre matches the
terminal coordinate has that face tagged and sets the local flag of the rank; and the
outcome of `set_boundary_ids` is the same whatever the ownership flags of the cells are. -/
theorem scan_ignores_ownership {d : Nat} (materials boundaries : TagMap)
    (ranks : List (TriaView (d + 2))) (collector_top collector_bottom : ℚ) :
    (∀ (material_ids : Finset Nat) (cell : CellView),
      MaterialIdEqualTo material_ids false cell = true ↔ cell.material_id ∈ material_ids) ∧
    (∀ (material_ids : Finset Nat) (expected : ℚ) (id : Nat) (tria : TriaView (d + 2))
      (cell : CellView) (f : Nat),
      cell ∈ tria.cells → cell.is_locally_owned = false →
      cell.material_id ∈ material_ids → cell.at_boundary = true → f ∈ cell.faces →
      |tria.face_center f (Fin.last (d + 1)) - expected| < boundary_eps * cell.measure →
      (tag_terminal material_ids false expected id tria).2 = 1 ∧
        (tag_terminal material_ids false expected id tria).1.boundary_id f = id) ∧
    (∀ own : CellView → Bool,
      set_boundary_ids materials boundaries (ranks.map (with_ownership own)) collector_top
          collector_bottom =
        (set_boundary_ids materials boundaries ranks collector_top collector_bottom).map
          (fun r => (r.1.map (with_ownership own), r.2))) := by
  refine ⟨MaterialIdEqualTo_false, ?_, ?_⟩
  · intro material_ids expected id tria cell f hc _ hm hb hf hlt
    exact ⟨(tag_terminal_flag material_ids expected id tria).mpr ⟨cell, hc, hm, hb, f, hf, hlt⟩,
      (tag_terminal_ids material_ids expected id tria f).1 ⟨cell, hc, hm, hb, hf, hlt⟩⟩
  · intro own
    exact set_boundary_ids_with_ownership materials boundaries ranks collector_top
      collector_bottom own

/-- C21, as the code has it, on the sample terminal cells seen by a rank that owns neither:
the cathode pass tags face `6` of the cell of material id `4` and sets the local flag, and
with the default catalog `set_boundary_ids` on that rank is `set_boundary_ids` on the
owning rank with the ownership flags cleared. -/
theorem scan_ignores_ownership_witness :
    ((tag_terminal {4} false (-1 / 2) 2 ghost_tria).2 = 1 ∧
      (tag_terminal {4} false (-1 / 2) 2 ghost_tria).1.boundary_id 6 = 2) ∧
    set_boundary_ids default_materials default_boundaries [ghost_tria] (3 / 2) (-1 / 2) =
      (set_boundary_ids default_materials default_boundaries [sample_tria] (3 / 2)
        (-1 / 2)).map
        (fun r => (r.1.map (with_ownership (fun _ => false)), r.2)) :=
  ⟨(scan_ignores_ownership default_materials default_boundaries [sample_tria] (3 / 2)
      (-1 / 2)).2.1 {4} (-1 / 2) 2 ghost_tria
      { material_id := 4, is_locally_owned := false, at_boundary := true,
        measure := 1 / 100000, faces := [4, 5, 6, 7] } 6
      (by rw [ghost_tria_cells]; exact List.mem_cons_of_mem _ (List.mem_cons_self _ _))
      rfl (by decide) rfl (by decide)
      (by norm_num [ghost_tria, with_ownership, sample_tria, boundary_eps, Fin.last]),
    (scan_ignores_ownership default_materials default_boundaries [sample_tria] (3 / 2)
      (-1 / 2)).2.2 (fun _ => false)⟩

/-- C22 at a failing input: the default mesh of the mesh type `supercapacitor`. The
constructor writes the divisions `1,6 / 10,5 / 5,5 / 10,5` in two dimensions and
`3,3,3 / 5,5,2 / 4,4,2 / 5,5,2` in three, with `n_repetitions = 0`, so the loop returns
after four merges, and `convert_geometry_database` gives the electrodes, the separator and
in three dimensions also the collectors the same extent along axis `1`.
In two dimensions no node hangs: on each of the four planes between two layers, a point
between the heights `0` and `A` of the electrodes is a node of the layer on one side
exactly when it is a node of the layer on the other side.
In three dimensions nodes hang along axis `1`, where the collectors have `3`, the
electrodes `5` and the separator `4` subdivisions of the same width `W > 0`: the anode has
a node at `W / 5` on the plane where the separator starts and one on the plane where the
anode starts, and no node of the separator and no node of `collector_a` has the coordinate
`W / 5` along axis `1`. -/
theorem default_mesh_nodes :
    (supercapacitor_divisions 0 =
        { collector := [1, 6], anode := [10, 5], separator := [5, 5], cathode := [10, 5] } ∧
      supercapacitor_divisions 1 =
        { collector := [3, 3, 3], anode := [5, 5, 2], separator := [4, 4, 2],
          cathode := [5, 5, 2] }) ∧
    (∀ (d : Nat) (dimensions : ComponentDimensions),
      stack_merge (supercapacitor_components d dimensions)
          (supercapacitor_database d dimensions) 2 =
        some (merge_run (supercapacitor_components d dimensions) 4)) ∧
    (∀ (d : Nat) (sqrt : ℚ → ℚ) (database : GeometryDatabase) (mesh_database : Database),
      Geometry_supercapacitor d sqrt database = Except.ok mesh_database →
      ∃ dimensions, mesh_database = supercapacitor_database d dimensions ∧
        dimensions.separator.getD 1 0 = dimensions.anode.getD 1 0 ∧
        dimensions.cathode.getD 1 0 = dimensions.anode.getD 1 0 ∧
        (d ≠ 0 → dimensions.collector.getD 1 0 = dimensions.anode.getD 1 0)) ∧
    (∀ (dimensions : ComponentDimensions) (A C : ℚ),
      0 < A → A < C → transform_eps ≤ C / 6 →
      dimensions.anode.getD 1 0 = A → dimensions.separator.getD 1 0 = A →
      dimensions.cathode.getD 1 0 = A → dimensions.collector.getD 1 0 = C →
      0 ≤ dimensions.collector.getD 0 0 → 0 ≤ dimensions.anode.getD 0 0 →
      0 ≤ dimensions.separator.getD 0 0 → 0 ≤ dimensions.cathode.getD 0 0 →
      ∀ v : Point (0 + 2), 0 ≤ v 1 → v 1 ≤ A →
        (v 0 = layer_start (supercapacitor_components 0 dimensions) 0 →
          (is_node (merge_run (supercapacitor_components 0 dimensions) 4).triangulation 3 v ↔
            is_node (merge_run (supercapacitor_components 0 dimensions) 4).triangulation 0
              v)) ∧
        (v 0 = layer_start (supercapacitor_components 0 dimensions) 1 →
          (is_node (merge_run (supercapacitor_components 0 dimensions) 4).triangulation 0 v ↔
            is_node (merge_run (supercapacitor_components 0 dimensions) 4).triangulation 1
              v)) ∧
        (v 0 = layer_start (supercapacitor_components 0 dimensions) 2 →
          (is_node (merge_run (supercapacitor_components 0 dimensions) 4).triangulation 1 v ↔
            is_node (merge_run (supercapacitor_components 0 dimensions) 4).triangulation 2
              v)) ∧
        (v 0 = layer_start (supercapacitor_components 0 dimensions) 3 →
          (is_node (merge_run (supercapacitor_components 0 dimensions) 4).triangulation 2 v ↔
            is_node (merge_run (supercapacitor_components 0 dimensions) 4).triangulation 4
              v))) ∧
    (∀ (dimensions : ComponentDimensions) (W : ℚ),
      0 < W → dimensions.anode.getD 1 0 = W → dimensions.separator.getD 1 0 = W →
      dimensions.collector.getD 1 0 = W → 0 ≤ dimensions.anode.getD 0 0 →
      (∃ v : Point (1 + 2),
        is_node (merge_run (supercapacitor_components 1 dimensions) 4).triangulation 0 v ∧
          v 0 = layer_start (supercapacitor_components 1 dimensions) 1 ∧ v 1 = W / 5 ∧
          ¬ is_node (merge_run (supercapacitor_components 1 dimensions) 4).triangulation 1
            v) ∧
      (∃ v : Point (1 + 2),
        is_node (merge_run (supercapacitor_components 1 dimensions) 4).triangulation 0 v ∧
          v 0 = layer_start (supercapacitor_components 1 dimensions) 0 ∧ v 1 = W / 5 ∧
          ¬ is_node (merge_run (supercapacitor_components 1 dimensions) 4).triangulation 3
            v) ∧
      (∀ u : Point (1 + 2),
        is_node (merge_run (supercapacitor_components 1 dimensions) 4).triangulation 1 u →
          u 1 ≠ W / 5) ∧
      (∀ u : Point (1 + 2),
        is_node (merge_run (supercapacitor_components 1 dimensions) 4).triangulation 3 u →
          u 1 ≠ W / 5)) := by
  refine ⟨⟨rfl, rfl⟩, ?_, ?_, ?_, ?_⟩
  · intro d dimensions
    exact stack_merge_eq _ _ 0 2 rfl (by norm_num) (by norm_num)
  · intro d sqrt database mesh_database h
    unfold Geometry_supercapacitor at h
    cases hconv : convert_geometry_database d sqrt database with
    | error e =>
      rw [hconv] at h
      contradiction
    | ok dimensions =>
      rw [hconv] at h
      exact ⟨dimensions, (Except.ok.inj h).symm,
        convert_geometry_database_transverse d sqrt database dimensions hconv⟩
  · intro dimensions A C hA hAC hd ha hs hk hc htc hta hts htk v h0 h1
    have hlat := fun m hv =>
      supercapacitor_two_lattice dimensions A C hA hAC hd ha hs hk hc m v hv h0 h1
    have hex := supercapacitor_two_nodes dimensions A C hA hAC hd ha hs hk hc htc hta hts htk
    have hv2 : ∀ (x : ℚ) (k : Nat), v 0 = x → v 1 = (k : ℚ) * (A / 5) →
        v = ![x, (k : ℚ) * (A / 5)] := by
      intro x k hx hy
      funext i
      fin_cases i
      · exact hx
      · exact hy
    refine ⟨fun hx => ⟨fun hv => ?_, fun hv => ?_⟩, fun hx => ⟨fun hv => ?_, fun hv => ?_⟩,
      fun hx => ⟨fun hv => ?_, fun hv => ?_⟩, fun hx => ⟨fun hv => ?_, fun hv => ?_⟩⟩
    · obtain ⟨k, hk5, hy⟩ := hlat 3 hv
      rw [hv2 _ k hx hy]
      exact (hex k hk5).1.2
    · obtain ⟨k, hk5, hy⟩ := hlat 0 hv
      rw [hv2 _ k hx hy]
      exact (hex k hk5).1.1
    · obtain ⟨k, hk5, hy⟩ := hlat 0 hv
      rw [hv2 _ k hx hy]
      exact (hex k hk5).2.1.2
    · obtain ⟨k, hk5, hy⟩ := hlat 1 hv
      rw [hv2 _ k hx hy]
      exact (hex k hk5).2.1.1
    · obtain ⟨k, hk5, hy⟩ := hlat 1 hv
      rw [hv2 _ k hx hy]
      exact (hex k hk5).2.2.1.2
    · obtain ⟨k, hk5, hy⟩ := hlat 2 hv
      rw [hv2 _ k hx hy]
      exact (hex k hk5).2.2.1.1
    · obtain ⟨k, hk5, hy⟩ := hlat 2 hv
      rw [hv2 _ k hx hy]
      exact (hex k hk5).2.2.2.2
    · obtain ⟨k, hk5, hy⟩ := hlat 4 hv
      rw [hv2 _ k hx hy]
      exact (hex k hk5).2.2.2.1
  · intro dimensions W hW ha hs hc ht
    have hminW : min 0 W = 0 := min_eq_left (le_of_lt hW)
    have hmaxW : max 0 W = W := max_eq_right (le_of_lt hW)
    have hW0 : W ≠ 0 := ne_of_gt hW
    have hsep : ∀ u : Point (1 + 2),
        is_node (merge_run (supercapacitor_components 1 dimensions) 4).triangulation 1 u →
          u 1 ≠ W / 5 := by
      intro u hu
      obtain ⟨n, W2, j, hm, hj, hcoord⟩ := supercapacitor_three_axis_one dimensions 1 u hu
      rcases hm with ⟨h, _, _⟩ | ⟨h, _, _⟩ | ⟨_, rfl, rfl⟩ | ⟨h, _, _⟩ | ⟨h, _, _⟩
      · exact absurd h (by decide)
      · exact absurd h (by decide)
      · rw [hcoord, hs, hminW, hmaxW]
        intro heq
        have h5 : (j : ℚ) * 5 = 4 := by
          field_simp at heq
          exact mul_left_cancel₀ hW0 (by linarith)
        have h5n : j * 5 = 4 := by exact_mod_cast h5
        omega
      · exact absurd h (by decide)
      · exact absurd h (by decide)
    have hcol : ∀ u : Point (1 + 2),
        is_node (merge_run (supercapacitor_components 1 dimensions) 4).triangulation 3 u →
          u 1 ≠ W / 5 := by
      intro u hu
      obtain ⟨n, W2, j, hm, hj, hcoord⟩ := supercapacitor_three_axis_one dimensions 3 u hu
      rcases hm with ⟨_, rfl, rfl⟩ | ⟨h, _, _⟩ | ⟨h, _, _⟩ | ⟨h, _, _⟩ | ⟨h, _, _⟩
      · rw [hcoord, hc, hminW, hmaxW]
        intro heq
        have h5 : (j : ℚ) * 5 = 3 := by
          field_simp at heq
          exact mul_left_cancel₀ hW0 (by linarith)
        have h5n : j * 5 = 3 := by exact_mod_cast h5
        omega
      · exact absurd h (by decide)
      · exact absurd h (by decide)
      · exact absurd h (by decide)
      · exact absurd h (by decide)
    obtain ⟨⟨v0, hv0, hx0, hy0⟩, ⟨v1, hv1, hx1, hy1⟩⟩ :=
      supercapacitor_three_anode_nodes dimensions W hW ha ht
    exact ⟨⟨v1, hv1, hx1, hy1, fun h => hsep v1 h hy1⟩,
      ⟨v0, hv0, hx0, hy0, fun h => hcol v0 h hy0⟩, hsep, hcol⟩

/-- C22 on `supercapacitor_geometry`, which the constructor converts to the dimensions
`supercapacitor_dimensions_two` and `supercapacitor_dimensions_three`: in two dimensions, with electrodes of height `2.5e-5`
and collectors of height `3e-5`, the anode and the separator have the same nodes on the
plane between them; in three dimensions, with the width `W = 0.005`, the anode has a node at
`W / 5 = 0.001` on the plane where the separator starts that is no node of the separator,
and no node of the separator or of `collector_a` lies at `0.001` along axis `1`. -/
theorem default_mesh_nodes_witness :
    (Geometry_supercapacitor 0 Rat.sqrt supercapacitor_geometry =
        Except.ok (supercapacitor_database 0 supercapacitor_dimensions_two) ∧
      Geometry_supercapacitor 1 Rat.sqrt supercapacitor_geometry =
        Except.ok (supercapacitor_database 1 supercapacitor_dimensions_three)) ∧
    ((0 : ℚ) < 1 / 40000 ∧ (1 : ℚ) / 40000 < 3 / 100000 ∧
      transform_eps ≤ (3 / 100000 : ℚ) / 6 ∧ (0 : ℚ) < 1 / 200) ∧
    (∀ v : Point (0 + 2), 0 ≤ v 1 → v 1 ≤ 1 / 40000 →
      v 0 = layer_start (supercapacitor_components 0 supercapacitor_dimensions_two) 1 →
      (is_node (merge_run (supercapacitor_components 0 supercapacitor_dimensions_two)
          4).triangulation 0 v ↔
        is_node (merge_run (supercapacitor_components 0 supercapacitor_dimensions_two)
          4).triangulation 1 v)) ∧
    (∃ v : Point (1 + 2),
      is_node (merge_run (supercapacitor_components 1 supercapacitor_dimensions_three)
          4).triangulation 0 v ∧
        v 0 = layer_start (supercapacitor_components 1 supercapacitor_dimensions_three) 1 ∧
        v 1 = 1 / 200 / 5 ∧
        ¬ is_node (merge_run (supercapacitor_components 1 supercapacitor_dimensions_three)
          4).triangulation 1 v) ∧
    (∀ u : Point (1 + 2),
      is_node (merge_run (supercapacitor_components 1 supercapacitor_dimensions_three)
          4).triangulation 1 u → u 1 ≠ 1 / 200 / 5) ∧
    (∀ u : Point (1 + 2),
      is_node (merge_run (supercapacitor_components 1 supercapacitor_dimensions_three)
          4).triangulation 3 u → u 1 ≠ 1 / 200 / 5) :=
  ⟨supercapacitor_geometry_converted,
    ⟨by norm_num, by norm_num, by norm_num [transform_eps], by norm_num⟩,
    fun v h0 h1 =>
      (default_mesh_nodes.2.2.2.1 supercapacitor_dimensions_two (1 / 40000) (3 / 100000)
        (by norm_num) (by norm_num) (by norm_num [transform_eps]) rfl rfl rfl rfl
        (by norm_num [supercapacitor_dimensions_two])
        (by norm_num [supercapacitor_dimensions_two])
        (by norm_num [supercapacitor_dimensions_two])
        (by norm_num [supercapacitor_dimensions_two]) v h0 h1).2.1,
    (default_mesh_nodes.2.2.2.2 supercapacitor_dimensions_three (1 / 200) (by norm_num)
      rfl rfl rfl (by norm_num [supercapacitor_dimensions_three])).1,
    (default_mesh_nodes.2.2.2.2 supercapacitor_dimensions_three (1 / 200) (by norm_num)
      rfl rfl rfl (by norm_num [supercapacitor_dimensions_three])).2.2.1,
    (default_mesh_nodes.2.2.2.2 supercapacitor_dimensions_three (1 / 200) (by norm_num)
      rfl rfl rfl (by norm_num [supercapacitor_dimensions_three])).2.2.2⟩

end cap
